import Mathlib

/-!
Convolution / deconvolution layer of the dnn module

A shallow embedding of `modules/dnn/src/layers/convolution_layer.cpp`.

* C++ `int` values are modelled as unbounded `Int`; `/` and `%` on `int` are the
  truncating `Int.tdiv` and `Int.tmod`.  Signed overflow is undefined behaviour in C++
  and lies outside the model.
* Undefined behaviour that the model can name (division by zero, reading past the end of
  a vector or buffer) is the outcome `Error.Undefined`.
* A failing `CV_Assert` is the outcome `Error.StsAssert`, `CV_Error(code, ..)` the outcome
  with that code.  Every stateful function returns the state reached together with the
  error, if any, so that the state at the point of failure can be inspected.
* Tensor elements are modelled as integers (exact arithmetic).
-/

namespace cv.dnn

/-! ## Data model -/

/-- Outcomes other than normal return. -/
inductive Error where
  | StsAssert
  | StsNotImplemented
  | StsInternal
  | StsUnmatchedSizes
  | StsError
  | Undefined
  deriving DecidableEq

/-- Element type of a tensor (`Mat::type()`). -/
inductive Depth where
  | CV_32F
  | CV_64F
  | CV_other
  deriving DecidableEq

/-- Storage location requested at allocation (`Blob::ALLOC_MAT`, `Blob::ALLOC_UMAT`). -/
inductive AllocFlag where
  | ALLOC_MAT
  | ALLOC_UMAT
  deriving DecidableEq

/-- The pair type `cv::Size`. -/
structure Size where
  width : Int
  height : Int
  deriving DecidableEq

/-- Modelled from the spec: the tensor container (`Blob`), whose class is declared outside
this file.  A blob is its shape, element type, storage location and its elements in
row-major order, addressed by flat index. -/
structure Blob where
  shape : List Nat
  type : Depth
  alloc : AllocFlag
  data : Nat → Int

/-- The default-constructed (empty) blob. -/
def Blob.empty : Blob := ⟨[], Depth.CV_32F, AllocFlag.ALLOC_MAT, fun _ => 0⟩

instance : Inhabited Blob := ⟨Blob.empty⟩

/-- Number of axes, `Blob::dims()`. -/
def Blob.dims (b : Blob) : Int := (b.shape.length : Int)

/-- Size of one axis, `1` when the blob has no such axis (`Blob::xsize`). -/
def Blob.xsize (b : Blob) (axis : Nat) : Int := ((b.shape.getD axis 1 : Nat) : Int)

/-- Batch size, `Blob::num()`. -/
def Blob.num (b : Blob) : Int := b.xsize 0

/-- Channel count, `Blob::channels()`. -/
def Blob.channels (b : Blob) : Int := b.xsize 1

/-- Height, `Blob::rows()`. -/
def Blob.rows (b : Blob) : Int := b.xsize 2

/-- Width, `Blob::cols()`. -/
def Blob.cols (b : Blob) : Int := b.xsize 3

/-- Element count, `Blob::total()`; an empty blob has none. -/
def Blob.total (b : Blob) : Nat := if b.shape = [] then 0 else b.shape.prod

/-- Modelled from the spec: `create(shape, type, location)` of the tensor container.  A
negative extent is rejected; the elements of the new buffer are not written. -/
def Blob.create (b : Blob) (shape : List Int) (type : Depth) (alloc : AllocFlag) :
    Except Error Blob :=
  if shape.all (fun d => decide (0 ≤ d)) then
    Except.ok { b with shape := shape.map Int.toNat, type := type, alloc := alloc }
  else Except.error Error.StsAssert

/-- Fill with one value, `Blob::setTo`. -/
def Blob.setTo (b : Blob) (v : Int) : Blob := { b with data := fun _ => v }

/-- Geometry handed to a sliding-window kernel, in the order of the C++ argument list. -/
structure Geometry where
  channels : Int
  height : Int
  width : Int
  kernel_h : Int
  kernel_w : Int
  pad_h : Int
  pad_w : Int
  stride_h : Int
  stride_w : Int
  dilation_h : Int
  dilation_w : Int
  height_out : Int
  width_out : Int
  deriving DecidableEq

/-- The collaborators of the layer that are declared outside this file. -/
structure Env where
  /-- Whether `ocl::useOpenCL()` holds. -/
  oclUseOpenCL : Bool
  /-- The shape utility `getConvPoolOutParams(inpH, inpW, kernel, stride, pad, padMode, outH, outW)`;
  it returns the new `pad`, `outH` and `outW`, or fails. -/
  getConvPoolOutParams : Int → Int → Size → Size → Size → String → Except Error (Size × Int × Int)
  /-- The host kernel `im2row_CpuPBody<T>::run`: from the elements of one channel slice and
  the geometry, the elements it stores in the row buffer. -/
  im2row_run : List Int → Geometry → Nat → Int

/-- Which of the two layers an instance is. -/
inductive LayerKind where
  | Convolution
  | Deconvolution
  deriving DecidableEq

/-- The members of `BaseConvolutionLayerImpl`. -/
structure Layer where
  layerKind : LayerKind
  kernel : Size
  stride : Size
  pad : Size
  dilation : Size
  adjustPad : Size
  padMode : String
  blobs : List Blob
  tryUseOpenCL : Bool
  numOutput : Int
  group : Int
  inpH : Int
  inpW : Int
  inpCn : Int
  outH : Int
  outW : Int
  outCn : Int
  inpGroupCn : Int
  outGroupCn : Int
  ksize : Int
  bias : Bool
  useOpenCL : Bool
  colRowBlobShape : List Int
  biasOnesBlob : Blob
  colRowBlob : Blob

/-- The constructor `BaseConvolutionLayerImpl()` followed by the assignments of
`ConvolutionLayer::create` / `DeconvolutionLayer::create`. -/
def Layer.create (k : LayerKind) (kernel stride pad dilation adjustPad : Size) : Layer :=
  { layerKind := k, kernel := kernel, stride := stride, pad := pad, dilation := dilation,
    adjustPad := adjustPad, padMode := String.mk [], blobs := [], tryUseOpenCL := false,
    numOutput := -1, group := -1, inpH := 0, inpW := 0, inpCn := 0, outH := 0, outW := 0,
    outCn := 0, inpGroupCn := 0, outGroupCn := 0, ksize := 0, bias := false,
    useOpenCL := false, colRowBlobShape := [], biasOnesBlob := Blob.empty,
    colRowBlob := Blob.empty }

/-- A sequential `for (i = 0; i < n; i++)` loop that stops at the first failure. -/
def loopFrom {σ : Type} (body : Nat → σ → Option Error × σ) : Nat → Nat → σ → Option Error × σ
  | 0, _, s => (none, s)
  | k + 1, i, s =>
    match body i s with
    | (some e, s') => (some e, s')
    | (none, s') => loopFrom body k (i + 1) s'

/-- The loop `for (i = 0; i < n; i++) body`. -/
def forLoop {σ : Type} (n : Nat) (body : Nat → σ → Option Error × σ) (s : σ) : Option Error × σ :=
  loopFrom body n 0 s

/-! ## Shape inference -/

/-- `BaseConvolutionLayerImpl::init`. -/
def BaseConvolutionLayerImpl.init (env : Env) (l : Layer) : Option Error × Layer :=
  if ¬ (1 ≤ l.blobs.length ∧ l.blobs.length ≤ 2) then (some Error.StsAssert, l) else
  match l.blobs with
  | [] => (some Error.Undefined, l)
  | w :: _ =>
    if ¬ (w.dims = 4 ∧ w.cols = l.kernel.width ∧ w.rows = l.kernel.height) then
      (some Error.StsAssert, l)
    else
      (none, { l with
        bias := decide (2 ≤ l.blobs.length),
        useOpenCL := env.oclUseOpenCL && l.tryUseOpenCL && decide (l.dilation = Size.mk 1 1) })

/-- `BaseConvolutionLayerImpl::is1x1`. -/
def BaseConvolutionLayerImpl.is1x1 (l : Layer) : Bool :=
  (decide (l.kernel.height = 1) && decide (l.kernel.width = 1)) &&
  (decide (l.stride.height = 1) && decide (l.stride.width = 1)) &&
  (decide (l.dilation.height = 1) && decide (l.dilation.width = 1))

/-- The right-hand side of the assignments to `outH` / `outW` in
`ConvolutionLayerImpl::computeInpOutShape` (lines 138-139), one axis. -/
def convOutSize (inpSize pad dilation kernel stride : Int) : Int :=
  (inpSize + 2 * pad - (dilation * (kernel - 1) + 1)).tdiv stride + 1

/-- The right-hand side of the assignments to `outH` / `outW` in
`DeConvolutionLayerImpl::computeInpOutShape` (lines 280-281), one axis. -/
def deconvOutSize (inpSize pad kernel stride adjustPad : Int) : Int :=
  stride * (inpSize - 1) + kernel - 2 * pad + adjustPad

/-- The assertion `!bias || blobs[1].total() == (size_t)blobs[0].num()`. -/
def biasLengthOk (l : Layer) (w : Blob) : Except Error Bool :=
  if l.bias then
    match l.blobs[1]? with
    | none => Except.error Error.Undefined
    | some b => Except.ok (decide ((b.total : Int) = w.num))
  else Except.ok true

/-- Lines 129-134 of `ConvolutionLayerImpl::computeInpOutShape`: `numOutput`, the input
extents and `outCn`. -/
def ConvolutionLayerImpl.setInpShape (l : Layer) (w input : Blob) : Layer :=
  { l with numOutput := w.num, inpH := input.rows, inpW := input.cols,
           inpCn := input.channels, outCn := w.num }

/-- Lines 136-144 of `ConvolutionLayerImpl::computeInpOutShape`: `outH` and `outW`, from the
explicit pad or from the pad mode. -/
def ConvolutionLayerImpl.setOutSize (env : Env) (l : Layer) : Option Error × Layer :=
  if l.padMode.isEmpty then
    if l.stride.height = 0 ∨ l.stride.width = 0 then (some Error.Undefined, l)
    else
      (none, { l with
        outH := convOutSize l.inpH l.pad.height l.dilation.height l.kernel.height l.stride.height,
        outW := convOutSize l.inpW l.pad.width l.dilation.width l.kernel.width l.stride.width })
  else
    match env.getConvPoolOutParams l.inpH l.inpW l.kernel l.stride l.pad l.padMode with
    | Except.error e => (some e, l)
    | Except.ok (pad, outH, outW) => (none, { l with pad := pad, outH := outH, outW := outW })

/-- Lines 146-155 of `ConvolutionLayerImpl::computeInpOutShape`: the group count, its two
assertions, the per-group channel counts, `ksize` and the scratch shape. -/
def ConvolutionLayerImpl.setGroup (l : Layer) (w : Blob) : Option Error × Layer :=
  if w.channels = 0 then (some Error.Undefined, l) else
  let group := l.inpCn.tdiv w.channels
  if group = 0 then (some Error.Undefined, { l with group := group }) else
  if ¬ (l.inpCn.tmod group = 0 ∧ l.outCn.tmod group = 0) then
    (some Error.StsAssert, { l with group := group })
  else if ¬ (w.num = l.outCn ∧ w.channels = l.inpCn.tdiv group) then
    (some Error.StsAssert, { l with group := group })
  else
    let outGroupCn := l.outCn.tdiv group
    let inpGroupCn := l.inpCn.tdiv group
    let ksize := inpGroupCn * l.kernel.height * l.kernel.width
    (none, { l with group := group, outGroupCn := outGroupCn, inpGroupCn := inpGroupCn,
                    ksize := ksize, colRowBlobShape := [l.outH * l.outW, ksize] })

/-- `ConvolutionLayerImpl::computeInpOutShape`. -/
def ConvolutionLayerImpl.computeInpOutShape (env : Env) (l : Layer) (input : Blob) :
    Option Error × Layer :=
  match l.blobs[0]? with
  | none => (some Error.Undefined, l)
  | some w =>
    match biasLengthOk l w with
    | Except.error e => (some e, l)
    | Except.ok false => (some Error.StsAssert, l)
    | Except.ok true =>
      match ConvolutionLayerImpl.setOutSize env (ConvolutionLayerImpl.setInpShape l w input) with
      | (some e, l1) => (some e, l1)
      | (none, l1) => ConvolutionLayerImpl.setGroup l1 w

/-- Lines 274-282 of `DeConvolutionLayerImpl::computeInpOutShape`: `numOutput`, the input
extents, `outH`, `outW` and `outCn`. -/
def DeConvolutionLayerImpl.setInpOutShape (l : Layer) (w inpBlob : Blob) : Layer :=
  { l with numOutput := w.num, inpH := inpBlob.rows, inpW := inpBlob.cols,
           inpCn := inpBlob.channels,
           outH := deconvOutSize inpBlob.rows l.pad.height l.kernel.height l.stride.height
                     l.adjustPad.height,
           outW := deconvOutSize inpBlob.cols l.pad.width l.kernel.width l.stride.width
                     l.adjustPad.width,
           outCn := w.num }

/-- Lines 284-292 of `DeConvolutionLayerImpl::computeInpOutShape`: the group count, the
per-group channel counts and `ksize`, then the two assertions and the scratch shape. -/
def DeConvolutionLayerImpl.setGroup (l : Layer) (w : Blob) : Option Error × Layer :=
  if w.channels = 0 then (some Error.Undefined, l) else
  let group := l.inpCn.tdiv w.channels
  if group = 0 then (some Error.Undefined, { l with group := group }) else
  let outGroupCn := l.outCn.tdiv group
  let inpGroupCn := l.inpCn.tdiv group
  let ksize := outGroupCn * l.kernel.height * l.kernel.width
  if ¬ (l.inpCn.tmod group = 0 ∧ l.outCn.tmod group = 0) then
    (some Error.StsAssert, { l with group := group, outGroupCn := outGroupCn,
                                    inpGroupCn := inpGroupCn, ksize := ksize })
  else if ¬ (w.num = l.outCn ∧ w.channels = l.inpCn.tdiv group) then
    (some Error.StsAssert, { l with group := group, outGroupCn := outGroupCn,
                                    inpGroupCn := inpGroupCn, ksize := ksize })
  else
    (none, { l with group := group, outGroupCn := outGroupCn, inpGroupCn := inpGroupCn,
                    ksize := ksize, colRowBlobShape := [ksize, l.inpH * l.inpW] })

/-- `DeConvolutionLayerImpl::computeInpOutShape`. -/
def DeConvolutionLayerImpl.computeInpOutShape (l : Layer) (inpBlob : Blob) :
    Option Error × Layer :=
  match l.blobs[0]? with
  | none => (some Error.Undefined, l)
  | some w =>
    match biasLengthOk l w with
    | Except.error e => (some e, l)
    | Except.ok false => (some Error.StsAssert, l)
    | Except.ok true =>
      DeConvolutionLayerImpl.setGroup (DeConvolutionLayerImpl.setInpOutShape l w inpBlob) w

/-- The virtual call `computeInpOutShape(input)`. -/
def computeInpOutShape (env : Env) (l : Layer) (input : Blob) : Option Error × Layer :=
  match l.layerKind with
  | LayerKind.Convolution => ConvolutionLayerImpl.computeInpOutShape env l input
  | LayerKind.Deconvolution => DeConvolutionLayerImpl.computeInpOutShape l input

/-! ## Allocation -/

/-- The three assertions in the body of the loop over `inputs` in `allocate` (lines 90-92). -/
def inputAgrees (input b : Blob) : Bool :=
  decide (b.type = input.type) &&
  (decide (b.dims = 4) && decide (b.channels = input.channels)) &&
  (decide (b.rows = input.rows) && decide (b.cols = input.cols))

/-- The call `outputs.resize(n)` of `std::vector`. -/
def resize (outputs : List Blob) (n : Nat) : List Blob :=
  outputs.take n ++ List.replicate (n - outputs.length) Blob.empty

/-- Lines 99-103 of `allocate`: the all-ones row used for the bias. -/
def allocBiasOnes (l : Layer) (type : Depth) (allocFlags : AllocFlag) : Option Error × Layer :=
  if l.bias then
    match l.biasOnesBlob.create [1, l.outH * l.outW] type allocFlags with
    | Except.error e => (some e, l)
    | Except.ok b => (none, { l with biasOnesBlob := b.setTo 1 })
  else (none, l)

/-- Line 108 of `allocate`: the body of the loop creating the outputs. -/
def createOutput (l : Layer) (inputs : List Blob) (type : Depth) (allocFlags : AllocFlag)
    (i : Nat) (outputs : List Blob) : Option Error × List Blob :=
  match inputs[i]?, outputs[i]? with
  | some inp, some out =>
    match out.create [inp.num, l.outCn, l.outH, l.outW] type allocFlags with
    | Except.error e => (some e, outputs)
    | Except.ok b => (none, outputs.set i b)
  | _, _ => (some Error.Undefined, outputs)

/-- Lines 111-115 of `allocate`: the scratch buffer, unless the layer is 1x1. -/
def allocColRow (l : Layer) (type : Depth) (allocFlags : AllocFlag) : Option Error × Layer :=
  if !BaseConvolutionLayerImpl.is1x1 l then
    match l.colRowBlob.create l.colRowBlobShape type allocFlags with
    | Except.error e => (some e, l)
    | Except.ok b => (none, { l with colRowBlob := b.setTo 0 })
  else (none, l)

/-- `BaseConvolutionLayerImpl::allocate`: the error, if any, with the layer and the `outputs`
vector as the call leaves them. -/
def BaseConvolutionLayerImpl.allocate (env : Env) (l : Layer) (inputs outputs : List Blob) :
    Option Error × Layer × List Blob :=
  match inputs with
  | [] => (some Error.StsAssert, l, outputs)
  | input :: _ =>
    match BaseConvolutionLayerImpl.init env l with
    | (some e, l1) => (some e, l1, outputs)
    | (none, l1) =>
      if ¬ (input.dims = 4 ∧ (input.type = Depth.CV_32F ∨ input.type = Depth.CV_64F)) then
        (some Error.StsAssert, l1, outputs)
      else if ¬ (inputs.all (inputAgrees input) = true) then (some Error.StsAssert, l1, outputs)
      else
        match computeInpOutShape env l1 input with
        | (some e, l2) => (some e, l2, outputs)
        | (none, l2) =>
          match allocBiasOnes l2 input.type
              (if l2.useOpenCL then AllocFlag.ALLOC_UMAT else AllocFlag.ALLOC_MAT) with
          | (some e, l3) => (some e, l3, outputs)
          | (none, l3) =>
            match forLoop inputs.length
                (createOutput l3 inputs input.type
                  (if l3.useOpenCL then AllocFlag.ALLOC_UMAT else AllocFlag.ALLOC_MAT))
                (resize outputs inputs.length) with
            | (some e, outs) => (some e, l3, outs)
            | (none, outs) =>
              match allocColRow l3 input.type
                  (if l3.useOpenCL then AllocFlag.ALLOC_UMAT else AllocFlag.ALLOC_MAT) with
              | (e, l4) => (e, l4, outs)

/-! ## Reference collaborators and the scenario of the specification -/

/-- Modelled from the spec: the mathematical floor form of the convolution output size,
`floor((inpSize + 2*pad - (dilation*(kernel-1)+1)) / stride) + 1`, over the rationals. -/
def specConvOutSize (inpSize pad dilation kernel stride : Int) : Int :=
  Int.floor (((inpSize + 2 * pad - (dilation * (kernel - 1) + 1) : Int) : ℚ) / (stride : ℚ)) + 1

/-- Modelled from the spec: `im2row` gathers, for the output position `r` (row of the
buffer) and the kernel tap `c` (column), the input element under that tap, or zero in the
padding. -/
def im2rowRef (src : List Int) (geo : Geometry) (idx : Nat) : Int :=
  let ksz := geo.channels * geo.kernel_h * geo.kernel_w
  let r := (idx : Int).tdiv ksz
  let c := (idx : Int).tmod ksz
  let oh := r.tdiv geo.width_out
  let ow := r.tmod geo.width_out
  let ch := c.tdiv (geo.kernel_h * geo.kernel_w)
  let ki := (c.tmod (geo.kernel_h * geo.kernel_w)).tdiv geo.kernel_w
  let kj := c.tmod geo.kernel_w
  let y := oh * geo.stride_h - geo.pad_h + ki * geo.dilation_h
  let x := ow * geo.stride_w - geo.pad_w + kj * geo.dilation_w
  if 0 ≤ y ∧ y < geo.height ∧ 0 ≤ x ∧ x < geo.width then
    src.getD ((ch * geo.height + y) * geo.width + x).toNat 0
  else 0

/-- Modelled from the spec: the pad-mode shape utility, with the `VALID` convention (only
full windows) and the `SAME` convention (the output covers the input); other modes fail. -/
def getConvPoolOutParamsRef (inpH inpW : Int) (kernel stride pad : Size) (padMode : String) :
    Except Error (Size × Int × Int) :=
  if padMode = "VALID" then
    Except.ok (Size.mk 0 0, (inpH - kernel.height + stride.height).tdiv stride.height,
      (inpW - kernel.width + stride.width).tdiv stride.width)
  else if padMode = "SAME" then
    Except.ok (pad, (inpH - 1 + stride.height).tdiv stride.height,
      (inpW - 1 + stride.width).tdiv stride.width)
  else Except.error Error.StsError

/-- A host-only environment with the reference collaborators. -/
def refEnv : Env :=
  { oclUseOpenCL := false, getConvPoolOutParams := getConvPoolOutParamsRef,
    im2row_run := im2rowRef }

/-- A host blob of 32-bit floats with the given shape and elements. -/
def mkBlob (shape : List Nat) (elems : List Int) : Blob :=
  { shape := shape, type := Depth.CV_32F, alloc := AllocFlag.ALLOC_MAT,
    data := fun i => elems.getD i 0 }

/-- A convolution layer with the given geometry and learned blobs. -/
def mkConv (kernel stride pad dilation : Size) (blobs : List Blob) : Layer :=
  { Layer.create LayerKind.Convolution kernel stride pad dilation (Size.mk 0 0) with
    blobs := blobs }

/-! ## Scenario data -/

/-- The weight tensor (2, 3, 3, 3) of the concrete scenario, all ones. -/
def scenarioWeight : Blob := mkBlob [2, 3, 3, 3] (List.replicate 54 1)

/-- The input tensor (1, 3, 5, 5) of the concrete scenario, elements 0, 1, 2, ... -/
def scenarioInput : Blob :=
  { shape := [1, 3, 5, 5], type := Depth.CV_32F, alloc := AllocFlag.ALLOC_MAT,
    data := fun i => (i : Int) }

/-- The layer of the concrete scenario: kernel 3x3, stride 1, pad 1, dilation 1, no bias. -/
def scenarioLayer : Layer :=
  mkConv (Size.mk 3 3) (Size.mk 1 1) (Size.mk 1 1) (Size.mk 1 1) [scenarioWeight]

/-- A layer whose 4x4 kernel does not fit the 1x1 input: stride 2, no pad. -/
def oversizedKernelLayer : Layer :=
  mkConv (Size.mk 4 4) (Size.mk 2 2) (Size.mk 0 0) (Size.mk 1 1) [mkBlob [1, 1, 4, 4] []]

/-- A weight tensor (4, 2, 3, 3): two channels per group. -/
def indivisibleWeight : Blob := mkBlob [4, 2, 3, 3] []

/-- A 3x3 convolution layer whose weight has two channels per group. -/
def indivisibleLayer : Layer :=
  mkConv (Size.mk 3 3) (Size.mk 1 1) (Size.mk 0 0) (Size.mk 1 1) [indivisibleWeight]

/-- An input with five channels: the group count is `5 / 2 = 2`, which does not divide 5. -/
def indivisibleInput : Blob := mkBlob [1, 5, 4, 4] []

/-- The bias vector `[1, 2]` of the concrete scenario. -/
def scenarioBias : Blob := mkBlob [2] [1, 2]

/-- The layer of the concrete scenario with its bias vector. -/
def scenarioBiasLayer : Layer :=
  mkConv (Size.mk 3 3) (Size.mk 1 1) (Size.mk 1 1) (Size.mk 1 1) [scenarioWeight, scenarioBias]

/-- An environment in which the accelerator is available. -/
def oclEnv : Env := { refEnv with oclUseOpenCL := true }

/-- The scenario layer with the caller's opt-in flag for the accelerator set. -/
def oclLayer : Layer := { scenarioLayer with tryUseOpenCL := true }

/-- A 1x1 layer with one input and one output channel, weight `2` and bias `5`. -/
def pointwiseBiasLayer : Layer :=
  mkConv (Size.mk 1 1) (Size.mk 1 1) (Size.mk 0 0) (Size.mk 1 1)
    [mkBlob [1, 1, 1, 1] [2], mkBlob [1] [5]]

/-- A 1x1 layer with two input and two output channels in one group and no bias. -/
def pointwiseLayer : Layer :=
  mkConv (Size.mk 1 1) (Size.mk 1 1) (Size.mk 0 0) (Size.mk 1 1)
    [mkBlob [2, 2, 1, 1] [1, 2, 3, 4]]

/-- A 1x1 layer with pad (1, 1): the output is larger than the input. -/
def pointwisePaddedLayer : Layer :=
  mkConv (Size.mk 1 1) (Size.mk 1 1) (Size.mk 1 1) (Size.mk 1 1) [mkBlob [1, 1, 1, 1] [2]]

/-- The pointwise layer with the caller's opt-in flag for the accelerator set. -/
def pointwiseOclLayer : Layer := { pointwiseLayer with tryUseOpenCL := true }

/-- A single element input `[3]` of shape (1, 1, 1, 1). -/
def unitInput : Blob := mkBlob [1, 1, 1, 1] [3]

/-- An input of shape (1, 2, 1, 2) with the elements 5, 6, 7, 8. -/
def pointwiseInput : Blob := mkBlob [1, 2, 1, 2] [5, 6, 7, 8]

/-- A scratch blob holding a sentinel value. -/
def sentinelBlob : Blob := mkBlob [1] [-77]

/-- A 3x3 convolution layer with one input and one output channel, all weights one. -/
def boxLayer : Layer :=
  mkConv (Size.mk 3 3) (Size.mk 1 1) (Size.mk 0 0) (Size.mk 1 1)
    [mkBlob [1, 1, 3, 3] (List.replicate 9 1)]

/-- A 3x3 input, the shape `boxLayer` is allocated for. -/
def boxInput : Blob := mkBlob [1, 1, 3, 3] [0, 1, 2, 3, 4, 5, 6, 7, 8]

/-- A 4x4 input with the elements 0, 1, ..., 15: not the shape `boxLayer` is allocated for. -/
def largerInput : Blob :=
  mkBlob [1, 1, 4, 4] [0, 1, 2, 3, 4, 5, 6, 7, 8, 9, 10, 11, 12, 13, 14, 15]

/-- A 3x3 convolution layer with two groups of one input and one output channel each, the
weights 1..9 for the first and 11..19 for the second group, and the bias `[10, 20]`. -/
def groupedLayer : Layer :=
  mkConv (Size.mk 3 3) (Size.mk 1 1) (Size.mk 0 0) (Size.mk 1 1)
    [mkBlob [2, 1, 3, 3] [1, 2, 3, 4, 5, 6, 7, 8, 9, 11, 12, 13, 14, 15, 16, 17, 18, 19],
     mkBlob [2] [10, 20]]

/-- An input with two 3x3 channels. -/
def groupedInput : Blob :=
  mkBlob [1, 2, 3, 3] [1, 0, 2, 0, 1, 0, 3, 0, 1, 2, 1, 0, 1, 1, 0, 0, 1, 3]

/-! ## Matrices and the collaborators of `forward` -/

/-- Modelled from the spec: a 2-D matrix view with its extents and its elements. -/
structure Mat where
  rows : Nat
  cols : Nat
  elem : Nat → Nat → Int

/-- The default-constructed matrix `XMat()`. -/
def Mat.empty : Mat := ⟨0, 0, fun _ _ => 0⟩

/-- The transposed view `Mat::t()`. -/
def Mat.t (m : Mat) : Mat := ⟨m.cols, m.rows, fun i j => m.elem j i⟩

/-- Modelled from the spec: an n-dimensional matrix header pointing into a buffer: the
extents, the element type, the buffer with its size and the offset of the first element. -/
structure MatView where
  shape : List Nat
  type : Depth
  buf : Nat → Int
  bufSize : Nat
  offset : Nat

/-- The header of a whole blob, `Blob::getRefConst<XMat>()`. -/
def Blob.getRefConst (b : Blob) : MatView := ⟨b.shape, b.type, b.data, b.total, 0⟩

/-- Element count of a view. -/
def MatView.total (m : MatView) : Nat := if m.shape = [] then 0 else m.shape.prod

/-- Modelled from the spec: `reshaped(m, Shape(rows, cols))` reinterprets a continuous view
as a matrix in row-major order; a negative extent or a different element count is rejected. -/
def reshaped (m : MatView) (rows cols : Int) : Except Error Mat :=
  if rows < 0 ∨ cols < 0 then Except.error Error.StsAssert
  else if rows * cols ≠ (m.total : Int) then Except.error Error.StsUnmatchedSizes
  else Except.ok ⟨rows.toNat, cols.toNat, fun i j => m.buf (m.offset + (i * cols.toNat + j))⟩

/-- Modelled from the spec: `slice(m, n, _Range(start, size))` of a 4-D view, the sub-tensor
of batch item `n` and channels `start .. start+size-1`; indices out of range are rejected. -/
def slice (m : MatView) (n start size : Int) : Except Error MatView :=
  match m.shape with
  | [num, cn, h, w] =>
    if 0 ≤ n ∧ n < num ∧ 0 ≤ start ∧ 0 ≤ size ∧ start + size ≤ cn then
      Except.ok ⟨[1, size.toNat, h, w], m.type, m.buf, m.bufSize,
        m.offset + (n.toNat * cn + start.toNat) * (h * w)⟩
    else Except.error Error.StsAssert
  | _ => Except.error Error.StsAssert

/-- Modelled from the spec: `m.rowRange(_Range(start, size))`, the rows
`start .. start+size-1`; a range outside the matrix is rejected. -/
def Mat.rowRange (m : Mat) (start size : Int) : Except Error Mat :=
  if 0 ≤ start ∧ 0 ≤ size ∧ start + size ≤ m.rows then
    Except.ok ⟨size.toNat, m.cols, fun i j => m.elem (start.toNat + i) j⟩
  else Except.error Error.StsAssert

/-- The sum `f 0 + ... + f (n-1)`. -/
def sumTo (f : Nat → Int) : Nat → Int
  | 0 => 0
  | k + 1 => sumTo f k + f k

/-- Modelled from the spec: the GEMM primitive `gemm(A, B, alpha, C, beta, flags)` computing
`C = alpha*op(A)*op(B) + beta*C`; operands that do not conform are rejected.  The two
booleans are the flags `GEMM_1_T` and `GEMM_2_T`. -/
def gemm (A B : Mat) (alpha : Int) (C : Mat) (beta : Int) (transA transB : Bool) :
    Except Error Mat :=
  let opA := if transA then A.t else A
  let opB := if transB then B.t else B
  if opA.cols = opB.rows ∧ C.rows = opA.rows ∧ C.cols = opB.cols then
    Except.ok ⟨C.rows, C.cols, fun i j =>
      alpha * sumTo (fun k => opA.elem i k * opB.elem k j) opA.cols + beta * C.elem i j⟩
  else Except.error Error.StsAssert

/-- A 2-D blob as a matrix (`Blob::getRefConst<XMat>()` of a blob created with a 2-D shape);
other ranks are rejected. -/
def Blob.getMat (b : Blob) : Except Error Mat :=
  match b.shape with
  | [r, c] => Except.ok ⟨r, c, fun i j => b.data (i * c + j)⟩
  | _ => Except.error Error.StsAssert

/-- The rows `start .. start+size-1` of a blob viewed as a matrix with `cols` columns: the
destination `outMat.rowRange(..)`, read at the time of use. -/
def Blob.rowsView (b : Blob) (cols start size : Nat) : Mat :=
  ⟨size, cols, fun i j => b.data ((start + i) * cols + j)⟩

/-- Storing a matrix through the view `rowsView`: the elements of the rows
`start .. start+m.rows-1` are replaced, all others are kept. -/
def Blob.writeRows (b : Blob) (cols start : Nat) (m : Mat) : Blob :=
  { b with data := fun idx =>
      if start * cols ≤ idx ∧ idx < (start + m.rows) * cols then
        m.elem (idx / cols - start) (idx % cols)
      else b.data idx }

/-! ## Convolution forward -/

/-- The geometry arguments of the `im2row_CpuPBody<T>::run` calls in `im2row`. -/
def ConvolutionLayerImpl.geometry (l : Layer) : Geometry :=
  ⟨l.inpGroupCn, l.inpH, l.inpW, l.kernel.height, l.kernel.width, l.pad.height, l.pad.width,
   l.stride.height, l.stride.width, l.dilation.height, l.dilation.width, l.outH, l.outW⟩

/-- `ConvolutionLayerImpl::im2row(const Mat&, Mat&)`: the row matrix and the scratch blob
after the call.  Reading `inpGroupCn*inpH*inpW` elements past the end of the source buffer
or storing `outH*outW*ksize` elements past the end of the scratch buffer is undefined. -/
def ConvolutionLayerImpl.im2rowMat (env : Env) (l : Layer) (srcImg : MatView)
    (colRowBlob : Blob) : Except Error (Mat × Blob) :=
  if BaseConvolutionLayerImpl.is1x1 l then
    match reshaped srcImg l.ksize (l.outH * l.outW) with
    | Except.error e => Except.error e
    | Except.ok m => Except.ok (m.t, colRowBlob)
  else
    let readCount := (l.inpGroupCn * l.inpH * l.inpW).toNat
    let writeCount := (l.outH * l.outW * (l.inpGroupCn * l.kernel.height * l.kernel.width)).toNat
    if srcImg.bufSize < srcImg.offset + readCount ∨ colRowBlob.total < writeCount then
      Except.error Error.Undefined
    else
      let src := (List.range readCount).map (fun i => srcImg.buf (srcImg.offset + i))
      let stored : Blob :=
        if srcImg.type = Depth.CV_32F ∨ srcImg.type = Depth.CV_64F then
          { colRowBlob with data := fun i =>
              if i < writeCount then env.im2row_run src (ConvolutionLayerImpl.geometry l) i
              else colRowBlob.data i }
        else colRowBlob
      match stored.getMat with
      | Except.error e => Except.error e
      | Except.ok m => Except.ok (m, stored)

/-- `ConvolutionLayerImpl::im2row(const UMat&, UMat&)`. -/
def ConvolutionLayerImpl.im2rowUMat (_srcImg : MatView) (_colRowBlob : Blob) :
    Except Error (Mat × Blob) :=
  Except.error Error.StsNotImplemented

/-- The overloaded call `im2row(curInp, colMat)` of the template `forward_<XMat>`. -/
def ConvolutionLayerImpl.im2row (env : Env) (l : Layer) (umat : Bool) (srcImg : MatView)
    (colRowBlob : Blob) : Except Error (Mat × Blob) :=
  if umat then ConvolutionLayerImpl.im2rowUMat srcImg colRowBlob
  else ConvolutionLayerImpl.im2rowMat env l srcImg colRowBlob

/-- The state the loops of `forward_` work on: the scratch blob and the output blob
`outputs[ii]`. -/
structure FwdState where
  colRowBlob : Blob
  out : Blob

/-- The bias step of the loop body (lines 188-191). -/
def ConvolutionLayerImpl.addBias (l : Layer) (biasesMat : Mat) (outCols : Nat) (n g : Nat)
    (out : Blob) : Option Error × Blob :=
  if l.bias then
    match biasesMat.rowRange (g * l.outGroupCn) l.outGroupCn, l.biasOnesBlob.getMat with
    | Except.ok biasRows, Except.ok ones =>
      match gemm biasRows ones 1
          (out.rowsView outCols (((g : Int) + n * l.group) * l.outGroupCn).toNat
            l.outGroupCn.toNat) 1 false false with
      | Except.error e => (some e, out)
      | Except.ok res =>
        (none, out.writeRows outCols (((g : Int) + n * l.group) * l.outGroupCn).toNat res)
    | Except.error e, _ => (some e, out)
    | _, Except.error e => (some e, out)
  else (none, out)

/-- The body of the loops over `n` and `g` in `ConvolutionLayerImpl::forward_` (lines
176-191); `outMat` is the header of the reshaped output, whose elements are read from and
stored to the output blob of the state. -/
def ConvolutionLayerImpl.forwardBody (env : Env) (l : Layer) (umat : Bool)
    (weightsMat biasesMat : Mat) (inpMat : MatView) (outMat : Mat) (n g : Nat)
    (s : FwdState) : Option Error × FwdState :=
  match slice inpMat n (g * l.inpGroupCn) l.inpGroupCn with
  | Except.error e => (some e, s)
  | Except.ok curInp =>
    match ConvolutionLayerImpl.im2row env l umat curInp s.colRowBlob with
    | Except.error e => (some e, s)
    | Except.ok (colMat, colRowBlob) =>
      match weightsMat.rowRange (g * l.outGroupCn) l.outGroupCn,
          outMat.rowRange (((g : Int) + n * l.group) * l.outGroupCn) l.outGroupCn with
      | Except.ok kerMat, Except.ok _ =>
        match gemm kerMat colMat 1
            (s.out.rowsView outMat.cols (((g : Int) + n * l.group) * l.outGroupCn).toNat
              l.outGroupCn.toNat) 0 false true with
        | Except.error e => (some e, ⟨colRowBlob, s.out⟩)
        | Except.ok res =>
          match ConvolutionLayerImpl.addBias l biasesMat outMat.cols n g
              (s.out.writeRows outMat.cols
                (((g : Int) + n * l.group) * l.outGroupCn).toNat res) with
          | (e, out) => (e, ⟨colRowBlob, out⟩)
      | Except.error e, _ => (some e, ⟨colRowBlob, s.out⟩)
      | _, Except.error e => (some e, ⟨colRowBlob, s.out⟩)

/-- The body of the loop over `ii` in `ConvolutionLayerImpl::forward_` (lines 168-193), on
the scratch blob and the `outputs` vector. -/
def ConvolutionLayerImpl.forwardOutput (env : Env) (l : Layer) (umat : Bool)
    (weightsMat biasesMat : Mat) (inputs : List Blob) (ii : Nat) (s : Blob × List Blob) :
    Option Error × (Blob × List Blob) :=
  match inputs[ii]?, s.2[ii]? with
  | some inp, some out =>
    match inp.shape.head? with
    | none => (some Error.StsAssert, s)
    | some numImg =>
      match reshaped out.getRefConst ((numImg : Int) * l.group * l.outGroupCn)
          (l.outH * l.outW) with
      | Except.error e => (some e, s)
      | Except.ok outMat =>
        match forLoop numImg (fun n => forLoop l.group.toNat (fun g =>
            ConvolutionLayerImpl.forwardBody env l umat weightsMat biasesMat inp.getRefConst
              outMat n g)) ⟨s.1, out⟩ with
        | (e, s') => (e, (s'.colRowBlob, s.2.set ii s'.out))
  | _, _ => (some Error.Undefined, s)

/-- The matrix `biasesMat` of `forward_` (line 164). -/
def biasesMatOf (l : Layer) : Except Error Mat :=
  if l.bias then
    match l.blobs[1]? with
    | none => Except.error Error.Undefined
    | some b => reshaped b.getRefConst l.outCn 1
  else Except.ok Mat.empty

/-- The template `ConvolutionLayerImpl::forward_<XMat>`; `umat` selects `XMat = UMat`.  The
result is the error, if any, with the layer (its scratch blob) and the `outputs` vector as
the call leaves them. -/
def ConvolutionLayerImpl.forward_ (env : Env) (l : Layer) (umat : Bool)
    (inputs outputs : List Blob) : Option Error × Layer × List Blob :=
  if ¬ (inputs.length > 0) then (some Error.StsAssert, l, outputs) else
  match l.blobs[0]? with
  | none => (some Error.Undefined, l, outputs)
  | some w =>
    match reshaped w.getRefConst l.outCn l.ksize, biasesMatOf l with
    | Except.ok weightsMat, Except.ok biasesMat =>
      match forLoop outputs.length
          (ConvolutionLayerImpl.forwardOutput env l umat weightsMat biasesMat inputs)
          (l.colRowBlob, outputs) with
      | (e, s) => (e, { l with colRowBlob := s.1 }, s.2)
    | Except.error e, _ => (some e, l, outputs)
    | _, Except.error e => (some e, l, outputs)

/-- `ConvolutionLayerImpl::forward`. -/
def ConvolutionLayerImpl.forward (env : Env) (l : Layer) (inputs outputs : List Blob) :
    Option Error × Layer × List Blob :=
  if !l.useOpenCL then ConvolutionLayerImpl.forward_ env l false inputs outputs
  else ConvolutionLayerImpl.forward_ env l true inputs outputs

/-! ## What `forward` computes, element by element -/

/-- The elements of the weight tensor `blobs[0]`. -/
def Layer.weightData (l : Layer) : Nat → Int :=
  match l.blobs[0]? with
  | some w => w.data
  | none => fun _ => 0

/-- The elements of the bias vector `blobs[1]`, zero when the layer has no bias. -/
def Layer.biasData (l : Layer) : Nat → Int :=
  if l.bias then
    match l.blobs[1]? with
    | some b => b.data
    | none => fun _ => 0
  else fun _ => 0

/-- Element `(p, k)` of the row matrix that `im2row` hands to the GEMM for batch item `n`
and group `g`: the raw input slice read column-wise on the 1x1 path, the output of the
`im2row` kernel otherwise. -/
def ConvolutionLayerImpl.rowElem (env : Env) (l : Layer) (inp : Blob) (n g p k : Nat) : Int :=
  if BaseConvolutionLayerImpl.is1x1 l then
    inp.data ((n * l.inpCn.toNat + g * l.inpGroupCn.toNat) * (l.inpH.toNat * l.inpW.toNat)
      + (k * (l.outH * l.outW).toNat + p))
  else
    env.im2row_run
      ((List.range (l.inpGroupCn * l.inpH * l.inpW).toNat).map (fun i =>
        inp.data ((n * l.inpCn.toNat + g * l.inpGroupCn.toNat) * (l.inpH.toNat * l.inpW.toNat)
          + i)))
      (ConvolutionLayerImpl.geometry l) (p * l.ksize.toNat + k)

/-- The value `forward` stores for batch item `n`, output channel `g*outGroupCn + r` and
spatial position `p`: row `g*outGroupCn + r` of the weight matrix times row `p` of the row
matrix, plus the bias of the channel. -/
def ConvolutionLayerImpl.outElem (env : Env) (l : Layer) (inp : Blob) (n g r p : Nat) : Int :=
  sumTo (fun k =>
      l.weightData ((g * l.outGroupCn.toNat + r) * l.ksize.toNat + k) *
        ConvolutionLayerImpl.rowElem env l inp n g p k) l.ksize.toNat
    + l.biasData (g * l.outGroupCn.toNat + r)

/-- The layer state that a successful `allocate` of a convolution establishes, with the
extents as natural numbers: `G` groups of `I` input and `O` output channels, a `kh x kw`
kernel, `H x W` inputs and `oh x ow` outputs. -/
structure ConvReady (l : Layer) (G I O kh kw H W oh ow : Nat) : Prop where
  weight : ∃ w, l.blobs[0]? = some w ∧ w.shape = [G * O, I, kh, kw]
  group : l.group = (G : Int)
  groupPos : 1 ≤ G
  inpGroupPos : 1 ≤ I
  inpGroupCn : l.inpGroupCn = (I : Int)
  outGroupCn : l.outGroupCn = (O : Int)
  outCn : l.outCn = ((G * O : Nat) : Int)
  inpCn : l.inpCn = ((G * I : Nat) : Int)
  inpH : l.inpH = (H : Int)
  inpW : l.inpW = (W : Int)
  outH : l.outH = (oh : Int)
  outW : l.outW = (ow : Int)
  kernelH : l.kernel.height = (kh : Int)
  kernelW : l.kernel.width = (kw : Int)
  ksize : l.ksize = ((I * kh * kw : Nat) : Int)
  biasBlob : l.bias = true → ∃ b, l.blobs[1]? = some b ∧ b.total = G * O
  biasOnes : l.bias = true →
    l.biasOnesBlob.shape = [1, oh * ow] ∧ ∀ i, l.biasOnesBlob.data i = 1
  colRow : BaseConvolutionLayerImpl.is1x1 l = false → l.colRowBlob.shape = [oh * ow, I * kh * kw]

/-- The value `forward` stores at the flat index `idx` of the output for the input `inp`:
the index is split into batch item, group, channel within the group and position. -/
def ConvolutionLayerImpl.outAt (env : Env) (l : Layer) (inp : Blob) (idx : Nat) : Int :=
  ConvolutionLayerImpl.outElem env l inp
    (idx / (l.outH * l.outW).toNat / l.outGroupCn.toNat / l.group.toNat)
    (idx / (l.outH * l.outW).toNat / l.outGroupCn.toNat % l.group.toNat)
    (idx / (l.outH * l.outW).toNat % l.outGroupCn.toNat)
    (idx % (l.outH * l.outW).toNat)

/-- An input of the batch shape with the output blob allocated for it. -/
def PairReady (G I O H W oh ow : Nat) (inp out : Blob) : Prop :=
  ∃ N, inp.shape = [N, G * I, H, W] ∧ (inp.type = Depth.CV_32F ∨ inp.type = Depth.CV_64F) ∧
    out.shape = [N, G * O, oh, ow]

/-- The invariant of the loops over `n` and `g`: the first `t` blocks of rows hold the values
of `outAt`, every other element and the header of the output are as at loop entry, and the
scratch blob is untouched (1x1) or keeps its shape. -/
def BlocksDone (env : Env) (l : Layer) (inp out0 crb0 : Blob) (O S K : Nat) (t : Nat)
    (s : FwdState) : Prop :=
  s.out.shape = out0.shape ∧ s.out.type = out0.type ∧ s.out.alloc = out0.alloc ∧
  (∀ idx, s.out.data idx =
    if idx < t * O * S then ConvolutionLayerImpl.outAt env l inp idx else out0.data idx) ∧
  (BaseConvolutionLayerImpl.is1x1 l = true → s.colRowBlob = crb0) ∧
  (BaseConvolutionLayerImpl.is1x1 l = false → s.colRowBlob.shape = [S, K])

/-- What `forward` leaves in one output blob: the header is kept and every element of the
blob holds the value `outAt`. -/
def OutputDone (env : Env) (l : Layer) (inp out out' : Blob) : Prop :=
  out'.shape = out.shape ∧ out'.type = out.type ∧ out'.alloc = out.alloc ∧
  ∀ idx, out'.data idx =
    if idx < out.total then ConvolutionLayerImpl.outAt env l inp idx else out.data idx

/-! ## Channel slices, for the statement of group decomposability -/

/-- The channels `c0 .. c0+cn-1` of every batch item of a 4-D blob, as a blob of its own. -/
def Blob.channelSlice (b : Blob) (c0 cn : Nat) : Blob :=
  match b.shape with
  | [num, cnAll, h, w] =>
    { b with
      shape := [num, cn, h, w],
      data := fun idx =>
        b.data ((idx / (cn * (h * w)) * cnAll + c0) * (h * w) + idx % (cn * (h * w))) }
  | _ => b

/-- The entries `r0 .. r0+rn-1` along the first axis of a blob: rows of the weight matrix. -/
def Blob.leadingSlice (b : Blob) (r0 rn : Nat) : Blob :=
  match b.shape with
  | [] => b
  | _ :: rest => { b with shape := rn :: rest, data := fun k => b.data (r0 * rest.prod + k) }

/-- The entries `r0 .. r0+rn-1` of a bias vector. -/
def Blob.biasSlice (b : Blob) (r0 rn : Nat) : Blob :=
  { b with shape := [rn], data := fun k => b.data (r0 + k) }

/-- The single-group layer for group `g` of a layer with `outGroupCn` output channels per
group: the weight rows and the bias entries of the group. -/
def Layer.groupLayer (l : Layer) (g outGroupCn : Nat) : Layer :=
  { l with blobs :=
      match l.blobs with
      | [] => []
      | w :: rest =>
        w.leadingSlice (g * outGroupCn) outGroupCn ::
          rest.map (fun b => b.biasSlice (g * outGroupCn) outGroupCn) }

/-! ## Further scenario data -/

/-- A deconvolution layer with the given geometry and learned blobs. -/
def mkDeconv (kernel stride pad dilation adjustPad : Size) (blobs : List Blob) : Layer :=
  { Layer.create LayerKind.Deconvolution kernel stride pad dilation adjustPad with
    blobs := blobs }

/-- The scenario layer with dilation (2, 2) and the caller's opt-in flag for the accelerator
set. -/
def dilatedOclLayer : Layer :=
  { mkConv (Size.mk 3 3) (Size.mk 1 1) (Size.mk 1 1) (Size.mk 2 2) [scenarioWeight] with
    tryUseOpenCL := true }

/-- A 2x2 deconvolution layer with dilation (2, 2) and the opt-in flag set. -/
def dilatedOclDeconvLayer : Layer :=
  { mkDeconv (Size.mk 2 2) (Size.mk 1 1) (Size.mk 0 0) (Size.mk 2 2) (Size.mk 0 0)
      [mkBlob [1, 1, 2, 2] [1, 2, 3, 4]] with
    tryUseOpenCL := true }

/-- A 1x1 deconvolution layer with pad (1, 1): the output is smaller than the input. -/
def pointwisePaddedDeconvLayer : Layer :=
  mkDeconv (Size.mk 1 1) (Size.mk 1 1) (Size.mk 1 1) (Size.mk 1 1) (Size.mk 0 0)
    [mkBlob [1, 1, 1, 1] [2]]

/-- A 1x1 deconvolution layer without pad, weight `2`. -/
def pointwiseDeconvLayer : Layer :=
  mkDeconv (Size.mk 1 1) (Size.mk 1 1) (Size.mk 0 0) (Size.mk 1 1) (Size.mk 0 0)
    [mkBlob [1, 1, 1, 1] [2]]

/-- An input with a single 4x4 channel. -/
def narrowInput : Blob := mkBlob [1, 1, 4, 4] []

/-- A weight tensor (1, 2, 3, 3): two channels per group. -/
def wideWeight : Blob := mkBlob [1, 2, 3, 3] []

/-- A 3x3 convolution layer whose weight has two channels per group. -/
def wideWeightLayer : Layer :=
  mkConv (Size.mk 3 3) (Size.mk 1 1) (Size.mk 0 0) (Size.mk 1 1) [wideWeight]

/-- A 3x3 deconvolution layer whose weight has two channels per group. -/
def wideWeightDeconvLayer : Layer :=
  mkDeconv (Size.mk 3 3) (Size.mk 1 1) (Size.mk 0 0) (Size.mk 1 1) (Size.mk 0 0) [wideWeight]

/-- The scenario layer with the pad mode `SAME` set. -/
def sameModeLayer : Layer := { scenarioLayer with padMode := "SAME" }

/-! ## The output rows of one (batch item, group) pair -/

/-- The range `_Range((g + n * group) * outGroupCn, outGroupCn)` of rows of the output matrix
that the loop body of `ConvolutionLayerImpl::forward_` writes for batch item `n` and group `g`
(line 183): the first row and the number of rows. -/
def ConvolutionLayerImpl.outRange (l : Layer) (n g : Int) : Int × Int :=
  ((g + n * l.group) * l.outGroupCn, l.outGroupCn)

/-- Whether the row `r` lies in the range `_Range(start, size)`, that is in
`cv::Range(start, start + size)`. -/
def inRange (rg : Int × Int) (r : Int) : Bool :=
  decide (rg.1 ≤ r) && decide (r < rg.1 + rg.2)

/-! ## Deconvolution forward -/

/-- Geometry handed to the scatter kernel `col2im`, in the order of the C++ argument list. -/
structure Col2imGeometry where
  channels : Int
  height : Int
  width : Int
  kernel_h : Int
  kernel_w : Int
  pad_h : Int
  pad_w : Int
  stride_h : Int
  stride_w : Int
  deriving DecidableEq

/-- The scatter kernels of the deconvolution, which are declared outside this file. -/
structure ScatterKernels where
  /-- The host kernel `col2im_CpuPBody<T>::run`: from the elements of the column buffer and
  the geometry, the elements it stores in the image. -/
  col2im_run : List Int → Col2imGeometry → Nat → Int
  /-- Whether the build defines `HAVE_OPENCL`. -/
  haveOpenCL : Bool
  /-- The accelerator kernel `col2im_ocl`: the elements it stores in the image, or `none`
  when it returns `false`. -/
  col2im_ocl : List Int → Col2imGeometry → Option (Nat → Int)

/-- The geometry arguments of the call `col2im_CpuPBody<float>::run` (line 348). -/
def DeConvolutionLayerImpl.col2imGeometryFloat (l : Layer) : Col2imGeometry :=
  ⟨l.outGroupCn, l.outH, l.outW, l.kernel.height, l.kernel.width, l.pad.height, l.pad.width,
   l.stride.height, l.stride.width⟩

/-- The geometry arguments of the call `col2im_CpuPBody<double>::run` (line 350). -/
def DeConvolutionLayerImpl.col2imGeometryDouble (l : Layer) : Col2imGeometry :=
  ⟨l.inpGroupCn, l.inpH, l.inpW, l.kernel.height, l.kernel.width, l.pad.height, l.pad.width,
   l.stride.height, l.stride.width⟩

/-- The geometry arguments of the call `col2im_ocl` (line 361). -/
def DeConvolutionLayerImpl.col2imGeometryOcl (l : Layer) : Col2imGeometry :=
  ⟨l.inpGroupCn, l.inpH, l.inpW, l.kernel.height, l.kernel.width, l.pad.height, l.pad.width,
   l.stride.height, l.stride.width⟩

/-- The geometry that the host `col2im` hands to the scatter kernel for an image of the given
element type; no kernel runs for another type. -/
def DeConvolutionLayerImpl.col2imGeometry (l : Layer) (type : Depth) : Option Col2imGeometry :=
  match type with
  | Depth.CV_32F => some (DeConvolutionLayerImpl.col2imGeometryFloat l)
  | Depth.CV_64F => some (DeConvolutionLayerImpl.col2imGeometryDouble l)
  | Depth.CV_other => none

/-- The elements of a matrix in row-major order, as the kernel reads them through `ptr`. -/
def Mat.elems (m : Mat) : List Int :=
  (List.range (m.rows * m.cols)).map (fun i => m.elem (i / m.cols) (i % m.cols))

/-- One run of a scatter kernel on the image that starts at the flat index `dstOffset` of the
output blob: the kernel stores `channels*height*width` elements; storing past the end of the
blob is undefined. -/
def scatterInto (image : Nat → Int) (geo : Col2imGeometry) (dstOffset : Nat) (out : Blob) :
    Except Error Blob :=
  let count := (geo.channels * geo.height * geo.width).toNat
  if out.total < dstOffset + count then Except.error Error.Undefined
  else
    Except.ok { out with data := fun i =>
      if dstOffset ≤ i ∧ i < dstOffset + count then image (i - dstOffset) else out.data i }

/-- `DeConvolutionLayerImpl::col2im(const Mat&, Mat&)`: the output blob after the call, and
whether the header `dstImg` has been pointed at the column matrix (the assignment
`dstImg = colMat` of the 1x1 branch). -/
def DeConvolutionLayerImpl.col2imMat (k : ScatterKernels) (l : Layer) (colMat : Mat)
    (dstOffset : Nat) (out : Blob) : Except Error (Blob × Bool) :=
  if BaseConvolutionLayerImpl.is1x1 l then Except.ok (out, true)
  else
    match (if out.type = Depth.CV_32F then
        scatterInto (k.col2im_run colMat.elems (DeConvolutionLayerImpl.col2imGeometryFloat l))
          (DeConvolutionLayerImpl.col2imGeometryFloat l) dstOffset out
      else Except.ok out) with
    | Except.error e => Except.error e
    | Except.ok out1 =>
      match (if out1.type = Depth.CV_64F then
          scatterInto (k.col2im_run colMat.elems (DeConvolutionLayerImpl.col2imGeometryDouble l))
            (DeConvolutionLayerImpl.col2imGeometryDouble l) dstOffset out1
        else Except.ok out1) with
      | Except.error e => Except.error e
      | Except.ok out2 => Except.ok (out2, false)

/-- `DeConvolutionLayerImpl::col2im(const UMat&, UMat&)`. -/
def DeConvolutionLayerImpl.col2imUMat (k : ScatterKernels) (l : Layer) (colMat : Mat)
    (dstOffset : Nat) (out : Blob) : Except Error (Blob × Bool) :=
  if BaseConvolutionLayerImpl.is1x1 l then Except.ok (out, true)
  else if k.haveOpenCL then
    match k.col2im_ocl colMat.elems (DeConvolutionLayerImpl.col2imGeometryOcl l) with
    | none => Except.error Error.StsAssert
    | some image =>
      match scatterInto image (DeConvolutionLayerImpl.col2imGeometryOcl l) dstOffset out with
      | Except.error e => Except.error e
      | Except.ok out1 => Except.ok (out1, false)
  else Except.error Error.StsInternal

/-- The overloaded call `col2im(colMat, dstMat)` of the template `forward_<XMat>`. -/
def DeConvolutionLayerImpl.col2im (k : ScatterKernels) (l : Layer) (umat : Bool) (colMat : Mat)
    (dstOffset : Nat) (out : Blob) : Except Error (Blob × Bool) :=
  if umat then DeConvolutionLayerImpl.col2imUMat k l colMat dstOffset out
  else DeConvolutionLayerImpl.col2imMat k l colMat dstOffset out

/-- Storing a matrix into a 2-D blob through its header, row-major from the first element. -/
def Blob.writeMat (b : Blob) (m : Mat) : Blob :=
  { b with data := fun i =>
      if i < m.rows * m.cols then m.elem (i / m.cols) (i % m.cols) else b.data i }

/-- Lines 322-325 of `DeConvolutionLayerImpl::forward_`: the slices `convMat` and `wghtMat`
and the product `gemm(wghtMat, convMat, 1, colMat, 0, GEMM_1_T)`. -/
def DeConvolutionLayerImpl.multiply (l : Layer) (weightsMat convBlob colMat : Mat) (n g : Nat) :
    Except Error Mat :=
  match convBlob.rowRange (((g : Int) + n * l.group) * l.inpGroupCn) l.inpGroupCn,
      weightsMat.rowRange (g * l.inpGroupCn) l.inpGroupCn with
  | Except.ok convMat, Except.ok wghtMat => gemm wghtMat convMat 1 colMat 0 true false
  | Except.error e, _ => Except.error e
  | _, Except.error e => Except.error e

/-- The bias step of the loop body (lines 330-334); `aliased` says that `dstMat` points at
the column matrix. -/
def DeConvolutionLayerImpl.addBias (l : Layer) (biasesMat : Mat) (outCols : Nat) (n g : Nat)
    (aliased : Bool) (s : FwdState) : Option Error × FwdState :=
  if l.bias then
    match biasesMat.rowRange (g * l.outGroupCn) l.outGroupCn, l.biasOnesBlob.getMat with
    | Except.ok curBiasMat, Except.ok ones =>
      if aliased then
        match s.colRowBlob.getMat with
        | Except.error e => (some e, s)
        | Except.ok dst =>
          match gemm curBiasMat ones 1 dst 1 false false with
          | Except.error e => (some e, s)
          | Except.ok res => (none, ⟨s.colRowBlob.writeMat res, s.out⟩)
      else
        match gemm curBiasMat ones 1
            (s.out.rowsView outCols (((g : Int) + n * l.group) * l.outGroupCn).toNat
              l.outGroupCn.toNat) 1 false false with
        | Except.error e => (some e, s)
        | Except.ok res =>
          (none, ⟨s.colRowBlob,
            s.out.writeRows outCols (((g : Int) + n * l.group) * l.outGroupCn).toNat res⟩)
    | Except.error e, _ => (some e, s)
    | _, Except.error e => (some e, s)
  else (none, s)

/-- The body of the loops over `n` and `g` in `DeConvolutionLayerImpl::forward_` (lines
319-334); `decnBlob` is the header of the reshaped output, whose elements are read from and
stored to the output blob of the state. -/
def DeConvolutionLayerImpl.forwardBody (k : ScatterKernels) (l : Layer) (umat : Bool)
    (weightsMat biasesMat convBlob decnBlob : Mat) (n g : Nat) (s : FwdState) :
    Option Error × FwdState :=
  match decnBlob.rowRange (((g : Int) + n * l.group) * l.outGroupCn) l.outGroupCn with
  | Except.error e => (some e, s)
  | Except.ok _ =>
    if BaseConvolutionLayerImpl.is1x1 l then
      match DeConvolutionLayerImpl.multiply l weightsMat convBlob
          (s.out.rowsView decnBlob.cols (((g : Int) + n * l.group) * l.outGroupCn).toNat
            l.outGroupCn.toNat) n g with
      | Except.error e => (some e, s)
      | Except.ok res =>
        DeConvolutionLayerImpl.addBias l biasesMat decnBlob.cols n g false
          ⟨s.colRowBlob,
            s.out.writeRows decnBlob.cols (((g : Int) + n * l.group) * l.outGroupCn).toNat res⟩
    else
      match s.colRowBlob.getMat with
      | Except.error e => (some e, s)
      | Except.ok colMat =>
        match DeConvolutionLayerImpl.multiply l weightsMat convBlob colMat n g with
        | Except.error e => (some e, s)
        | Except.ok res =>
          match DeConvolutionLayerImpl.col2im k l umat res
              ((((g : Int) + n * l.group) * l.outGroupCn).toNat * decnBlob.cols) s.out with
          | Except.error e => (some e, ⟨s.colRowBlob.writeMat res, s.out⟩)
          | Except.ok (out, aliased) =>
            DeConvolutionLayerImpl.addBias l biasesMat decnBlob.cols n g aliased
              ⟨s.colRowBlob.writeMat res, out⟩

/-- The body of the loop over `ii` in `DeConvolutionLayerImpl::forward_` (lines 311-336), on
the scratch blob and the `outputs` vector. -/
def DeConvolutionLayerImpl.forwardOutput (k : ScatterKernels) (l : Layer) (umat : Bool)
    (weightsMat biasesMat : Mat) (inputs : List Blob) (ii : Nat) (s : Blob × List Blob) :
    Option Error × (Blob × List Blob) :=
  match inputs[ii]?, s.2[ii]? with
  | some inp, some out =>
    match inp.shape.head? with
    | none => (some Error.StsAssert, s)
    | some numImg =>
      match reshaped inp.getRefConst ((numImg : Int) * l.inpCn) (l.inpH * l.inpW),
          reshaped out.getRefConst ((numImg : Int) * l.outCn) (l.outH * l.outW) with
      | Except.ok convBlob, Except.ok decnBlob =>
        match forLoop numImg (fun n => forLoop l.group.toNat (fun g =>
            DeConvolutionLayerImpl.forwardBody k l umat weightsMat biasesMat convBlob decnBlob
              n g)) ⟨s.1, out⟩ with
        | (e, s') => (e, (s'.colRowBlob, s.2.set ii s'.out))
      | Except.error e, _ => (some e, s)
      | _, Except.error e => (some e, s)
  | _, _ => (some Error.Undefined, s)

/-- The template `DeConvolutionLayerImpl::forward_<XMat>`; `umat` selects `XMat = UMat`. -/
def DeConvolutionLayerImpl.forward_ (k : ScatterKernels) (l : Layer) (umat : Bool)
    (inputs outputs : List Blob) : Option Error × Layer × List Blob :=
  match l.blobs[0]? with
  | none => (some Error.Undefined, l, outputs)
  | some w =>
    match reshaped w.getRefConst l.inpCn l.ksize, biasesMatOf l with
    | Except.ok weightsMat, Except.ok biasesMat =>
      match forLoop outputs.length
          (DeConvolutionLayerImpl.forwardOutput k l umat weightsMat biasesMat inputs)
          (l.colRowBlob, outputs) with
      | (e, s) => (e, { l with colRowBlob := s.1 }, s.2)
    | Except.error e, _ => (some e, l, outputs)
    | _, Except.error e => (some e, l, outputs)

/-- `DeConvolutionLayerImpl::forward`. -/
def DeConvolutionLayerImpl.forward (k : ScatterKernels) (l : Layer) (inputs outputs : List Blob) :
    Option Error × Layer × List Blob :=
  if !l.useOpenCL then DeConvolutionLayerImpl.forward_ k l false inputs outputs
  else DeConvolutionLayerImpl.forward_ k l true inputs outputs

/-! ## Reference scatter kernel and deconvolution scenarios -/

/-- Modelled from the spec: `col2im` distributes each column of the buffer back onto the
overlapping receptive fields of the image and sums the contributions: the image element
`(c, y, x)` is the sum, over the kernel taps `(ki, kj)` and the window positions that put the
tap on `(y, x)`, of the column entry of that tap and position. -/
def col2imRef (col : List Int) (geo : Col2imGeometry) (idx : Nat) : Int :=
  let hcol := (geo.height + 2 * geo.pad_h - geo.kernel_h).tdiv geo.stride_h + 1
  let wcol := (geo.width + 2 * geo.pad_w - geo.kernel_w).tdiv geo.stride_w + 1
  let c := (idx : Int).tdiv (geo.height * geo.width)
  let y := ((idx : Int).tmod (geo.height * geo.width)).tdiv geo.width
  let x := (idx : Int).tmod geo.width
  sumTo (fun ki => sumTo (fun kj =>
    let yy := y + geo.pad_h - ki
    let xx := x + geo.pad_w - kj
    if 0 ≤ yy ∧ yy.tmod geo.stride_h = 0 ∧ yy.tdiv geo.stride_h < hcol ∧
        0 ≤ xx ∧ xx.tmod geo.stride_w = 0 ∧ xx.tdiv geo.stride_w < wcol then
      col.getD ((((c * geo.kernel_h + ki) * geo.kernel_w + kj) * (hcol * wcol)
        + yy.tdiv geo.stride_h * wcol + xx.tdiv geo.stride_w).toNat) 0
    else 0) geo.kernel_w.toNat) geo.kernel_h.toNat

/-- The reference scatter kernels of a host-only build. -/
def refScatter : ScatterKernels :=
  { col2im_run := col2imRef, haveOpenCL := false, col2im_ocl := fun _ _ => none }

/-- A 2x2 deconvolution layer with one input and one output channel and the weights
1, 2, 3, 4: a 1x1 input becomes a 2x2 output. -/
def scatterDeconvLayer : Layer :=
  mkDeconv (Size.mk 2 2) (Size.mk 1 1) (Size.mk 0 0) (Size.mk 1 1) (Size.mk 0 0)
    [mkBlob [1, 1, 2, 2] [1, 2, 3, 4]]

/-- The single element input `[3]` with 64-bit elements. -/
def unitInput64 : Blob := { unitInput with type := Depth.CV_64F }

/-! ## Lemmas on the loop combinator -/

theorem loopFrom_invariant {σ : Type} (body : Nat → σ → Option Error × σ) (P : Nat → σ → Prop)
    (hstep : ∀ j s s', P j s → body j s = (none, s') → P (j + 1) s') :
    ∀ (k i : Nat) (s s' : σ), P i s → loopFrom body k i s = (none, s') → P (i + k) s' := by
  intro k
  induction k with
  | zero =>
    intro i s s' hP h
    simp only [loopFrom, Prod.mk.injEq, true_and] at h
    subst h
    simpa using hP
  | succ k ih =>
    intro i s s' hP h
    simp only [loopFrom] at h
    rcases hb : body i s with ⟨e, s1⟩
    rw [hb] at h
    cases e with
    | some e => simp at h
    | none =>
      have := ih (i + 1) s1 s' (hstep i s s1 hP hb) h
      simpa [Nat.add_assoc, Nat.add_comm 1 k] using this

/-! ## Shape inference: what a successful run establishes -/

theorem tdiv_eq_floor (a b : Int) (ha : 0 ≤ a) (hb : 1 ≤ b) :
    a.tdiv b = Int.floor ((a : ℚ) / (b : ℚ)) := by
  obtain ⟨n, rfl⟩ := Int.eq_ofNat_of_zero_le (show 0 ≤ b by omega)
  rw [Int.tdiv_eq_ediv ha (by omega)]
  have h := Rat.floor_intCast_div_natCast a n
  simpa using h.symm

theorem convOutSize_eq_floor (inpSize pad dilation kernel stride : Int) (hs : 1 ≤ stride)
    (hfit : dilation * (kernel - 1) + 1 ≤ inpSize + 2 * pad) :
    convOutSize inpSize pad dilation kernel stride
      = specConvOutSize inpSize pad dilation kernel stride := by
  unfold convOutSize specConvOutSize
  rw [tdiv_eq_floor _ _ (by omega) hs]

theorem init_ok {env : Env} {l l1 : Layer} (h : BaseConvolutionLayerImpl.init env l = (none, l1)) :
    l1 = { l with
      bias := decide (2 ≤ l.blobs.length),
      useOpenCL := env.oclUseOpenCL && l.tryUseOpenCL && decide (l.dilation = Size.mk 1 1) } ∧
    ∃ w, l.blobs[0]? = some w ∧ w.dims = 4 ∧ w.cols = l.kernel.width ∧ w.rows = l.kernel.height ∧
      l.blobs.length ≤ 2 := by
  unfold BaseConvolutionLayerImpl.init at h
  split at h
  · simp at h
  · rename_i hlen
    split at h
    · simp at h
    · rename_i w rest hb
      split at h
      · simp at h
      · rename_i hw
        simp only [Prod.mk.injEq, true_and] at h
        refine ⟨h.symm, w, by simp [hb], ?_⟩
        simp only [not_not] at hw hlen
        exact ⟨hw.1, hw.2.1, hw.2.2, hlen.2⟩

theorem init_buffers {env : Env} {l : Layer} :
    (BaseConvolutionLayerImpl.init env l).2.biasOnesBlob = l.biasOnesBlob ∧
    (BaseConvolutionLayerImpl.init env l).2.colRowBlob = l.colRowBlob ∧
    (BaseConvolutionLayerImpl.init env l).2.blobs = l.blobs := by
  unfold BaseConvolutionLayerImpl.init
  split
  · simp
  · split
    · simp
    · split <;> simp

theorem conv_setOutSize_frame (env : Env) (l : Layer) :
    (ConvolutionLayerImpl.setOutSize env l).2.biasOnesBlob = l.biasOnesBlob ∧
    (ConvolutionLayerImpl.setOutSize env l).2.colRowBlob = l.colRowBlob ∧
    (ConvolutionLayerImpl.setOutSize env l).2.blobs = l.blobs ∧
    (ConvolutionLayerImpl.setOutSize env l).2.inpCn = l.inpCn ∧
    (ConvolutionLayerImpl.setOutSize env l).2.outCn = l.outCn ∧
    (ConvolutionLayerImpl.setOutSize env l).2.inpH = l.inpH ∧
    (ConvolutionLayerImpl.setOutSize env l).2.inpW = l.inpW ∧
    (ConvolutionLayerImpl.setOutSize env l).2.kernel = l.kernel ∧
    (ConvolutionLayerImpl.setOutSize env l).2.stride = l.stride ∧
    (ConvolutionLayerImpl.setOutSize env l).2.dilation = l.dilation ∧
    (ConvolutionLayerImpl.setOutSize env l).2.bias = l.bias ∧
    (ConvolutionLayerImpl.setOutSize env l).2.useOpenCL = l.useOpenCL ∧
    (ConvolutionLayerImpl.setOutSize env l).2.layerKind = l.layerKind := by
  unfold ConvolutionLayerImpl.setOutSize
  split
  · split <;> simp
  · split <;> simp

/-- What a successful `setGroup` of the convolution establishes. -/
theorem conv_setGroup_ok {l l2 : Layer} {w : Blob}
    (h : ConvolutionLayerImpl.setGroup l w = (none, l2)) :
    w.channels ≠ 0 ∧ l.inpCn.tdiv w.channels ≠ 0 ∧
    l.inpCn.tmod (l.inpCn.tdiv w.channels) = 0 ∧ l.outCn.tmod (l.inpCn.tdiv w.channels) = 0 ∧
    w.num = l.outCn ∧ w.channels = l.inpCn.tdiv (l.inpCn.tdiv w.channels) ∧
    l2 = { l with group := l.inpCn.tdiv w.channels,
                  outGroupCn := l.outCn.tdiv (l.inpCn.tdiv w.channels),
                  inpGroupCn := l.inpCn.tdiv (l.inpCn.tdiv w.channels),
                  ksize := l.inpCn.tdiv (l.inpCn.tdiv w.channels) * l.kernel.height * l.kernel.width,
                  colRowBlobShape := [l.outH * l.outW,
                    l.inpCn.tdiv (l.inpCn.tdiv w.channels) * l.kernel.height * l.kernel.width] } := by
  unfold ConvolutionLayerImpl.setGroup at h
  split at h
  · simp at h
  · rename_i hc
    simp only at h
    split at h
    · simp at h
    · rename_i hg
      split at h
      · simp at h
      · rename_i hd
        split at h
        · simp at h
        · rename_i hn
          simp only [not_not] at hd hn
          simp only [Prod.mk.injEq, true_and] at h
          exact ⟨hc, hg, hd.1, hd.2, hn.1, hn.2, h.symm⟩

/-- What a successful `setGroup` of the deconvolution establishes. -/
theorem deconv_setGroup_ok {l l2 : Layer} {w : Blob}
    (h : DeConvolutionLayerImpl.setGroup l w = (none, l2)) :
    w.channels ≠ 0 ∧ l.inpCn.tdiv w.channels ≠ 0 ∧
    l.inpCn.tmod (l.inpCn.tdiv w.channels) = 0 ∧ l.outCn.tmod (l.inpCn.tdiv w.channels) = 0 ∧
    w.num = l.outCn ∧ w.channels = l.inpCn.tdiv (l.inpCn.tdiv w.channels) ∧
    l2 = { l with group := l.inpCn.tdiv w.channels,
                  outGroupCn := l.outCn.tdiv (l.inpCn.tdiv w.channels),
                  inpGroupCn := l.inpCn.tdiv (l.inpCn.tdiv w.channels),
                  ksize := l.outCn.tdiv (l.inpCn.tdiv w.channels) * l.kernel.height * l.kernel.width,
                  colRowBlobShape := [l.outCn.tdiv (l.inpCn.tdiv w.channels) * l.kernel.height
                    * l.kernel.width, l.inpH * l.inpW] } := by
  unfold DeConvolutionLayerImpl.setGroup at h
  split at h
  · simp at h
  · rename_i hc
    simp only at h
    split at h
    · simp at h
    · rename_i hg
      split at h
      · simp at h
      · rename_i hd
        split at h
        · simp at h
        · rename_i hn
          simp only [not_not] at hd hn
          simp only [Prod.mk.injEq, true_and] at h
          exact ⟨hc, hg, hd.1, hd.2, hn.1, hn.2, h.symm⟩

theorem conv_setGroup_frame (l : Layer) (w : Blob) :
    (ConvolutionLayerImpl.setGroup l w).2.biasOnesBlob = l.biasOnesBlob ∧
    (ConvolutionLayerImpl.setGroup l w).2.colRowBlob = l.colRowBlob := by
  unfold ConvolutionLayerImpl.setGroup
  split
  · simp
  · simp only
    split
    · simp
    · split
      · simp
      · split <;> simp

theorem deconv_setGroup_frame (l : Layer) (w : Blob) :
    (DeConvolutionLayerImpl.setGroup l w).2.biasOnesBlob = l.biasOnesBlob ∧
    (DeConvolutionLayerImpl.setGroup l w).2.colRowBlob = l.colRowBlob := by
  unfold DeConvolutionLayerImpl.setGroup
  split
  · simp
  · simp only
    split
    · simp
    · split
      · simp
      · split <;> simp

/-- Shape inference writes no buffer, whether it succeeds or fails. -/
theorem computeInpOutShape_frame (env : Env) (l : Layer) (input : Blob) :
    (computeInpOutShape env l input).2.biasOnesBlob = l.biasOnesBlob ∧
    (computeInpOutShape env l input).2.colRowBlob = l.colRowBlob := by
  unfold computeInpOutShape
  cases l.layerKind with
  | Convolution =>
    simp only
    unfold ConvolutionLayerImpl.computeInpOutShape
    split
    · simp
    · rename_i w hw
      split
      · simp
      · simp
      · have h1 := conv_setOutSize_frame env (ConvolutionLayerImpl.setInpShape l w input)
        split
        · rename_i e l1 hs
          rw [hs] at h1
          simpa [ConvolutionLayerImpl.setInpShape] using ⟨h1.1, h1.2.1⟩
        · rename_i l1 hs
          rw [hs] at h1
          have h2 := conv_setGroup_frame l1 w
          simp only at h1
          rw [h2.1, h2.2, h1.1, h1.2.1]
          simp [ConvolutionLayerImpl.setInpShape]
  | Deconvolution =>
    simp only
    unfold DeConvolutionLayerImpl.computeInpOutShape
    split
    · simp
    · rename_i w hw
      split
      · simp
      · simp
      · have h2 := deconv_setGroup_frame (DeConvolutionLayerImpl.setInpOutShape l w input) w
        rw [h2.1, h2.2]
        simp [DeConvolutionLayerImpl.setInpOutShape]

/-- The two `setGroup` steps fail when a channel count is not divisible by the group count. -/
theorem conv_setGroup_indivisible (l : Layer) (w : Blob) (hc : w.channels ≠ 0)
    (hg : l.inpCn.tdiv w.channels ≠ 0)
    (hdiv : ¬ (l.inpCn.tmod (l.inpCn.tdiv w.channels) = 0 ∧
               l.outCn.tmod (l.inpCn.tdiv w.channels) = 0)) :
    (ConvolutionLayerImpl.setGroup l w).1 = some Error.StsAssert := by
  unfold ConvolutionLayerImpl.setGroup
  simp only [hc, hg, hdiv, if_false, if_true, not_false_eq_true]

theorem deconv_setGroup_indivisible (l : Layer) (w : Blob) (hc : w.channels ≠ 0)
    (hg : l.inpCn.tdiv w.channels ≠ 0)
    (hdiv : ¬ (l.inpCn.tmod (l.inpCn.tdiv w.channels) = 0 ∧
               l.outCn.tmod (l.inpCn.tdiv w.channels) = 0)) :
    (DeConvolutionLayerImpl.setGroup l w).1 = some Error.StsAssert := by
  unfold DeConvolutionLayerImpl.setGroup
  simp only [hc, hg, hdiv, if_false, if_true, not_false_eq_true]

/-- A failing `setGroup` never returns without an error when the group does not divide. -/
theorem conv_setGroup_indivisible_fails (l : Layer) (w : Blob)
    (hdiv : l.inpCn.tmod (l.inpCn.tdiv w.channels) ≠ 0) :
    ∃ e, (ConvolutionLayerImpl.setGroup l w).1 = some e := by
  unfold ConvolutionLayerImpl.setGroup
  split
  · exact ⟨_, rfl⟩
  · simp only
    split
    · exact ⟨_, rfl⟩
    · rw [if_pos (by intro h; exact hdiv h.1)]
      exact ⟨_, rfl⟩

theorem deconv_setGroup_indivisible_fails (l : Layer) (w : Blob)
    (hdiv : l.inpCn.tmod (l.inpCn.tdiv w.channels) ≠ 0) :
    ∃ e, (DeConvolutionLayerImpl.setGroup l w).1 = some e := by
  unfold DeConvolutionLayerImpl.setGroup
  split
  · exact ⟨_, rfl⟩
  · simp only
    split
    · exact ⟨_, rfl⟩
    · rw [if_pos (by intro h; exact hdiv h.1)]
      exact ⟨_, rfl⟩

theorem tdiv_pos_of_le {a b : Int} (hb : 1 ≤ b) (hab : b ≤ a) : 1 ≤ a.tdiv b := by
  rw [Int.tdiv_eq_ediv (by omega) (by omega)]
  have : b * 1 ≤ a := by omega
  exact (Int.le_ediv_iff_mul_le (by omega)).2 (by omega)

theorem mul_tdiv_of_tmod_zero {a g : Int} (h : a.tmod g = 0) : g * a.tdiv g = a := by
  have := Int.tdiv_add_tmod a g
  omega

/-- C1 (counterexample): for input size 1, kernel 4, stride 2, pad 0, dilation 1 shape
inference succeeds with `outH = 0`, while the floor formula gives `-1`: the truncating
division of the code and the mathematical floor differ on the negative numerator `-3`. -/
theorem conv_outSize_floor_counterexample :
    (ConvolutionLayerImpl.computeInpOutShape refEnv oversizedKernelLayer
        (mkBlob [1, 1, 1, 1] [7])).1 = none ∧
    (ConvolutionLayerImpl.computeInpOutShape refEnv oversizedKernelLayer
        (mkBlob [1, 1, 1, 1] [7])).2.outH = 0 ∧
    specConvOutSize 1 0 1 4 2 = -1 ∧
    convOutSize 1 0 1 4 2 ≠ specConvOutSize 1 0 1 4 2 := by
  have hspec : specConvOutSize 1 0 1 4 2 = -1 := by
    unfold specConvOutSize
    have : Int.floor ((((1 + 2 * 0 - (1 * (4 - 1) + 1) : Int)) : ℚ) / ((2 : Int) : ℚ)) = -2 := by
      rw [Int.floor_eq_iff]; norm_num
    rw [this]; rfl
  refine ⟨by decide, by decide, hspec, ?_⟩
  rw [hspec]; decide

/-- C1 (amended): with no pad mode set, stride at least 1 and the dilated kernel fitting
into the padded input on both axes, lines 136-140 of the convolution shape inference succeed
and store in `outH` and `outW` exactly `floor((inpSize + 2*pad - (dilation*(kernel-1)+1)) /
stride) + 1`, the floor being the mathematical one. -/
theorem conv_outSize_eq_floor_of_fit (env : Env) (l : Layer)
    (hpm : l.padMode.isEmpty = true)
    (hsh : 1 ≤ l.stride.height) (hsw : 1 ≤ l.stride.width)
    (hfh : l.dilation.height * (l.kernel.height - 1) + 1 ≤ l.inpH + 2 * l.pad.height)
    (hfw : l.dilation.width * (l.kernel.width - 1) + 1 ≤ l.inpW + 2 * l.pad.width) :
    (ConvolutionLayerImpl.setOutSize env l).1 = none ∧
    (ConvolutionLayerImpl.setOutSize env l).2.outH =
      specConvOutSize l.inpH l.pad.height l.dilation.height l.kernel.height l.stride.height ∧
    (ConvolutionLayerImpl.setOutSize env l).2.outW =
      specConvOutSize l.inpW l.pad.width l.dilation.width l.kernel.width l.stride.width := by
  unfold ConvolutionLayerImpl.setOutSize
  rw [if_pos hpm, if_neg (by omega)]
  exact ⟨rfl, convOutSize_eq_floor _ _ _ _ _ hsh hfh, convOutSize_eq_floor _ _ _ _ _ hsw hfw⟩

/-- Witness of C1 (amended): the scenario layer with a 5x5 input, where both sizes are 5. -/
theorem conv_outSize_eq_floor_of_fit_witness :
    (ConvolutionLayerImpl.setInpShape scenarioLayer scenarioWeight scenarioInput).padMode.isEmpty
      = true ∧
    (ConvolutionLayerImpl.setOutSize refEnv
      (ConvolutionLayerImpl.setInpShape scenarioLayer scenarioWeight scenarioInput)).1 = none ∧
    (ConvolutionLayerImpl.setOutSize refEnv
      (ConvolutionLayerImpl.setInpShape scenarioLayer scenarioWeight scenarioInput)).2.outH =
      specConvOutSize 5 1 1 3 1 ∧
    (ConvolutionLayerImpl.setOutSize refEnv
      (ConvolutionLayerImpl.setInpShape scenarioLayer scenarioWeight scenarioInput)).2.outW =
      specConvOutSize 5 1 1 3 1 :=
  ⟨by decide,
   conv_outSize_eq_floor_of_fit refEnv
    (ConvolutionLayerImpl.setInpShape scenarioLayer scenarioWeight scenarioInput)
    (by decide) (by decide) (by decide) (by decide) (by decide)⟩

/-- C3: with `wc >= 1`, `inpCn >= wc` and a consistent bias length, shape inference of both
layers fails when `group = inpCn / wc` does not divide `inpCn` or `outCn` (with the
assertion error, unless the convolution already failed while computing the output size);
and whenever it succeeds, `group = inpCn / wc >= 1`, `group * inpGroupCn = inpCn`,
`group * outGroupCn = outCn` and `inpGroupCn = wc`. -/
theorem computeInpOutShape_group_divisibility (env : Env) (l : Layer) (input w : Blob)
    (hw : l.blobs[0]? = some w) (hwc : 1 ≤ w.channels) (hcn : w.channels ≤ input.channels)
    (hbias : biasLengthOk l w = Except.ok true) :
    (¬ (input.channels.tmod (input.channels.tdiv w.channels) = 0 ∧
         w.num.tmod (input.channels.tdiv w.channels) = 0) →
      (DeConvolutionLayerImpl.computeInpOutShape l input).1 = some Error.StsAssert ∧
      (∃ e, (ConvolutionLayerImpl.computeInpOutShape env l input).1 = some e) ∧
      ((ConvolutionLayerImpl.setOutSize env (ConvolutionLayerImpl.setInpShape l w input)).1 = none →
        (ConvolutionLayerImpl.computeInpOutShape env l input).1 = some Error.StsAssert)) ∧
    (∀ l', (ConvolutionLayerImpl.computeInpOutShape env l input = (none, l') ∨
            DeConvolutionLayerImpl.computeInpOutShape l input = (none, l')) →
      l'.group = input.channels.tdiv w.channels ∧ 1 ≤ l'.group ∧
      l'.inpCn = input.channels ∧ l'.outCn = w.num ∧
      l'.group * l'.inpGroupCn = l'.inpCn ∧ l'.group * l'.outGroupCn = l'.outCn ∧
      l'.inpGroupCn = w.channels) := by
  have hg : 1 ≤ input.channels.tdiv w.channels := tdiv_pos_of_le hwc hcn
  have hfr := conv_setOutSize_frame env (ConvolutionLayerImpl.setInpShape l w input)
  constructor
  · intro hdiv
    refine ⟨?_, ?_, ?_⟩
    · unfold DeConvolutionLayerImpl.computeInpOutShape
      simp only [hw, hbias]
      exact deconv_setGroup_indivisible _ w (by omega)
        (by simp only [DeConvolutionLayerImpl.setInpOutShape]; omega)
        (by simpa only [DeConvolutionLayerImpl.setInpOutShape] using hdiv)
    · unfold ConvolutionLayerImpl.computeInpOutShape
      simp only [hw, hbias]
      split
      · exact ⟨_, rfl⟩
      · rename_i l1 hs
        rw [hs] at hfr
        simp only [ConvolutionLayerImpl.setInpShape] at hfr
        exact ⟨_, conv_setGroup_indivisible l1 w (by omega)
          (by rw [hfr.2.2.2.1]; omega) (by rw [hfr.2.2.2.1, hfr.2.2.2.2.1]; exact hdiv)⟩
    · intro hnone
      unfold ConvolutionLayerImpl.computeInpOutShape
      simp only [hw, hbias]
      split
      · rename_i e l1 hs
        rw [hs] at hnone
        simp at hnone
      · rename_i l1 hs
        rw [hs] at hfr
        simp only [ConvolutionLayerImpl.setInpShape] at hfr
        exact conv_setGroup_indivisible l1 w (by omega)
          (by rw [hfr.2.2.2.1]; omega) (by rw [hfr.2.2.2.1, hfr.2.2.2.2.1]; exact hdiv)
  · intro l' h
    rcases h with h | h
    · unfold ConvolutionLayerImpl.computeInpOutShape at h
      simp only [hw, hbias] at h
      split at h
      · simp at h
      · rename_i l1 hs
        rw [hs] at hfr
        simp only [ConvolutionLayerImpl.setInpShape] at hfr
        obtain ⟨_, _, h3, h4, h5, h6, rfl⟩ := conv_setGroup_ok h
        simp only
        rw [hfr.2.2.2.1, hfr.2.2.2.2.1] at *
        exact ⟨rfl, hg, rfl, rfl, mul_tdiv_of_tmod_zero h3, mul_tdiv_of_tmod_zero h4, h6.symm⟩
    · unfold DeConvolutionLayerImpl.computeInpOutShape at h
      simp only [hw, hbias] at h
      obtain ⟨_, _, h3, h4, h5, h6, rfl⟩ := deconv_setGroup_ok h
      simp only [DeConvolutionLayerImpl.setInpOutShape] at h3 h4 h6
      exact ⟨rfl, hg, rfl, rfl, mul_tdiv_of_tmod_zero h3, mul_tdiv_of_tmod_zero h4, h6.symm⟩

/-- Witness of C3: the scenario layer (3 input channels, per-group channel count 3). -/
theorem computeInpOutShape_group_divisibility_witness :
    scenarioLayer.blobs[0]? = some scenarioWeight ∧ 1 ≤ scenarioWeight.channels ∧
    scenarioWeight.channels ≤ scenarioInput.channels ∧
    biasLengthOk scenarioLayer scenarioWeight = Except.ok true ∧
    (ConvolutionLayerImpl.computeInpOutShape refEnv scenarioLayer scenarioInput).1 = none ∧
    (ConvolutionLayerImpl.computeInpOutShape refEnv scenarioLayer scenarioInput).2.group = 1 ∧
    (ConvolutionLayerImpl.computeInpOutShape refEnv scenarioLayer scenarioInput).2.inpGroupCn = 3 :=
  have h := (computeInpOutShape_group_divisibility refEnv scenarioLayer scenarioInput
    scenarioWeight rfl (by decide) (by decide) rfl).2
      (ConvolutionLayerImpl.computeInpOutShape refEnv scenarioLayer scenarioInput).2
      (Or.inl (Prod.ext (by decide) rfl))
  ⟨rfl, by decide, by decide, rfl, by decide, h.1, h.2.2.2.2.2.2⟩

/-- C8: for `inp >= 1`, `kernel >= 1`, `stride >= 1`, `pad >= 0`, dilation 1 and
`inp + 2*pad >= kernel`, the value `adjustPad = (inp + 2*pad - kernel) % stride` satisfies
`0 <= adjustPad < stride`, and the deconvolution output size for the convolution output size
of `inp`, with the same kernel, stride and pad, is `inp` again. -/
theorem deconv_inverts_conv_outSize (inp kernel stride pad : Int)
    (_hinp : 1 ≤ inp) (_hk : 1 ≤ kernel) (hs : 1 ≤ stride) (_hp : 0 ≤ pad)
    (hfit : kernel ≤ inp + 2 * pad) :
    0 ≤ (inp + 2 * pad - kernel).tmod stride ∧ (inp + 2 * pad - kernel).tmod stride < stride ∧
    deconvOutSize (convOutSize inp pad 1 kernel stride) pad kernel stride
      ((inp + 2 * pad - kernel).tmod stride) = inp := by
  have hn : 0 ≤ inp + 2 * pad - kernel := by omega
  have h1 := Int.tdiv_add_tmod (inp + 2 * pad - kernel) stride
  refine ⟨Int.tmod_nonneg _ hn, Int.tmod_lt_of_pos _ (by omega), ?_⟩
  unfold deconvOutSize convOutSize
  have e : inp + 2 * pad - (1 * (kernel - 1) + 1) = inp + 2 * pad - kernel := by ring
  rw [e]
  have e2 : (inp + 2 * pad - kernel).tdiv stride + 1 - 1 = (inp + 2 * pad - kernel).tdiv stride := by
    ring
  rw [e2]
  omega

/-- Witness of C8: input 7, kernel 3, stride 2, pad 1 (convolution output 4, adjustPad 0). -/
theorem deconv_inverts_conv_outSize_witness :
    (1 : Int) ≤ 7 ∧ (1 : Int) ≤ 3 ∧ (1 : Int) ≤ 2 ∧ (0 : Int) ≤ 1 ∧ (3 : Int) ≤ 7 + 2 * 1 ∧
    deconvOutSize (convOutSize 7 1 1 3 2) 1 3 2 ((7 + 2 * 1 - 3 : Int).tmod 2) = 7 :=
  ⟨by decide, by decide, by decide, by decide, by decide,
   (deconv_inverts_conv_outSize 7 3 2 1 (by decide) (by decide) (by decide) (by decide)
      (by decide)).2.2⟩

theorem biasLengthOk_cases (l : Layer) (w : Blob) (hb : l.bias = true → ∃ b, l.blobs[1]? = some b) :
    ∃ v, biasLengthOk l w = Except.ok v := by
  unfold biasLengthOk
  cases hbias : l.bias with
  | false => exact ⟨true, by simp⟩
  | true =>
    obtain ⟨b, hb1⟩ := hb hbias
    simp only [hb1, if_true]
    exact ⟨_, rfl⟩

theorem conv_setOutSize_explicit (env : Env) (l : Layer) (hpm : l.padMode.isEmpty = true)
    (hsh : l.stride.height ≠ 0) (hsw : l.stride.width ≠ 0) :
    ConvolutionLayerImpl.setOutSize env l = (none, { l with
      outH := convOutSize l.inpH l.pad.height l.dilation.height l.kernel.height l.stride.height,
      outW := convOutSize l.inpW l.pad.width l.dilation.width l.kernel.width l.stride.width }) := by
  unfold ConvolutionLayerImpl.setOutSize
  rw [if_pos hpm, if_neg (by simp [hsh, hsw])]

/-- Shape inference fails when the group count does not divide the input channel count. -/
theorem computeInpOutShape_indivisible_fails (env : Env) (l : Layer) (input w : Blob)
    (hw : l.blobs[0]? = some w)
    (hdiv : input.channels.tmod (input.channels.tdiv w.channels) ≠ 0) :
    ∃ e, (computeInpOutShape env l input).1 = some e := by
  unfold computeInpOutShape
  cases l.layerKind with
  | Convolution =>
    simp only
    unfold ConvolutionLayerImpl.computeInpOutShape
    simp only [hw]
    split
    · exact ⟨_, rfl⟩
    · exact ⟨_, rfl⟩
    · have hfr := conv_setOutSize_frame env (ConvolutionLayerImpl.setInpShape l w input)
      split
      · exact ⟨_, rfl⟩
      · rename_i l1 hs
        rw [hs] at hfr
        simp only [ConvolutionLayerImpl.setInpShape] at hfr
        exact conv_setGroup_indivisible_fails l1 w (by rw [hfr.2.2.2.1]; exact hdiv)
  | Deconvolution =>
    simp only
    unfold DeConvolutionLayerImpl.computeInpOutShape
    simp only [hw]
    split
    · exact ⟨_, rfl⟩
    · exact ⟨_, rfl⟩
    · exact deconv_setGroup_indivisible_fails _ w
        (by simpa only [DeConvolutionLayerImpl.setInpOutShape] using hdiv)

/-- With a well-defined group count that does not divide the input channel count, and no
earlier failure possible while computing the output size, the failure of shape inference is
an assertion failure. -/
theorem computeInpOutShape_indivisible_assert (env : Env) (l : Layer) (input w : Blob)
    (hw : l.blobs[0]? = some w) (hb : l.bias = true → ∃ b, l.blobs[1]? = some b)
    (hc : w.channels ≠ 0) (hg : input.channels.tdiv w.channels ≠ 0)
    (hdiv : input.channels.tmod (input.channels.tdiv w.channels) ≠ 0)
    (hkind : l.layerKind = LayerKind.Deconvolution ∨
      (l.padMode.isEmpty = true ∧ l.stride.height ≠ 0 ∧ l.stride.width ≠ 0)) :
    (computeInpOutShape env l input).1 = some Error.StsAssert := by
  obtain ⟨v, hv⟩ := biasLengthOk_cases l w hb
  unfold computeInpOutShape
  cases hk : l.layerKind with
  | Convolution =>
    simp only
    unfold ConvolutionLayerImpl.computeInpOutShape
    simp only [hw, hv]
    cases v with
    | false => rfl
    | true =>
      simp only
      rcases hkind with hkind | ⟨h1, h2, h3⟩
      · rw [hk] at hkind; cases hkind
      · rw [conv_setOutSize_explicit env (ConvolutionLayerImpl.setInpShape l w input) h1 h2 h3]
        simp only
        exact conv_setGroup_indivisible _ w hc hg (fun h => hdiv h.1)
  | Deconvolution =>
    simp only
    unfold DeConvolutionLayerImpl.computeInpOutShape
    simp only [hw, hv]
    cases v with
    | false => rfl
    | true =>
      simp only
      exact deconv_setGroup_indivisible _ w hc hg (fun h => hdiv h.1)

/-- C4: when the group count `G = inpCn / wc` does not divide the input channel count,
`allocate` fails and leaves the outputs list, the all-ones bias vector and the scratch
column buffer exactly as they were; the failure is an assertion failure whenever `wc` and
`G` are nonzero and the output-size step cannot fail first. -/
theorem allocate_indivisible_no_buffer (env : Env) (l : Layer) (inputs outputs : List Blob)
    (input w : Blob) (hin : inputs[0]? = some input) (hw : l.blobs[0]? = some w)
    (hdiv : input.channels.tmod (input.channels.tdiv w.channels) ≠ 0) :
    (∃ e, (BaseConvolutionLayerImpl.allocate env l inputs outputs).1 = some e) ∧
    (BaseConvolutionLayerImpl.allocate env l inputs outputs).2.2 = outputs ∧
    (BaseConvolutionLayerImpl.allocate env l inputs outputs).2.1.biasOnesBlob = l.biasOnesBlob ∧
    (BaseConvolutionLayerImpl.allocate env l inputs outputs).2.1.colRowBlob = l.colRowBlob ∧
    (w.channels ≠ 0 → input.channels.tdiv w.channels ≠ 0 →
      (l.layerKind = LayerKind.Deconvolution ∨
        (l.padMode.isEmpty = true ∧ l.stride.height ≠ 0 ∧ l.stride.width ≠ 0)) →
      (BaseConvolutionLayerImpl.allocate env l inputs outputs).1 = some Error.StsAssert) := by
  cases inputs with
  | nil => simp at hin
  | cons input0 rest =>
    simp only [List.getElem?_cons_zero, Option.some.injEq] at hin
    subst hin
    unfold BaseConvolutionLayerImpl.allocate
    simp only
    have hib := @init_buffers env l
    split
    · rename_i e l1 hi
      rw [hi] at hib
      refine ⟨⟨_, rfl⟩, rfl, hib.1, hib.2.1, ?_⟩
      intro _ _ _
      -- `init` fails with an assertion error only
      unfold BaseConvolutionLayerImpl.init at hi
      split at hi
      · simp only [Prod.mk.injEq, Option.some.injEq] at hi; simp [← hi.1]
      · split at hi
        · rename_i hnil; rw [hnil] at hw; simp at hw
        · split at hi
          · simp only [Prod.mk.injEq, Option.some.injEq] at hi; simp [← hi.1]
          · simp at hi
    · rename_i l1 hi
      rw [hi] at hib
      simp only at hib
      obtain ⟨hl1, w', hw', _, _, _, hlen⟩ := init_ok hi
      split
      · exact ⟨⟨_, rfl⟩, rfl, hib.1, hib.2.1, fun _ _ _ => rfl⟩
      · split
        · exact ⟨⟨_, rfl⟩, rfl, hib.1, hib.2.1, fun _ _ _ => rfl⟩
        · have hw1 : l1.blobs[0]? = some w := by rw [hib.2.2]; exact hw
          have hfr := computeInpOutShape_frame env l1 input0
          obtain ⟨e, he⟩ := computeInpOutShape_indivisible_fails env l1 input0 w hw1 hdiv
          split
          · rename_i e' l2 hc
            rw [hc] at hfr
            refine ⟨⟨_, rfl⟩, rfl, by rw [← hib.1]; exact hfr.1, by rw [← hib.2.1]; exact hfr.2, ?_⟩
            intro h1 h2 h3
            have hb1 : l1.bias = true → ∃ b, l1.blobs[1]? = some b := by
              intro hbt
              rw [hl1] at hbt
              simp only [decide_eq_true_eq] at hbt
              rw [hib.2.2]
              exact ⟨l.blobs[1], by simp [List.getElem?_eq_getElem (show 1 < l.blobs.length by omega)]⟩
            have hk1 : l1.layerKind = LayerKind.Deconvolution ∨
                (l1.padMode.isEmpty = true ∧ l1.stride.height ≠ 0 ∧ l1.stride.width ≠ 0) := by
              rw [hl1]; exact h3
            have := computeInpOutShape_indivisible_assert env l1 input0 w hw1 hb1 h1 h2 hdiv hk1
            rw [hc] at this
            exact this
          · rename_i l2 hc
            rw [hc] at he
            simp at he

/-- Witness of C4: weight (4, 2, 3, 3) and input (1, 5, 4, 4), so that the group count is
`5 / 2 = 2` and `5 % 2 = 1`. -/
theorem allocate_indivisible_no_buffer_witness :
    [indivisibleInput][0]? = some indivisibleInput ∧
    indivisibleLayer.blobs[0]? = some indivisibleWeight ∧
    indivisibleInput.channels.tmod (indivisibleInput.channels.tdiv indivisibleWeight.channels) ≠ 0 ∧
    (BaseConvolutionLayerImpl.allocate refEnv indivisibleLayer [indivisibleInput]
      [scenarioInput]).1 = some Error.StsAssert ∧
    (BaseConvolutionLayerImpl.allocate refEnv indivisibleLayer [indivisibleInput]
      [scenarioInput]).2.2 = [scenarioInput] :=
  have h := allocate_indivisible_no_buffer refEnv indivisibleLayer [indivisibleInput]
    [scenarioInput] indivisibleInput indivisibleWeight rfl rfl (by decide)
  ⟨rfl, rfl, by decide,
   h.2.2.2.2 (by decide) (by decide) (Or.inr ⟨by decide, by decide, by decide⟩), h.2.1⟩

theorem conv_computeInpOutShape_ok {env : Env} {l l2 : Layer} {input : Blob}
    (h : ConvolutionLayerImpl.computeInpOutShape env l input = (none, l2)) :
    ∃ w l1, l.blobs[0]? = some w ∧ biasLengthOk l w = Except.ok true ∧
      ConvolutionLayerImpl.setOutSize env (ConvolutionLayerImpl.setInpShape l w input) = (none, l1) ∧
      ConvolutionLayerImpl.setGroup l1 w = (none, l2) := by
  unfold ConvolutionLayerImpl.computeInpOutShape at h
  split at h
  · simp at h
  · rename_i w hw
    split at h
    · simp at h
    · simp at h
    · rename_i hb
      split at h
      · simp at h
      · rename_i l1 hs
        exact ⟨w, l1, hw, hb, hs, h⟩

theorem conv_setOutSize_ok {env : Env} {l l1 : Layer}
    (h : ConvolutionLayerImpl.setOutSize env l = (none, l1)) :
    (l.padMode.isEmpty = true →
      l.stride.height ≠ 0 ∧ l.stride.width ≠ 0 ∧
      l1 = { l with
        outH := convOutSize l.inpH l.pad.height l.dilation.height l.kernel.height l.stride.height,
        outW := convOutSize l.inpW l.pad.width l.dilation.width l.kernel.width l.stride.width }) ∧
    (l.padMode.isEmpty = false →
      ∃ pad, env.getConvPoolOutParams l.inpH l.inpW l.kernel l.stride l.pad l.padMode
          = Except.ok (pad, l1.outH, l1.outW) ∧
        l1 = { l with pad := pad, outH := l1.outH, outW := l1.outW }) := by
  unfold ConvolutionLayerImpl.setOutSize at h
  split at h
  · rename_i hpm
    split at h
    · simp at h
    · rename_i hs
      simp only [Prod.mk.injEq, true_and] at h
      refine ⟨fun _ => ⟨fun h0 => hs (Or.inl h0), fun h0 => hs (Or.inr h0), h.symm⟩, ?_⟩
      intro hf; rw [hpm] at hf; cases hf
  · rename_i hpm
    refine ⟨fun ht => absurd ht hpm, fun _ => ?_⟩
    split at h
    · simp at h
    · rename_i pad oh ow hg
      simp only [Prod.mk.injEq, true_and] at h
      subst h
      exact ⟨pad, hg, rfl⟩

theorem create_ok {b b' : Blob} {shape : List Int} {type : Depth} {fl : AllocFlag}
    (h : b.create shape type fl = Except.ok b') :
    (∀ d ∈ shape, 0 ≤ d) ∧
    b' = { b with shape := shape.map Int.toNat, type := type, alloc := fl } := by
  unfold Blob.create at h
  split at h
  · rename_i hall
    simp only [List.all_eq_true, decide_eq_true_eq] at hall
    simp only [Except.ok.injEq] at h
    exact ⟨hall, h.symm⟩
  · simp at h

theorem allocBiasOnes_ok {l l3 : Layer} {type : Depth} {fl : AllocFlag}
    (h : allocBiasOnes l type fl = (none, l3)) :
    (l.bias = false → l3 = l) ∧
    (l.bias = true → 0 ≤ l.outH * l.outW ∧
      l3 = { l with biasOnesBlob :=
        { shape := [1, (l.outH * l.outW).toNat], type := type, alloc := fl, data := fun _ => 1 } }) := by
  unfold allocBiasOnes at h
  cases hb : l.bias with
  | false =>
    simp only [hb, Bool.false_eq_true, if_false, Prod.mk.injEq, true_and] at h
    exact ⟨fun _ => h.symm, fun ht => by cases ht⟩
  | true =>
    simp only [hb, if_true] at h
    refine ⟨fun hf => (by cases hf), fun _ => ?_⟩
    cases hcr : l.biasOnesBlob.create [1, l.outH * l.outW] type fl with
    | error e => rw [hcr] at h; simp at h
    | ok b =>
      rw [hcr] at h
      simp only [Prod.mk.injEq, true_and] at h
      obtain ⟨hall, rfl⟩ := create_ok hcr
      refine ⟨hall _ (by simp), ?_⟩
      rw [← h]
      simp [Blob.setTo]

theorem allocColRow_ok {l l4 : Layer} {type : Depth} {fl : AllocFlag}
    (h : allocColRow l type fl = (none, l4)) :
    (BaseConvolutionLayerImpl.is1x1 l = true → l4 = l) ∧
    (BaseConvolutionLayerImpl.is1x1 l = false →
      (∀ d ∈ l.colRowBlobShape, 0 ≤ d) ∧
      l4 = { l with colRowBlob :=
        { shape := l.colRowBlobShape.map Int.toNat, type := type, alloc := fl,
          data := fun _ => 0 } }) := by
  unfold allocColRow at h
  cases hb : BaseConvolutionLayerImpl.is1x1 l with
  | true =>
    simp only [hb, Bool.not_true, Bool.false_eq_true, if_false, Prod.mk.injEq, true_and] at h
    exact ⟨fun _ => h.symm, fun ht => by cases ht⟩
  | false =>
    simp only [hb, Bool.not_false, if_true] at h
    refine ⟨fun hf => (by cases hf), fun _ => ?_⟩
    cases hcr : l.colRowBlob.create l.colRowBlobShape type fl with
    | error e => rw [hcr] at h; simp at h
    | ok b =>
      rw [hcr] at h
      simp only [Prod.mk.injEq, true_and] at h
      obtain ⟨hall, rfl⟩ := create_ok hcr
      refine ⟨hall, ?_⟩
      rw [← h]
      simp [Blob.setTo]

theorem resize_length (outputs : List Blob) (n : Nat) : (resize outputs n).length = n := by
  unfold resize
  simp only [List.length_append, List.length_take, List.length_replicate]
  omega

theorem toNat_cast_list {ds : List Int} (h : ∀ d ∈ ds, 0 ≤ d) :
    (ds.map Int.toNat).map Int.ofNat = ds := by
  induction ds with
  | nil => rfl
  | cons d ds ih =>
    simp only [List.map_cons, List.cons.injEq]
    exact ⟨Int.toNat_of_nonneg (h d (by simp)), ih (fun x hx => h x (by simp [hx]))⟩

/-- One step of the loop creating the outputs: the list keeps its length, entry `i` receives
the new shape (type and location), every other entry is unchanged, no data is written. -/
theorem createOutput_ok {l : Layer} {inputs : List Blob} {type : Depth} {fl : AllocFlag}
    {i : Nat} {outs outs' : List Blob} (h : createOutput l inputs type fl i outs = (none, outs')) :
    ∃ inp out, inputs[i]? = some inp ∧ outs[i]? = some out ∧
      0 ≤ l.outCn ∧ 0 ≤ l.outH ∧ 0 ≤ l.outW ∧
      outs' = outs.set i { out with
        shape := [inp.num.toNat, l.outCn.toNat, l.outH.toNat, l.outW.toNat],
        type := type, alloc := fl } := by
  unfold createOutput at h
  cases hi : inputs[i]? with
  | none => simp [hi] at h
  | some inp =>
    cases ho : outs[i]? with
    | none => simp [hi, ho] at h
    | some out =>
      simp only [hi, ho] at h
      cases hcr : out.create [inp.num, l.outCn, l.outH, l.outW] type fl with
      | error e => rw [hcr] at h; simp at h
      | ok b =>
        rw [hcr] at h
        simp only [Prod.mk.injEq, true_and] at h
        obtain ⟨hall, rfl⟩ := create_ok hcr
        refine ⟨inp, out, rfl, rfl, hall _ (by simp), hall _ (by simp), hall _ (by simp), ?_⟩
        rw [← h]
        simp

/-- The chain of steps behind a successful `allocate`. -/
theorem allocate_ok {env : Env} {l l4 : Layer} {inputs outputs outs : List Blob}
    (h : BaseConvolutionLayerImpl.allocate env l inputs outputs = (none, l4, outs)) :
    ∃ input l1 l2 l3, inputs[0]? = some input ∧
      BaseConvolutionLayerImpl.init env l = (none, l1) ∧
      input.dims = 4 ∧ (input.type = Depth.CV_32F ∨ input.type = Depth.CV_64F) ∧
      inputs.all (inputAgrees input) = true ∧
      computeInpOutShape env l1 input = (none, l2) ∧
      allocBiasOnes l2 input.type
        (if l2.useOpenCL then AllocFlag.ALLOC_UMAT else AllocFlag.ALLOC_MAT) = (none, l3) ∧
      forLoop inputs.length (createOutput l3 inputs input.type
        (if l3.useOpenCL then AllocFlag.ALLOC_UMAT else AllocFlag.ALLOC_MAT))
        (resize outputs inputs.length) = (none, outs) ∧
      allocColRow l3 input.type
        (if l3.useOpenCL then AllocFlag.ALLOC_UMAT else AllocFlag.ALLOC_MAT) = (none, l4) := by
  unfold BaseConvolutionLayerImpl.allocate at h
  cases inputs with
  | nil => simp at h
  | cons input rest =>
    simp only at h
    cases hi : BaseConvolutionLayerImpl.init env l with
    | mk e1 l1 =>
    rw [hi] at h
    cases e1 with
    | some e => simp at h
    | none =>
      simp only at h
      split at h
      · simp at h
      · rename_i hd
        split at h
        · simp at h
        · rename_i hall
          cases hc : computeInpOutShape env l1 input with
          | mk e2 l2 =>
          rw [hc] at h
          cases e2 with
          | some e => simp at h
          | none =>
            simp only at h
            cases hb : allocBiasOnes l2 input.type
              (if l2.useOpenCL then AllocFlag.ALLOC_UMAT else AllocFlag.ALLOC_MAT) with
            | mk e3 l3 =>
            rw [hb] at h
            cases e3 with
            | some e => simp at h
            | none =>
              simp only at h
              cases hf : forLoop (input :: rest).length (createOutput l3 (input :: rest) input.type
                (if l3.useOpenCL then AllocFlag.ALLOC_UMAT else AllocFlag.ALLOC_MAT))
                (resize outputs (input :: rest).length) with
              | mk e4 outs4 =>
              rw [hf] at h
              cases e4 with
              | some e => simp at h
              | none =>
                simp only at h
                cases ha : allocColRow l3 input.type
                  (if l3.useOpenCL then AllocFlag.ALLOC_UMAT else AllocFlag.ALLOC_MAT) with
                | mk e5 l5 =>
                rw [ha] at h
                simp only [Prod.mk.injEq] at h
                obtain ⟨rfl, rfl, rfl⟩ := h
                simp only [not_not] at hd hall
                exact ⟨input, l1, l2, l3, by simp, rfl, hd.1, hd.2, hall, hc, hb, hf, ha⟩

/-- What the loop creating the outputs leaves behind: one output per input, each with the
shape `(inputs[i].num, outCn, outH, outW)`, the requested type and location, and the
elements of the blob that was there before. -/
theorem createOutputs_ok {l : Layer} {inputs : List Blob} {type : Depth} {fl : AllocFlag}
    {outs0 outs : List Blob}
    (h : forLoop inputs.length (createOutput l inputs type fl) outs0 = (none, outs))
    (hlen : outs0.length = inputs.length) :
    outs.length = inputs.length ∧
    ∀ (i : Nat) (inp : Blob), inputs[i]? = some inp → ∃ out out0 : Blob, outs[i]? = some out ∧ outs0[i]? = some out0 ∧
      out = { out0 with shape := [inp.num.toNat, l.outCn.toNat, l.outH.toNat, l.outW.toNat],
                        type := type, alloc := fl } ∧
      0 ≤ l.outCn ∧ 0 ≤ l.outH ∧ 0 ≤ l.outW := by
  have key := loopFrom_invariant (createOutput l inputs type fl)
    (fun k (s : List Blob) => s.length = inputs.length ∧
      (∀ i, k ≤ i → s[i]? = outs0[i]?) ∧
      ∀ (i : Nat) (inp : Blob), i < k → inputs[i]? = some inp → ∃ out out0 : Blob, s[i]? = some out ∧ outs0[i]? = some out0 ∧
        out = { out0 with shape := [inp.num.toNat, l.outCn.toNat, l.outH.toNat, l.outW.toNat],
                          type := type, alloc := fl } ∧
        0 ≤ l.outCn ∧ 0 ≤ l.outH ∧ 0 ≤ l.outW)
    (by
      intro j s s' ⟨hl, hrest, hdone⟩ hb
      obtain ⟨inp, out, hi, ho, h1, h2, h3, rfl⟩ := createOutput_ok hb
      refine ⟨by simpa using hl, ?_, ?_⟩
      · intro i hji
        rw [List.getElem?_set_ne (by omega)]
        exact hrest i (by omega)
      · intro i inp' hij hi'
        by_cases hij' : i = j
        · subst hij'
          rw [hi] at hi'
          cases hi'
          have hlt : i < s.length := by
            rcases Nat.lt_or_ge i s.length with hlt | hge
            · exact hlt
            · rw [List.getElem?_eq_none hge] at ho; cases ho
          refine ⟨_, out, by rw [List.getElem?_set_eq_of_lt _ hlt], ?_, rfl, h1, h2, h3⟩
          rw [← hrest i (Nat.le_refl i)]; exact ho
        · rw [List.getElem?_set_ne (by omega)]
          exact hdone i inp' (by omega) hi')
    inputs.length 0 outs0 outs ⟨hlen, fun _ _ => rfl, fun i _ hi => absurd hi (Nat.not_lt_zero i)⟩ h
  simp only [Nat.zero_add] at key
  refine ⟨key.1, fun i inp hi => key.2.2 i inp ?_ hi⟩
  rcases Nat.lt_or_ge i inputs.length with hlt | hge
  · exact hlt
  · rw [List.getElem?_eq_none hge] at hi; cases hi

theorem allocBiasOnes_frame {l l3 : Layer} {type : Depth} {fl : AllocFlag}
    (h : allocBiasOnes l type fl = (none, l3)) : ∃ b, l3 = { l with biasOnesBlob := b } := by
  have := allocBiasOnes_ok h
  rcases Bool.eq_false_or_eq_true l.bias with hb | hb
  · exact ⟨_, (this.2 hb).2⟩
  · exact ⟨l.biasOnesBlob, by rw [this.1 hb]⟩

theorem allocColRow_frame {l l4 : Layer} {type : Depth} {fl : AllocFlag}
    (h : allocColRow l type fl = (none, l4)) : ∃ b, l4 = { l with colRowBlob := b } := by
  have := allocColRow_ok h
  rcases Bool.eq_false_or_eq_true (BaseConvolutionLayerImpl.is1x1 l) with hb | hb
  · exact ⟨l.colRowBlob, by rw [this.1 hb]⟩
  · exact ⟨_, (this.2 hb).2⟩

/-- C2: after a successful `allocate` of a convolution layer there is one output per input,
output `i` has the shape `(inputs[i].num, outCn, outH, outW)` with `outCn` the first extent of
the weight tensor, and `outH`, `outW` are the values of the shape formula of the code (or of
the pad-mode utility when a pad mode is set). -/
theorem conv_allocate_output_shapes (env : Env) (l l' : Layer) (inputs outputs outs : List Blob)
    (w : Blob) (hk : l.layerKind = LayerKind.Convolution) (hw : l.blobs[0]? = some w)
    (h : BaseConvolutionLayerImpl.allocate env l inputs outputs = (none, l', outs)) :
    outs.length = inputs.length ∧ l'.outCn = w.num ∧
    (l.padMode.isEmpty = true → ∀ input, inputs[0]? = some input →
      l'.outH = convOutSize input.rows l.pad.height l.dilation.height l.kernel.height
                  l.stride.height ∧
      l'.outW = convOutSize input.cols l.pad.width l.dilation.width l.kernel.width
                  l.stride.width) ∧
    (l.padMode.isEmpty = false → ∀ input, inputs[0]? = some input →
      ∃ pad, env.getConvPoolOutParams input.rows input.cols l.kernel l.stride l.pad l.padMode
        = Except.ok (pad, l'.outH, l'.outW)) ∧
    ∀ (i : Nat) (inp : Blob), inputs[i]? = some inp →
      ∃ out : Blob, outs[i]? = some out ∧
        out.shape.map Int.ofNat = [inp.num, w.num, l'.outH, l'.outW] := by
  obtain ⟨input, l1, l2, l3, hin, hi, _, _, _, hc, hb, hf, ha⟩ := allocate_ok h
  obtain ⟨hl1, _⟩ := init_ok hi
  obtain ⟨b3, hl3⟩ := allocBiasOnes_frame hb
  obtain ⟨b4, hl4⟩ := allocColRow_frame ha
  have hk1 : l1.layerKind = LayerKind.Convolution := by rw [hl1]; exact hk
  unfold computeInpOutShape at hc
  rw [hk1] at hc
  simp only at hc
  obtain ⟨w', l1', hw', _, hs, hg⟩ := conv_computeInpOutShape_ok hc
  have hww : w' = w := by
    have : l1.blobs = l.blobs := by rw [hl1]
    rw [this, hw] at hw'
    exact (Option.some.inj hw').symm
  subst hww
  obtain ⟨_, _, _, _, _, _, hl2⟩ := conv_setGroup_ok hg
  have hfr := conv_setOutSize_frame env (ConvolutionLayerImpl.setInpShape l1 w' input)
  rw [hs] at hfr
  simp only [ConvolutionLayerImpl.setInpShape] at hfr
  have hso := conv_setOutSize_ok hs
  have hoc : l'.outCn = w'.num := by rw [hl4, hl3, hl2]; exact hfr.2.2.2.2.1
  have hoh : l'.outH = l1'.outH := by rw [hl4, hl3, hl2]
  have how : l'.outW = l1'.outW := by rw [hl4, hl3, hl2]
  have hpm : (ConvolutionLayerImpl.setInpShape l1 w' input).padMode = l.padMode := by
    rw [hl1]; rfl
  obtain ⟨hlen, hshape⟩ := createOutputs_ok hf (resize_length _ _)
  refine ⟨hlen, hoc, ?_, ?_, ?_⟩
  · intro hp input' hin'
    rw [hin] at hin'
    cases hin'
    obtain ⟨_, _, hl1'⟩ := hso.1 (by rw [hpm]; exact hp)
    rw [hoh, how, hl1', hl1]
    exact ⟨rfl, rfl⟩
  · intro hp input' hin'
    rw [hin] at hin'
    cases hin'
    obtain ⟨pad, hgc, _⟩ := hso.2 (by rw [hpm]; exact hp)
    refine ⟨pad, ?_⟩
    rw [hoh, how]
    rw [hl1] at hgc
    exact hgc
  · intro i inp hinp
    obtain ⟨out, out0, ho, _, hout, h1, h2, h3⟩ := hshape i inp hinp
    refine ⟨out, ho, ?_⟩
    have e1 : l3.outCn = w'.num := by rw [← hoc, hl4]
    have e2 : l3.outH = l'.outH := by rw [hl4]
    have e3 : l3.outW = l'.outW := by rw [hl4]
    rw [hout]
    simp only [List.map_cons, List.map_nil]
    have hn : (0 : Int) ≤ inp.num := by unfold Blob.num Blob.xsize; exact Int.ofNat_nonneg _
    rw [show Int.ofNat inp.num.toNat = inp.num from Int.toNat_of_nonneg hn,
      show Int.ofNat l3.outCn.toNat = l3.outCn from Int.toNat_of_nonneg h1,
      show Int.ofNat l3.outH.toNat = l3.outH from Int.toNat_of_nonneg h2,
      show Int.ofNat l3.outW.toNat = l3.outW from Int.toNat_of_nonneg h3, e1, e2, e3]

/-- Witness of C2: the concrete scenario. Input (1,3,5,5), weight (2,3,3,3), pad, stride and
dilation (1,1): `allocate` succeeds with group 1, `outH = outW = 5` and the single output
shape (1,2,5,5). -/
theorem conv_allocate_output_shapes_witness :
    scenarioLayer.layerKind = LayerKind.Convolution ∧
    scenarioLayer.blobs[0]? = some scenarioWeight ∧
    (BaseConvolutionLayerImpl.allocate refEnv scenarioLayer [scenarioInput] []).1 = none ∧
    (BaseConvolutionLayerImpl.allocate refEnv scenarioLayer [scenarioInput] []).2.1.group = 1 ∧
    (BaseConvolutionLayerImpl.allocate refEnv scenarioLayer [scenarioInput] []).2.1.outH = 5 ∧
    (BaseConvolutionLayerImpl.allocate refEnv scenarioLayer [scenarioInput] []).2.1.outW = 5 ∧
    (BaseConvolutionLayerImpl.allocate refEnv scenarioLayer [scenarioInput] []).2.2.length = 1 ∧
    (∃ out : Blob,
      (BaseConvolutionLayerImpl.allocate refEnv scenarioLayer [scenarioInput] []).2.2[0]? = some out ∧
      out.shape.map Int.ofNat = [1, 2, 5, 5]) :=
  have h := conv_allocate_output_shapes refEnv scenarioLayer
    (BaseConvolutionLayerImpl.allocate refEnv scenarioLayer [scenarioInput] []).2.1
    [scenarioInput] []
    (BaseConvolutionLayerImpl.allocate refEnv scenarioLayer [scenarioInput] []).2.2
    scenarioWeight rfl rfl (Prod.ext (by decide) rfl)
  ⟨rfl, rfl, by decide, by decide, by decide, by decide, h.1,
   h.2.2.2.2 0 scenarioInput rfl⟩

/-! ## The collaborators on conforming arguments -/

theorem loopFrom_total {σ : Type} (body : Nat → σ → Option Error × σ) (P : Nat → σ → Prop)
    (n : Nat) (hstep : ∀ j s, j < n → P j s → ∃ s', body j s = (none, s') ∧ P (j + 1) s') :
    ∀ (k i : Nat) (s : σ), i + k = n → P i s → ∃ s', loopFrom body k i s = (none, s') ∧ P n s' := by
  intro k
  induction k with
  | zero =>
    intro i s hik hP
    simp only [Nat.add_zero] at hik
    subst hik
    exact ⟨s, rfl, hP⟩
  | succ k ih =>
    intro i s hik hP
    obtain ⟨s1, hb, hP1⟩ := hstep i s (by omega) hP
    obtain ⟨s2, hl, hP2⟩ := ih (i + 1) s1 (by omega) hP1
    refine ⟨s2, ?_, hP2⟩
    simp only [loopFrom, hb]
    exact hl

/-- Total correctness of a loop whose body succeeds under, and re-establishes, an invariant. -/
theorem forLoop_total {σ : Type} (body : Nat → σ → Option Error × σ) (P : Nat → σ → Prop)
    (n : Nat) (hstep : ∀ j s, j < n → P j s → ∃ s', body j s = (none, s') ∧ P (j + 1) s')
    (s : σ) (h0 : P 0 s) : ∃ s', forLoop n body s = (none, s') ∧ P n s' :=
  loopFrom_total body P n hstep n 0 s (by omega) h0

theorem slice_ok (m : MatView) (n start size : Int) (N C H W i s c : Nat)
    (hshape : m.shape = [N, C, H, W]) (hn : n = i) (hs : start = s) (hc : size = c)
    (hi : i < N) (hsc : s + c ≤ C) :
    slice m n start size =
      Except.ok ⟨[1, c, H, W], m.type, m.buf, m.bufSize, m.offset + (i * C + s) * (H * W)⟩ := by
  subst hn hs hc
  unfold slice
  rw [hshape]
  simp only
  rw [if_pos (by refine ⟨by omega, by omega, by omega, by omega, by omega⟩)]
  simp

theorem rowRange_ok (m : Mat) (start size : Int) (s c : Nat) (hs : start = s) (hc : size = c)
    (h : s + c ≤ m.rows) :
    m.rowRange start size = Except.ok ⟨c, m.cols, fun i j => m.elem (s + i) j⟩ := by
  subst hs hc
  unfold Mat.rowRange
  rw [if_pos (by refine ⟨by omega, by omega, by omega⟩)]
  simp

theorem reshaped_ok (m : MatView) (rows cols : Int) (r c : Nat) (hr : rows = r) (hc : cols = c)
    (ht : r * c = m.total) :
    reshaped m rows cols = Except.ok ⟨r, c, fun i j => m.buf (m.offset + (i * c + j))⟩ := by
  subst hr hc
  unfold reshaped
  rw [if_neg (by omega), if_neg (by rw [← ht]; push_cast; simp)]
  simp

theorem total_shape4 (b : Blob) (a c d e : Nat) (h : b.shape = [a, c, d, e]) :
    b.total = a * c * d * e := by
  unfold Blob.total
  rw [h]
  simp [Nat.mul_assoc]

theorem total_shape2 (b : Blob) (a c : Nat) (h : b.shape = [a, c]) : b.total = a * c := by
  unfold Blob.total
  rw [h]
  simp

theorem getMat_ok (b : Blob) (r c : Nat) (h : b.shape = [r, c]) :
    b.getMat = Except.ok ⟨r, c, fun i j => b.data (i * c + j)⟩ := by
  unfold Blob.getMat
  rw [h]

theorem gemm_ok (A B : Mat) (alpha : Int) (C : Mat) (beta : Int) (ta tb : Bool)
    (h : (if ta then A.t else A).cols = (if tb then B.t else B).rows ∧
         C.rows = (if ta then A.t else A).rows ∧ C.cols = (if tb then B.t else B).cols) :
    gemm A B alpha C beta ta tb = Except.ok ⟨C.rows, C.cols, fun i j =>
      alpha * sumTo (fun k => (if ta then A.t else A).elem i k * (if tb then B.t else B).elem k j)
        (if ta then A.t else A).cols + beta * C.elem i j⟩ := by
  unfold gemm
  simp only
  rw [if_pos h]

theorem sumTo_congr {f g : Nat → Int} (n : Nat) (h : ∀ k, k < n → f k = g k) :
    sumTo f n = sumTo g n := by
  induction n with
  | zero => rfl
  | succ n ih =>
    simp only [sumTo]
    rw [ih (fun k hk => h k (by omega)), h n (by omega)]

/-- Index arithmetic of a row-major matrix: the row and column of a flat index. -/
theorem flat_index (row col cols : Nat) (h : col < cols) :
    (row * cols + col) / cols = row ∧ (row * cols + col) % cols = col := by
  have hpos : 0 < cols := by omega
  constructor
  · rw [Nat.add_comm, Nat.add_mul_div_right _ _ hpos, Nat.div_eq_of_lt h, Nat.zero_add]
  · rw [Nat.add_comm, Nat.add_mul_mod_self_right, Nat.mod_eq_of_lt h]

theorem group_block_le {g G : Nat} (X : Nat) (hg : g < G) : g * X + X ≤ G * X := by
  have : (g + 1) * X ≤ G * X := Nat.mul_le_mul_right X hg
  rw [Nat.add_mul, Nat.one_mul] at this
  exact this

theorem pair_block_le {n N g G : Nat} (X : Nat) (hn : n < N) (hg : g < G) :
    (g + n * G) * X + X ≤ N * G * X := by
  have h1 : g + n * G + 1 ≤ N * G := by
    have : (n + 1) * G ≤ N * G := Nat.mul_le_mul_right G hn
    rw [Nat.add_mul, Nat.one_mul] at this
    omega
  have : (g + n * G + 1) * X ≤ N * G * X := Nat.mul_le_mul_right X h1
  rw [Nat.add_mul, Nat.one_mul] at this
  exact this

/-- The host `im2row` on a ready layer: it succeeds, the row matrix has `oh*ow` rows and
`ksize` columns with the elements `rowElem`, and the scratch blob is untouched on the 1x1
path and keeps its shape otherwise. -/
theorem im2rowMat_ready (env : Env) (l : Layer) {G I O kh kw H W oh ow N : Nat}
    (hr : ConvReady l G I O kh kw H W oh ow) (inp : Blob) (hshape : inp.shape = [N, G * I, H, W])
    (htype : inp.type = Depth.CV_32F ∨ inp.type = Depth.CV_64F)
    (hfast : BaseConvolutionLayerImpl.is1x1 l = true → oh * ow = H * W)
    (n g : Nat) (hn : n < N) (hg : g < G) (crb : Blob)
    (hcrb : BaseConvolutionLayerImpl.is1x1 l = false → crb.shape = [oh * ow, I * kh * kw]) :
    ∃ colMat crb', ConvolutionLayerImpl.im2rowMat env l
        ⟨[1, I, H, W], inp.type, inp.data, inp.total, 0 + (n * (G * I) + g * I) * (H * W)⟩ crb
        = Except.ok (colMat, crb') ∧
      colMat.rows = oh * ow ∧ colMat.cols = I * kh * kw ∧
      (∀ p k, p < oh * ow → k < I * kh * kw →
        colMat.elem p k = ConvolutionLayerImpl.rowElem env l inp n g p k) ∧
      (BaseConvolutionLayerImpl.is1x1 l = true → crb' = crb) ∧
      (BaseConvolutionLayerImpl.is1x1 l = false → crb'.shape = [oh * ow, I * kh * kw]) := by
  have hS : l.outH * l.outW = ((oh * ow : Nat) : Int) := by rw [hr.outH, hr.outW]; push_cast; rfl
  have hCn : l.inpCn.toNat = G * I := by rw [hr.inpCn]; exact Int.toNat_ofNat _
  have hI : l.inpGroupCn.toNat = I := by rw [hr.inpGroupCn]; exact Int.toNat_ofNat _
  have hH : l.inpH.toNat = H := by rw [hr.inpH]; exact Int.toNat_ofNat _
  have hW : l.inpW.toNat = W := by rw [hr.inpW]; exact Int.toNat_ofNat _
  have hK : l.ksize.toNat = I * kh * kw := by rw [hr.ksize]; exact Int.toNat_ofNat _
  have hSn : (l.outH * l.outW).toNat = oh * ow := by rw [hS]; exact Int.toNat_ofNat _
  unfold ConvolutionLayerImpl.im2rowMat
  rcases Bool.eq_false_or_eq_true (BaseConvolutionLayerImpl.is1x1 l) with h1 | h1
  · -- the 1x1 path
    have hk : kh = 1 ∧ kw = 1 := by
      have h1' := h1
      unfold BaseConvolutionLayerImpl.is1x1 at h1'
      simp only [Bool.and_eq_true, decide_eq_true_eq] at h1'
      rw [hr.kernelH, hr.kernelW] at h1'
      omega
    obtain ⟨rfl, rfl⟩ := hk
    rw [if_pos h1]
    have hfast' := hfast h1
    rw [reshaped_ok _ l.ksize (l.outH * l.outW) (I * 1 * 1) (oh * ow) hr.ksize hS
      (by simp only [MatView.total]; simp [hfast', Nat.mul_assoc])]
    refine ⟨_, _, rfl, rfl, rfl, ?_, fun _ => rfl, fun h => by rw [h1] at h; cases h⟩
    intro p k _ _
    simp only [Mat.t, ConvolutionLayerImpl.rowElem, h1, if_true, hCn, hI, hH, hW, hSn]
    simp
  · -- the kernel path
    rw [if_neg (by rw [h1]; simp)]
    have hshapeC := hcrb h1
    have hread : (l.inpGroupCn * l.inpH * l.inpW).toNat = I * H * W := by
      rw [hr.inpGroupCn, hr.inpH, hr.inpW]
      have : ((I : Int) * H * W) = ((I * H * W : Nat) : Int) := by push_cast; rfl
      rw [this]; exact Int.toNat_ofNat _
    have hwrite : (l.outH * l.outW * (l.inpGroupCn * l.kernel.height * l.kernel.width)).toNat
        = oh * ow * (I * kh * kw) := by
      rw [hS, hr.inpGroupCn, hr.kernelH, hr.kernelW]
      have : (((oh * ow : Nat) : Int) * ((I : Int) * kh * kw))
          = ((oh * ow * (I * kh * kw) : Nat) : Int) := by push_cast; rfl
      rw [this]; exact Int.toNat_ofNat _
    simp only [hread, hwrite]
    have hb1 : ¬ (inp.total < 0 + (n * (G * I) + g * I) * (H * W) + I * H * W ∨
        crb.total < oh * ow * (I * kh * kw)) := by
      rw [total_shape4 inp _ _ _ _ hshape, total_shape2 crb _ _ hshapeC]
      have h2 : n * (G * I) + g * I + I ≤ N * (G * I) := by
        have := pair_block_le I hn hg
        have e1 : (g + n * G) * I + I = n * (G * I) + g * I + I := by ring
        have e2 : N * G * I = N * (G * I) := by ring
        omega
      have h3 : (n * (G * I) + g * I + I) * (H * W) ≤ N * (G * I) * (H * W) :=
        Nat.mul_le_mul_right _ h2
      have e3 : (n * (G * I) + g * I + I) * (H * W)
          = 0 + (n * (G * I) + g * I) * (H * W) + I * H * W := by ring
      have e4 : N * (G * I) * (H * W) = N * (G * I) * H * W := by ring
      omega
    rw [if_neg hb1, if_pos htype]
    simp only [Blob.getMat, hshapeC]
    refine ⟨_, _, rfl, rfl, rfl, ?_, fun h => (by rw [h1] at h; cases h), fun _ => rfl⟩
    intro p k hp hk
    have hidx : p * (I * kh * kw) + k < oh * ow * (I * kh * kw) := by
      have : (p + 1) * (I * kh * kw) ≤ oh * ow * (I * kh * kw) := Nat.mul_le_mul_right _ hp
      rw [Nat.add_mul, Nat.one_mul] at this
      omega
    simp only [ConvolutionLayerImpl.rowElem, h1, hCn, hI, hH, hW, hK, hread, if_pos hidx]
    simp

/-- Inside the block of rows written for one `(n, g)` pair, a flat index is the index of
its row and column. -/
theorem block_index (q O S idx : Nat) (hlo : q * O * S ≤ idx) (_hhi : idx < (q * O + O) * S) :
    (q * O + (idx / S - q * O)) * S + idx % S = idx := by
  rcases Nat.eq_zero_or_pos S with hS | hS
  · subst hS; simp at _hhi
  · have h1 : q * O ≤ idx / S := (Nat.le_div_iff_mul_le hS).2 hlo
    rw [Nat.add_sub_cancel' h1]
    exact Nat.div_add_mod' idx S

theorem block_row_lt (q O S idx : Nat) (hlo : q * O * S ≤ idx) (hhi : idx < (q * O + O) * S) :
    idx / S - q * O < O ∧ idx % S < S := by
  rcases Nat.eq_zero_or_pos S with hS | hS
  · subst hS; simp at hhi
  · have h1 : q * O ≤ idx / S := (Nat.le_div_iff_mul_le hS).2 hlo
    have h2 : idx / S < q * O + O := (Nat.div_lt_iff_lt_mul hS).2 hhi
    exact ⟨by omega, Nat.mod_lt _ hS⟩

/-- One iteration of the loops of the host `forward_` on a ready layer: it succeeds, stores
`outElem` in the rows of the pair `(n, g)` and leaves every other output element alone. -/
theorem forwardBody_ready (env : Env) (l : Layer) {G I O kh kw H W oh ow N : Nat}
    (hr : ConvReady l G I O kh kw H W oh ow) (inp : Blob) (hshape : inp.shape = [N, G * I, H, W])
    (htype : inp.type = Depth.CV_32F ∨ inp.type = Depth.CV_64F)
    (hfast : BaseConvolutionLayerImpl.is1x1 l = true → oh * ow = H * W)
    (weightsMat biasesMat outMat : Mat)
    (hWr : weightsMat.rows = G * O) (hWc : weightsMat.cols = I * kh * kw)
    (hWe : ∀ i j, weightsMat.elem i j = l.weightData (i * (I * kh * kw) + j))
    (hB : l.bias = true →
      biasesMat.rows = G * O ∧ biasesMat.cols = 1 ∧ ∀ i, biasesMat.elem i 0 = l.biasData i)
    (hOr : outMat.rows = N * G * O) (hOc : outMat.cols = oh * ow)
    (n g : Nat) (hn : n < N) (hg : g < G) (s : FwdState)
    (hcrb : BaseConvolutionLayerImpl.is1x1 l = false →
      s.colRowBlob.shape = [oh * ow, I * kh * kw]) :
    ∃ s', ConvolutionLayerImpl.forwardBody env l false weightsMat biasesMat inp.getRefConst
        outMat n g s = (none, s') ∧
      s'.out.shape = s.out.shape ∧ s'.out.type = s.out.type ∧ s'.out.alloc = s.out.alloc ∧
      (∀ idx, s'.out.data idx =
        if (g + n * G) * O * (oh * ow) ≤ idx ∧ idx < ((g + n * G) * O + O) * (oh * ow) then
          ConvolutionLayerImpl.outElem env l inp n g (idx / (oh * ow) - (g + n * G) * O)
            (idx % (oh * ow))
        else s.out.data idx) ∧
      (BaseConvolutionLayerImpl.is1x1 l = true → s'.colRowBlob = s.colRowBlob) ∧
      (BaseConvolutionLayerImpl.is1x1 l = false →
        s'.colRowBlob.shape = [oh * ow, I * kh * kw]) := by
  have hOn : l.outGroupCn.toNat = O := by rw [hr.outGroupCn]; exact Int.toNat_ofNat _
  have hK : l.ksize.toNat = I * kh * kw := by rw [hr.ksize]; exact Int.toNat_ofNat _
  have hq : (((g : Int) + n * l.group) * l.outGroupCn).toNat = (g + n * G) * O := by
    rw [hr.group, hr.outGroupCn]
    have : (((g : Int) + n * G) * O) = (((g + n * G) * O : Nat) : Int) := by push_cast; rfl
    rw [this]; exact Int.toNat_ofNat _
  obtain ⟨colMat, crb', him, hcr, hcc, hce, hc1, hc2⟩ :=
    im2rowMat_ready env l hr inp hshape htype hfast n g hn hg s.colRowBlob hcrb
  unfold ConvolutionLayerImpl.forwardBody
  rw [slice_ok inp.getRefConst n (g * l.inpGroupCn) l.inpGroupCn N (G * I) H W n (g * I) I
    hshape rfl (by rw [hr.inpGroupCn]; push_cast; rfl) hr.inpGroupCn hn (group_block_le I hg)]
  simp only [Blob.getRefConst, ConvolutionLayerImpl.im2row, Bool.false_eq_true, if_false]
  rw [him]
  simp only
  rw [rowRange_ok weightsMat (g * l.outGroupCn) l.outGroupCn (g * O) O
      (by rw [hr.outGroupCn]; push_cast; rfl) hr.outGroupCn
      (by rw [hWr]; exact group_block_le O hg),
    rowRange_ok outMat (((g : Int) + n * l.group) * l.outGroupCn) l.outGroupCn
      ((g + n * G) * O) O (by rw [hr.group, hr.outGroupCn]; push_cast; rfl) hr.outGroupCn
      (by rw [hOr]; exact pair_block_le O hn hg)]
  simp only [hq, hOn, hOc]
  rw [gemm_ok _ _ _ _ _ _ _ (by simp [Mat.t, Blob.rowsView, hWc, hcc, hcr])]
  simp only [Bool.false_eq_true, if_false, if_true]
  unfold ConvolutionLayerImpl.addBias
  rcases Bool.eq_false_or_eq_true l.bias with hb | hb
  · -- with bias
    obtain ⟨hBr, hBc, hBe⟩ := hB hb
    obtain ⟨hos, hod⟩ := hr.biasOnes hb
    rw [if_pos hb]
    rw [rowRange_ok biasesMat (g * l.outGroupCn) l.outGroupCn (g * O) O
      (by rw [hr.outGroupCn]; push_cast; rfl) hr.outGroupCn
      (by rw [hBr]; exact group_block_le O hg), getMat_ok _ 1 (oh * ow) hos]
    simp only [hq, hOn]
    rw [gemm_ok _ _ _ _ _ _ _ (by simp [Blob.rowsView, hBc])]
    refine ⟨_, rfl, rfl, rfl, rfl, ?_, hc1, hc2⟩
    intro idx
    simp only [Blob.writeRows, Blob.rowsView, Bool.false_eq_true, if_false, Mat.t]
    by_cases hin : (g + n * G) * O * (oh * ow) ≤ idx ∧ idx < ((g + n * G) * O + O) * (oh * ow)
    · obtain ⟨hrl, hpl⟩ := block_row_lt _ _ _ _ hin.1 hin.2
      have hbi := block_index _ _ _ _ hin.1 hin.2
      have hin1 := hin.1
      have hin2 := hin.2
      simp only [hbi]
      simp only [hin1, hin2, and_self, if_true, hBc]
      simp only [sumTo, hBe, hod, ConvolutionLayerImpl.outElem, hOn, hK, hWc]
      rw [sumTo_congr (I * kh * kw) (fun k hk => by rw [hWe, hce _ _ hpl hk])]
      ring
    · simp only [if_neg hin]
  · -- without bias
    rw [if_neg (by rw [hb]; simp)]
    refine ⟨_, rfl, rfl, rfl, rfl, ?_, hc1, hc2⟩
    intro idx
    simp only [Blob.writeRows, Blob.rowsView, Mat.t]
    by_cases hin : (g + n * G) * O * (oh * ow) ≤ idx ∧ idx < ((g + n * G) * O + O) * (oh * ow)
    · obtain ⟨hrl, hpl⟩ := block_row_lt _ _ _ _ hin.1 hin.2
      simp only [if_pos hin]
      have hbd : l.biasData = fun _ => 0 := by unfold Layer.biasData; rw [hb]; simp
      simp only [ConvolutionLayerImpl.outElem, hOn, hK, hWc, hbd]
      rw [sumTo_congr (I * kh * kw) (fun k hk => by rw [hWe, hce _ _ hpl hk])]
      ring
    · simp only [if_neg hin]

/-- Inside the block of the pair `(n, g)` the stored value is the one `outAt` names. -/
theorem outElem_eq_outAt (env : Env) (l : Layer) {G I O kh kw H W oh ow : Nat}
    (hr : ConvReady l G I O kh kw H W oh ow) (inp : Blob) (n g idx : Nat) (hg : g < G)
    (hlo : (g + n * G) * O * (oh * ow) ≤ idx) (hhi : idx < ((g + n * G) * O + O) * (oh * ow)) :
    ConvolutionLayerImpl.outElem env l inp n g (idx / (oh * ow) - (g + n * G) * O)
        (idx % (oh * ow)) = ConvolutionLayerImpl.outAt env l inp idx := by
  have hOn : l.outGroupCn.toNat = O := by rw [hr.outGroupCn]; exact Int.toNat_ofNat _
  have hGn : l.group.toNat = G := by rw [hr.group]; exact Int.toNat_ofNat _
  have hSn : (l.outH * l.outW).toNat = oh * ow := by
    rw [hr.outH, hr.outW]
    have : ((oh : Int) * ow) = ((oh * ow : Nat) : Int) := by push_cast; rfl
    rw [this]; exact Int.toNat_ofNat _
  unfold ConvolutionLayerImpl.outAt
  rw [hOn, hGn, hSn]
  rcases Nat.eq_zero_or_pos (oh * ow) with hS | hS
  · rw [hS] at hhi; simp at hhi
  · have h1 : (g + n * G) * O ≤ idx / (oh * ow) := (Nat.le_div_iff_mul_le hS).2 hlo
    have h2 : idx / (oh * ow) < (g + n * G) * O + O := (Nat.div_lt_iff_lt_mul hS).2 hhi
    have hO : 0 < O := by
      rcases Nat.eq_zero_or_pos O with h0 | h0
      · subst h0; simp at h2
      · exact h0
    have hq : idx / (oh * ow) / O = g + n * G := by
      apply Nat.div_eq_of_lt_le
      · exact h1
      · rw [Nat.succ_mul]; exact h2
    have hrow : idx / (oh * ow) % O = idx / (oh * ow) - (g + n * G) * O := by
      have := Nat.div_add_mod (idx / (oh * ow)) O
      rw [hq] at this
      have e : O * (g + n * G) = (g + n * G) * O := Nat.mul_comm _ _
      omega
    have hG : 0 < G := by omega
    have hn' : (g + n * G) / G = n := by
      rw [Nat.add_mul_div_right _ _ hG, Nat.div_eq_of_lt hg, Nat.zero_add]
    have hg' : (g + n * G) % G = g := by
      rw [Nat.add_mul_mod_self_right, Nat.mod_eq_of_lt hg]
    rw [hq, hrow, hn', hg']

theorem forwardBody_blocks (env : Env) (l : Layer) {G I O kh kw H W oh ow N : Nat}
    (hr : ConvReady l G I O kh kw H W oh ow) (inp : Blob) (hshape : inp.shape = [N, G * I, H, W])
    (htype : inp.type = Depth.CV_32F ∨ inp.type = Depth.CV_64F)
    (hfast : BaseConvolutionLayerImpl.is1x1 l = true → oh * ow = H * W)
    (weightsMat biasesMat outMat : Mat)
    (hWr : weightsMat.rows = G * O) (hWc : weightsMat.cols = I * kh * kw)
    (hWe : ∀ i j, weightsMat.elem i j = l.weightData (i * (I * kh * kw) + j))
    (hB : l.bias = true →
      biasesMat.rows = G * O ∧ biasesMat.cols = 1 ∧ ∀ i, biasesMat.elem i 0 = l.biasData i)
    (hOr : outMat.rows = N * G * O) (hOc : outMat.cols = oh * ow)
    (out0 crb0 : Blob) (n g : Nat) (hn : n < N) (hg : g < G) (s : FwdState)
    (hP : BlocksDone env l inp out0 crb0 O (oh * ow) (I * kh * kw) (n * G + g) s) :
    ∃ s', ConvolutionLayerImpl.forwardBody env l false weightsMat biasesMat inp.getRefConst
        outMat n g s = (none, s') ∧
      BlocksDone env l inp out0 crb0 O (oh * ow) (I * kh * kw) (n * G + (g + 1)) s' := by
  obtain ⟨p1, p2, p3, p4, p5, p6⟩ := hP
  obtain ⟨s', hb, q1, q2, q3, q4, q5, q6⟩ := forwardBody_ready env l hr inp hshape htype hfast
    weightsMat biasesMat outMat hWr hWc hWe hB hOr hOc n g hn hg s p6
  refine ⟨s', hb, q1.trans p1, q2.trans p2, q3.trans p3, ?_, fun h => (q5 h).trans (p5 h), q6⟩
  intro idx
  rw [q4 idx, p4 idx]
  have e1 : (g + n * G) * O * (oh * ow) = (n * G + g) * O * (oh * ow) := by
    rw [Nat.add_comm g]
  have e2 : ((g + n * G) * O + O) * (oh * ow) = (n * G + (g + 1)) * O * (oh * ow) := by ring
  have hmono : (n * G + g) * O * (oh * ow) ≤ (n * G + (g + 1)) * O * (oh * ow) :=
    Nat.mul_le_mul_right _ (Nat.mul_le_mul_right _ (by omega))
  rw [e1, e2]
  by_cases hin : (n * G + g) * O * (oh * ow) ≤ idx ∧ idx < (n * G + (g + 1)) * O * (oh * ow)
  · rw [if_pos hin, outElem_eq_outAt env l hr inp n g idx hg (by rw [e1]; exact hin.1)
      (by rw [e2]; exact hin.2), if_pos hin.2]
  · rw [if_neg hin]
    by_cases hlt : idx < (n * G + g) * O * (oh * ow)
    · rw [if_pos hlt, if_pos (by omega)]
    · rw [if_neg hlt, if_neg (by omega)]

/-- The two loops over `n` and `g` for one output, on a ready layer. -/
theorem forwardLoops_ready (env : Env) (l : Layer) {G I O kh kw H W oh ow N : Nat}
    (hr : ConvReady l G I O kh kw H W oh ow) (inp : Blob) (hshape : inp.shape = [N, G * I, H, W])
    (htype : inp.type = Depth.CV_32F ∨ inp.type = Depth.CV_64F)
    (hfast : BaseConvolutionLayerImpl.is1x1 l = true → oh * ow = H * W)
    (weightsMat biasesMat outMat : Mat)
    (hWr : weightsMat.rows = G * O) (hWc : weightsMat.cols = I * kh * kw)
    (hWe : ∀ i j, weightsMat.elem i j = l.weightData (i * (I * kh * kw) + j))
    (hB : l.bias = true →
      biasesMat.rows = G * O ∧ biasesMat.cols = 1 ∧ ∀ i, biasesMat.elem i 0 = l.biasData i)
    (hOr : outMat.rows = N * G * O) (hOc : outMat.cols = oh * ow)
    (out0 crb0 : Blob)
    (hcrb : BaseConvolutionLayerImpl.is1x1 l = false → crb0.shape = [oh * ow, I * kh * kw]) :
    ∃ s', forLoop N (fun n => forLoop l.group.toNat (fun g =>
        ConvolutionLayerImpl.forwardBody env l false weightsMat biasesMat inp.getRefConst
          outMat n g)) ⟨crb0, out0⟩ = (none, s') ∧
      BlocksDone env l inp out0 crb0 O (oh * ow) (I * kh * kw) (N * G) s' := by
  have hGn : l.group.toNat = G := by rw [hr.group]; exact Int.toNat_ofNat _
  rw [hGn]
  apply forLoop_total _ (fun n s => BlocksDone env l inp out0 crb0 O (oh * ow) (I * kh * kw) (n * G) s)
  · intro n s hn hP
    have := forLoop_total (fun g =>
        ConvolutionLayerImpl.forwardBody env l false weightsMat biasesMat inp.getRefConst
          outMat n g)
      (fun g s => BlocksDone env l inp out0 crb0 O (oh * ow) (I * kh * kw) (n * G + g) s) G
      (fun g s hg hP => forwardBody_blocks env l hr inp hshape htype hfast weightsMat biasesMat
        outMat hWr hWc hWe hB hOr hOc out0 crb0 n g hn hg s hP) s (by simpa using hP)
    obtain ⟨s', h1, h2⟩ := this
    refine ⟨s', h1, ?_⟩
    have e : (n + 1) * G = n * G + G := by ring
    rw [e]; exact h2
  · refine ⟨rfl, rfl, rfl, fun idx => by simp, fun _ => rfl, hcrb⟩

/-- One iteration of the loop over the outputs, on a ready layer. -/
theorem forwardOutput_ready (env : Env) (l : Layer) {G I O kh kw H W oh ow : Nat}
    (hr : ConvReady l G I O kh kw H W oh ow)
    (hfast : BaseConvolutionLayerImpl.is1x1 l = true → oh * ow = H * W)
    (weightsMat biasesMat : Mat)
    (hWr : weightsMat.rows = G * O) (hWc : weightsMat.cols = I * kh * kw)
    (hWe : ∀ i j, weightsMat.elem i j = l.weightData (i * (I * kh * kw) + j))
    (hB : l.bias = true →
      biasesMat.rows = G * O ∧ biasesMat.cols = 1 ∧ ∀ i, biasesMat.elem i 0 = l.biasData i)
    (inputs : List Blob) (ii : Nat) (s : Blob × List Blob) (inp out : Blob)
    (hi : inputs[ii]? = some inp) (ho : s.2[ii]? = some out)
    (hp : PairReady G I O H W oh ow inp out)
    (hcrb : BaseConvolutionLayerImpl.is1x1 l = false → s.1.shape = [oh * ow, I * kh * kw]) :
    ∃ crb' out', ConvolutionLayerImpl.forwardOutput env l false weightsMat biasesMat inputs ii s
        = (none, (crb', s.2.set ii out')) ∧
      OutputDone env l inp out out' ∧
      (BaseConvolutionLayerImpl.is1x1 l = true → crb' = s.1) ∧
      (BaseConvolutionLayerImpl.is1x1 l = false → crb'.shape = [oh * ow, I * kh * kw]) := by
  obtain ⟨N, hshape, htype, hout⟩ := hp
  have hS : l.outH * l.outW = ((oh * ow : Nat) : Int) := by rw [hr.outH, hr.outW]; push_cast; rfl
  have htot : out.total = N * G * O * (oh * ow) := by
    rw [total_shape4 out _ _ _ _ hout]; ring
  unfold ConvolutionLayerImpl.forwardOutput
  simp only [hi, ho, hshape, List.head?_cons]
  rw [reshaped_ok out.getRefConst _ (l.outH * l.outW) (N * G * O) (oh * ow)
    (by rw [hr.group, hr.outGroupCn]; push_cast; rfl) hS
    (by simp only [Blob.getRefConst, MatView.total, hout]; simp; ring)]
  simp only
  obtain ⟨s', hl, p1, p2, p3, p4, p5, p6⟩ := forwardLoops_ready env l hr inp hshape htype hfast
    weightsMat biasesMat
    ⟨N * G * O, oh * ow, fun i j => out.getRefConst.buf (out.getRefConst.offset + (i * (oh * ow) + j))⟩
    hWr hWc hWe hB rfl rfl out s.1 hcrb
  rw [hl]
  refine ⟨s'.colRowBlob, s'.out, rfl, ⟨p1, p2, p3, ?_⟩, p5, p6⟩
  intro idx
  rw [p4 idx, htot]

/-- The loop over the outputs, on a ready layer with one allocated output per input. -/
theorem forwardOutputs_ready (env : Env) (l : Layer) {G I O kh kw H W oh ow : Nat}
    (hr : ConvReady l G I O kh kw H W oh ow)
    (hfast : BaseConvolutionLayerImpl.is1x1 l = true → oh * ow = H * W)
    (weightsMat biasesMat : Mat)
    (hWr : weightsMat.rows = G * O) (hWc : weightsMat.cols = I * kh * kw)
    (hWe : ∀ i j, weightsMat.elem i j = l.weightData (i * (I * kh * kw) + j))
    (hB : l.bias = true →
      biasesMat.rows = G * O ∧ biasesMat.cols = 1 ∧ ∀ i, biasesMat.elem i 0 = l.biasData i)
    (inputs outs0 : List Blob) (crb0 : Blob)
    (hpairs : ∀ (ii : Nat) (out : Blob), outs0[ii]? = some out →
      ∃ inp, inputs[ii]? = some inp ∧ PairReady G I O H W oh ow inp out)
    (hcrb : BaseConvolutionLayerImpl.is1x1 l = false → crb0.shape = [oh * ow, I * kh * kw]) :
    ∃ crb outs, forLoop outs0.length
        (ConvolutionLayerImpl.forwardOutput env l false weightsMat biasesMat inputs)
        (crb0, outs0) = (none, (crb, outs)) ∧
      outs.length = outs0.length ∧
      (∀ (ii : Nat) (inp out : Blob), inputs[ii]? = some inp → outs0[ii]? = some out →
        ∃ out', outs[ii]? = some out' ∧ OutputDone env l inp out out') ∧
      (BaseConvolutionLayerImpl.is1x1 l = true → crb = crb0) ∧
      (BaseConvolutionLayerImpl.is1x1 l = false → crb.shape = [oh * ow, I * kh * kw]) := by
  have key := forLoop_total
    (ConvolutionLayerImpl.forwardOutput env l false weightsMat biasesMat inputs)
    (fun k (s : Blob × List Blob) =>
      s.2.length = outs0.length ∧
      (∀ ii, k ≤ ii → s.2[ii]? = outs0[ii]?) ∧
      (∀ (ii : Nat) (inp out : Blob), ii < k → inputs[ii]? = some inp → outs0[ii]? = some out →
        ∃ out', s.2[ii]? = some out' ∧ OutputDone env l inp out out') ∧
      (BaseConvolutionLayerImpl.is1x1 l = true → s.1 = crb0) ∧
      (BaseConvolutionLayerImpl.is1x1 l = false → s.1.shape = [oh * ow, I * kh * kw]))
    outs0.length
    (by
      intro j s hj ⟨q1, q2, q3, q4, q5⟩
      have hjo : outs0[j]? = some outs0[j] := List.getElem?_eq_getElem hj
      obtain ⟨inp, hi, hp⟩ := hpairs j _ hjo
      have hso : s.2[j]? = some outs0[j] := by rw [q2 j (Nat.le_refl j)]; exact hjo
      obtain ⟨crb', out', hb, hd, r1, r2⟩ := forwardOutput_ready env l hr hfast weightsMat
        biasesMat hWr hWc hWe hB inputs j s inp outs0[j] hi hso hp q5
      refine ⟨_, hb, by simpa using q1, ?_, ?_, fun h => (r1 h).trans (q4 h), r2⟩
      · intro ii hii
        simp only
        rw [List.getElem?_set_ne (by omega)]
        exact q2 ii (by omega)
      · intro ii inp' out hii hi' ho'
        simp only
        by_cases hij : ii = j
        · subst hij
          rw [hi] at hi'; cases hi'
          rw [hjo] at ho'; cases ho'
          exact ⟨out', by rw [List.getElem?_set_eq_of_lt _ (by rw [q1]; exact hj)], hd⟩
        · rw [List.getElem?_set_ne (by omega)]
          exact q3 ii inp' out (by omega) hi' ho')
    (crb0, outs0)
    ⟨rfl, fun _ _ => rfl, fun ii _ _ h => absurd h (Nat.not_lt_zero ii), fun _ => rfl, hcrb⟩
  obtain ⟨⟨crb, outs⟩, hl, q1, _, q3, q4, q5⟩ := key
  refine ⟨crb, outs, hl, q1, ?_, q4, q5⟩
  intro ii inp out hi ho
  have hlt : ii < outs0.length := by
    rcases Nat.lt_or_ge ii outs0.length with h | h
    · exact h
    · rw [List.getElem?_eq_none h] at ho; cases ho
  exact q3 ii inp out hlt hi ho

/-- The host path of `forward_` on a ready layer, with one allocated output per input: the
call succeeds, every output keeps its header and holds the values `outAt`, and the layer
changes at most in the elements of its scratch blob (not at all on the 1x1 path). -/
theorem conv_forward_ready (env : Env) (l : Layer) {G I O kh kw H W oh ow : Nat}
    (hr : ConvReady l G I O kh kw H W oh ow)
    (hfast : BaseConvolutionLayerImpl.is1x1 l = true → oh * ow = H * W)
    (inputs outs0 : List Blob) (hne : inputs ≠ [])
    (hpairs : ∀ (ii : Nat) (out : Blob), outs0[ii]? = some out →
      ∃ inp, inputs[ii]? = some inp ∧ PairReady G I O H W oh ow inp out) :
    ∃ crb outs, ConvolutionLayerImpl.forward_ env l false inputs outs0
        = (none, { l with colRowBlob := crb }, outs) ∧
      outs.length = outs0.length ∧
      (∀ (ii : Nat) (inp out : Blob), inputs[ii]? = some inp → outs0[ii]? = some out →
        ∃ out', outs[ii]? = some out' ∧ OutputDone env l inp out out') ∧
      (BaseConvolutionLayerImpl.is1x1 l = true → crb = l.colRowBlob) ∧
      (BaseConvolutionLayerImpl.is1x1 l = false → crb.shape = [oh * ow, I * kh * kw]) := by
  obtain ⟨w, hw, hws⟩ := hr.weight
  have hwd : l.weightData = w.data := by unfold Layer.weightData; rw [hw]
  unfold ConvolutionLayerImpl.forward_
  rw [if_neg (by simp only [not_not]; exact List.length_pos.2 hne)]
  simp only [hw]
  rw [reshaped_ok w.getRefConst l.outCn l.ksize (G * O) (I * kh * kw) hr.outCn hr.ksize
    (by
      simp only [Blob.getRefConst, MatView.total, hws]
      rw [if_neg (by simp)]
      simp only [List.prod_cons, List.prod_nil]
      ring)]
  have hbm : ∃ biasesMat, biasesMatOf l = Except.ok biasesMat ∧ (l.bias = true →
      biasesMat.rows = G * O ∧ biasesMat.cols = 1 ∧ ∀ i, biasesMat.elem i 0 = l.biasData i) := by
    unfold biasesMatOf
    rcases Bool.eq_false_or_eq_true l.bias with hb | hb
    · obtain ⟨b, hb1, hbt⟩ := hr.biasBlob hb
      rw [if_pos hb]
      simp only [hb1]
      rw [reshaped_ok b.getRefConst l.outCn 1 (G * O) 1 hr.outCn rfl
        (by simp only [Blob.getRefConst, MatView.total]; simpa [Blob.total] using hbt.symm)]
      refine ⟨_, rfl, fun _ => ⟨rfl, rfl, fun i => ?_⟩⟩
      simp [Layer.biasData, hb, hb1, Blob.getRefConst]
    · rw [if_neg (by rw [hb]; simp)]
      exact ⟨_, rfl, fun h => by rw [hb] at h; cases h⟩
  obtain ⟨biasesMat, hbe, hB⟩ := hbm
  rw [hbe]
  simp only
  obtain ⟨crb, outs, hl, q1, q2, q3, q4⟩ := forwardOutputs_ready env l hr hfast
    ⟨G * O, I * kh * kw, fun i j => w.getRefConst.buf (w.getRefConst.offset + (i * (I * kh * kw) + j))⟩
    biasesMat rfl rfl (by intro i j; simp [hwd, Blob.getRefConst]) hB inputs outs0 l.colRowBlob
    hpairs hr.colRow
  rw [hl]
  exact ⟨crb, outs, rfl, q1, q2, q3, q4⟩

theorem shape_of_dims4 (b : Blob) (h : b.dims = 4) : ∃ a c d e, b.shape = [a, c, d, e] := by
  unfold Blob.dims at h
  have hl : b.shape.length = 4 := by exact_mod_cast h
  match hs : b.shape, hl with
  | [a, c, d, e], _ => exact ⟨a, c, d, e, rfl⟩

theorem inputAgrees_shape {input b : Blob} {N C H W : Nat} (hshape : input.shape = [N, C, H, W])
    (h : inputAgrees input b = true) :
    b.type = input.type ∧ ∃ M, b.shape = [M, C, H, W] := by
  unfold inputAgrees at h
  simp only [Bool.and_eq_true, decide_eq_true_eq] at h
  obtain ⟨⟨h1, h2, h3⟩, h4, h5⟩ := h
  obtain ⟨a, c, d, e, hb⟩ := shape_of_dims4 b h2
  simp only [Blob.channels, Blob.rows, Blob.cols, Blob.xsize, hb, hshape, List.getD_cons_succ,
    List.getD_cons_zero, Nat.cast_inj] at h3 h4 h5
  subst h3 h4 h5
  exact ⟨h1, a, hb⟩

/-- The group arithmetic behind a successful `setGroup`, over the natural numbers. -/
theorem group_arith (a b C : Nat) (hb : ((b : Nat) : Int) ≠ 0)
    (hg : ((C : Nat) : Int).tdiv (b : Nat) ≠ 0)
    (h1 : ((C : Nat) : Int).tmod (((C : Nat) : Int).tdiv (b : Nat)) = 0)
    (h2 : ((a : Nat) : Int).tmod (((C : Nat) : Int).tdiv (b : Nat)) = 0)
    (h3 : ((b : Nat) : Int) = ((C : Nat) : Int).tdiv (((C : Nat) : Int).tdiv (b : Nat))) :
    1 ≤ C / b ∧ 1 ≤ b ∧ C / b * (a / (C / b)) = a ∧ C / b * b = C ∧
    ((C : Nat) : Int).tdiv (b : Nat) = ((C / b : Nat) : Int) ∧
    ((a : Nat) : Int).tdiv (((C : Nat) : Int).tdiv (b : Nat)) = ((a / (C / b) : Nat) : Int) ∧
    ((C : Nat) : Int).tdiv (((C : Nat) : Int).tdiv (b : Nat)) = ((b : Nat) : Int) := by
  have e : ((C : Nat) : Int).tdiv (b : Nat) = ((C / b : Nat) : Int) := (Int.ofNat_tdiv C b).symm
  rw [e] at hg h1 h2 h3 ⊢
  rw [← Int.ofNat_tmod] at h1 h2
  rw [← Int.ofNat_tdiv] at h3
  have hg' : C / b ≠ 0 := by exact_mod_cast hg
  have hb' : b ≠ 0 := by exact_mod_cast hb
  have h1' : C % (C / b) = 0 := by exact_mod_cast h1
  have h2' : a % (C / b) = 0 := by exact_mod_cast h2
  have h3' : b = C / (C / b) := by exact_mod_cast h3
  refine ⟨Nat.pos_of_ne_zero hg', Nat.pos_of_ne_zero hb', ?_, ?_, rfl, ?_, ?_⟩
  · exact Nat.mul_div_cancel' (Nat.dvd_of_mod_eq_zero h2')
  · have := Nat.mul_div_cancel' (Nat.dvd_of_mod_eq_zero h1')
    rw [← h3'] at this
    exact this
  · exact (Int.ofNat_tdiv a (C / b)).symm
  · rw [← Int.ofNat_tdiv, ← h3']

theorem conv_setOutSize_padMode (env : Env) (l : Layer) :
    (ConvolutionLayerImpl.setOutSize env l).2.padMode = l.padMode ∧
    (ConvolutionLayerImpl.setOutSize env l).2.tryUseOpenCL = l.tryUseOpenCL := by
  unfold ConvolutionLayerImpl.setOutSize
  split
  · split <;> simp
  · split <;> simp

/-- The layer fields after a successful `allocate` of a convolution, in terms of the layer
before the call, the first input and the weight tensor. -/
theorem allocate_conv_fields {env : Env} {l l' : Layer} {inputs outputs outs : List Blob}
    (hk : l.layerKind = LayerKind.Convolution)
    (h : BaseConvolutionLayerImpl.allocate env l inputs outputs = (none, l', outs)) :
    ∃ input w, inputs[0]? = some input ∧ l.blobs[0]? = some w ∧
      l'.kernel = l.kernel ∧ l'.stride = l.stride ∧ l'.dilation = l.dilation ∧
      l'.blobs = l.blobs ∧ l'.padMode = l.padMode ∧
      l'.bias = decide (2 ≤ l.blobs.length) ∧
      l'.useOpenCL = (env.oclUseOpenCL && l.tryUseOpenCL && decide (l.dilation = Size.mk 1 1)) ∧
      l'.inpH = input.rows ∧ l'.inpW = input.cols ∧ l'.inpCn = input.channels ∧
      l'.outCn = w.num ∧ l'.group = input.channels.tdiv w.channels ∧
      l'.outGroupCn = w.num.tdiv (input.channels.tdiv w.channels) ∧
      l'.inpGroupCn = input.channels.tdiv (input.channels.tdiv w.channels) ∧
      l'.ksize = input.channels.tdiv (input.channels.tdiv w.channels) * l.kernel.height
        * l.kernel.width ∧
      (l.padMode.isEmpty = true → l'.pad = l.pad ∧
        l'.outH = convOutSize input.rows l.pad.height l.dilation.height l.kernel.height
                    l.stride.height ∧
        l'.outW = convOutSize input.cols l.pad.width l.dilation.width l.kernel.width
                    l.stride.width) ∧
      (l.padMode.isEmpty = false →
        env.getConvPoolOutParams input.rows input.cols l.kernel l.stride l.pad l.padMode
          = Except.ok (l'.pad, l'.outH, l'.outW)) ∧
      (BaseConvolutionLayerImpl.is1x1 l = true → l'.colRowBlob = l.colRowBlob) ∧
      (l'.bias = false → l'.biasOnesBlob = l.biasOnesBlob) := by
  obtain ⟨input, l1, l2, l3, hin, hi, _, _, _, hc, hb, hf, ha⟩ := allocate_ok h
  obtain ⟨hl1, w0, hw0, _⟩ := init_ok hi
  have hk1 : l1.layerKind = LayerKind.Convolution := by rw [hl1]; exact hk
  unfold computeInpOutShape at hc
  rw [hk1] at hc
  simp only at hc
  obtain ⟨w, l1', hw, _, hs, hg⟩ := conv_computeInpOutShape_ok hc
  have hww : w = w0 := by
    have : l1.blobs = l.blobs := by rw [hl1]
    rw [this, hw0] at hw
    exact (Option.some.inj hw).symm
  subst hww
  obtain ⟨_, _, _, _, _, _, hl2⟩ := conv_setGroup_ok hg
  have hfr := conv_setOutSize_frame env (ConvolutionLayerImpl.setInpShape l1 w input)
  have hfp := conv_setOutSize_padMode env (ConvolutionLayerImpl.setInpShape l1 w input)
  rw [hs] at hfr hfp
  simp only [ConvolutionLayerImpl.setInpShape] at hfr hfp
  obtain ⟨f1, f2, f3, f4, f5, f6, f7, f8, f9, f10, f11, f12, f13⟩ := hfr
  have hso := conv_setOutSize_ok hs
  have hpm : (ConvolutionLayerImpl.setInpShape l1 w input).padMode = l.padMode := by
    rw [hl1]; rfl
  have hbias3 := allocBiasOnes_ok hb
  have hcol4 := allocColRow_ok ha
  obtain ⟨b3, hl3⟩ := allocBiasOnes_frame hb
  obtain ⟨b4, hl4⟩ := allocColRow_frame ha
  have e1 : ∀ (f : Layer → Int), (∀ x b, f { x with colRowBlob := b } = f x) →
      (∀ x b, f { x with biasOnesBlob := b } = f x) → f l' = f l2 := by
    intro f h1 h2; rw [hl4, h1, hl3, h2]
  have g_inpCn : l1'.inpCn = input.channels := f4
  have g_outCn : l1'.outCn = w.num := f5
  refine ⟨input, w, hin, hw0, ?_, ?_, ?_, ?_, ?_, ?_, ?_, ?_, ?_, ?_, ?_, ?_, ?_, ?_, ?_, ?_, ?_,
    ?_, ?_⟩
  · rw [hl4, hl3, hl2]; simp only; rw [f8, hl1]
  · rw [hl4, hl3, hl2]; simp only; rw [f9, hl1]
  · rw [hl4, hl3, hl2]; simp only; rw [f10, hl1]
  · rw [hl4, hl3, hl2]; simp only; rw [f3, hl1]
  · rw [hl4, hl3, hl2]; simp only; rw [hfp.1, hl1]
  · rw [hl4, hl3, hl2]; simp only; rw [f11, hl1]
  · rw [hl4, hl3, hl2]; simp only; rw [f12, hl1]
  · rw [hl4, hl3, hl2]; exact f6
  · rw [hl4, hl3, hl2]; exact f7
  · rw [hl4, hl3, hl2]; exact f4
  · rw [hl4, hl3, hl2]; exact f5
  · rw [hl4, hl3, hl2]; simp only; rw [g_inpCn]
  · rw [hl4, hl3, hl2]; simp only; rw [g_inpCn, g_outCn]
  · rw [hl4, hl3, hl2]; simp only; rw [g_inpCn]
  · rw [hl4, hl3, hl2]; simp only; rw [g_inpCn, f8, hl1]
  · intro hp
    obtain ⟨_, _, hl1'⟩ := hso.1 (by rw [hpm]; exact hp)
    rw [hl4, hl3, hl2, hl1', hl1]
    exact ⟨rfl, rfl, rfl⟩
  · intro hp
    obtain ⟨pad, hgc, hl1'⟩ := hso.2 (by rw [hpm]; exact hp)
    have hpad : l'.pad = pad := by rw [hl4, hl3, hl2]; simp only; rw [hl1']
    have hoh : l'.outH = l1'.outH := by rw [hl4, hl3, hl2]
    have how : l'.outW = l1'.outW := by rw [hl4, hl3, hl2]
    rw [hpad, hoh, how]
    rw [hl1] at hgc
    exact hgc
  · intro h1
    have h13 : BaseConvolutionLayerImpl.is1x1 l3 = true := by
      rw [hl3, hl2]
      unfold BaseConvolutionLayerImpl.is1x1 at h1 ⊢
      simp only
      rw [f8, f9, f10, hl1]
      exact h1
    rw [hcol4.1 h13, hl3, hl2]
    simp only
    rw [f2, hl1]
  · intro hbf
    have hb2 : l2.bias = false := by rw [hl4, hl3] at hbf; exact hbf
    rw [hl4]
    simp only
    rw [hbias3.1 hb2, hl2]
    simp only
    rw [f1, hl1]

theorem toNat_mul_cast (a b : Nat) : ((a : Int) * (b : Int)).toNat = a * b := by
  have : ((a : Int) * (b : Int)) = ((a * b : Nat) : Int) := by push_cast; rfl
  rw [this]; exact Int.toNat_ofNat _

theorem toNat_mul3_cast (a b c : Nat) : ((a : Int) * (b : Int) * (c : Int)).toNat = a * b * c := by
  have : ((a : Int) * (b : Int) * (c : Int)) = ((a * b * c : Nat) : Int) := by push_cast; rfl
  rw [this]; exact Int.toNat_ofNat _

/-- A successful `allocate` of a convolution leaves a ready layer, one output per input, and
every input/output pair in the batch shape. -/
theorem allocate_conv_ready {env : Env} {l l' : Layer} {inputs outputs outs : List Blob}
    (hk : l.layerKind = LayerKind.Convolution)
    (h : BaseConvolutionLayerImpl.allocate env l inputs outputs = (none, l', outs)) :
    ∃ G I O kh kw H W oh ow, ConvReady l' G I O kh kw H W oh ow ∧
      inputs ≠ [] ∧ outs.length = inputs.length ∧
      (∀ (ii : Nat) (out : Blob), outs[ii]? = some out →
        ∃ inp, inputs[ii]? = some inp ∧ PairReady G I O H W oh ow inp out) := by
  obtain ⟨input, l1, l2, l3, hin, hi, hd4, hty, hall, hc, hb, hf, ha⟩ := allocate_ok h
  obtain ⟨input', w, hin', hw, g1, g2, g3, g4, g5, g6, g7, g8, g9, g10, g11, g12, g13, g14, g15,
    _, _, _, _⟩ := allocate_conv_fields hk h
  rw [hin] at hin'; cases hin'
  obtain ⟨hl1, w0, hw0, hwd, hwc, hwr, _⟩ := init_ok hi
  rw [hw] at hw0; cases hw0
  have hk1 : l1.layerKind = LayerKind.Convolution := by rw [hl1]; exact hk
  unfold computeInpOutShape at hc
  rw [hk1] at hc
  simp only at hc
  obtain ⟨w1, l1', hw1, hbl, hs, hg⟩ := conv_computeInpOutShape_ok hc
  have hww : w1 = w := by
    have : l1.blobs = l.blobs := by rw [hl1]
    rw [this, hw] at hw1
    exact (Option.some.inj hw1).symm
  subst hww
  obtain ⟨c1, c2, c3, c4, _, c6, hl2⟩ := conv_setGroup_ok hg
  have hfr := conv_setOutSize_frame env (ConvolutionLayerImpl.setInpShape l1 w1 input)
  rw [hs] at hfr
  simp only [ConvolutionLayerImpl.setInpShape] at hfr
  rw [hfr.2.2.2.1] at c2 c3 c4 c6
  rw [hfr.2.2.2.2.1] at c4
  obtain ⟨b3, hl3⟩ := allocBiasOnes_frame hb
  obtain ⟨b4, hl4⟩ := allocColRow_frame ha
  -- the shapes of the weight and of the first input
  obtain ⟨a, b, kh, kw, hws⟩ := shape_of_dims4 w1 hwd
  obtain ⟨N0, C, H, W, hins⟩ := shape_of_dims4 input hd4
  have ewn : w1.num = (a : Int) := by simp [Blob.num, Blob.xsize, hws]
  have ewc : w1.channels = (b : Int) := by simp [Blob.channels, Blob.xsize, hws]
  have ewr : w1.rows = (kh : Int) := by simp [Blob.rows, Blob.xsize, hws]
  have ewl : w1.cols = (kw : Int) := by simp [Blob.cols, Blob.xsize, hws]
  have eic : input.channels = (C : Int) := by simp [Blob.channels, Blob.xsize, hins]
  have eir : input.rows = (H : Int) := by simp [Blob.rows, Blob.xsize, hins]
  have eil : input.cols = (W : Int) := by simp [Blob.cols, Blob.xsize, hins]
  rw [ewc] at c1
  rw [ewc, eic] at c2 c3 c6
  rw [ewn, ewc, eic] at c4
  obtain ⟨a1, a2, a3, a4, a5, a6, a7⟩ := group_arith a b C c1 c2 c3 c4 c6
  -- the outputs
  obtain ⟨hlen, hshape⟩ := createOutputs_ok hf (resize_length _ _)
  obtain ⟨_, _, _, _, _, _, hoh, how⟩ := hshape 0 input hin
  have e3h : l3.outH = l'.outH := by rw [hl4]
  have e3w : l3.outW = l'.outW := by rw [hl4]
  have e3c : l3.outCn = l'.outCn := by rw [hl4]
  rw [e3h] at hoh
  rw [e3w] at how
  have eoh : l'.outH = ((l'.outH.toNat : Nat) : Int) := (Int.toNat_of_nonneg hoh).symm
  have eow : l'.outW = ((l'.outW.toNat : Nat) : Int) := (Int.toNat_of_nonneg how).symm
  have hne : inputs ≠ [] := by intro he; rw [he] at hin; simp at hin
  have hSn : (l'.outH * l'.outW).toNat = l'.outH.toNat * l'.outW.toNat := by
    rw [eoh, eow]; simp only [Int.toNat_ofNat]; exact toNat_mul_cast _ _
  refine ⟨C / b, b, a / (C / b), kh, kw, H, W, l'.outH.toNat, l'.outW.toNat, ?_, hne, hlen, ?_⟩
  · refine
      { weight := ⟨w1, by rw [g4]; exact hw, by rw [a3]; exact hws⟩
        group := by rw [g12, ewc, eic]; exact a5
        groupPos := a1
        inpGroupPos := a2
        inpGroupCn := by rw [g14, ewc, eic]; exact a7
        outGroupCn := by rw [g13, ewn, ewc, eic]; exact a6
        outCn := by rw [g11, ewn, a3]
        inpCn := by rw [g10, eic, a4]
        inpH := by rw [g8, eir]
        inpW := by rw [g9, eil]
        outH := eoh
        outW := eow
        kernelH := by rw [g1, ← hwr, ewr]
        kernelW := by rw [g1, ← hwc, ewl]
        ksize := by rw [g15, ewc, eic, a7, ← hwr, ← hwc, ewr, ewl]; push_cast; rfl
        biasBlob := ?_
        biasOnes := ?_
        colRow := ?_ }
    · intro hbt
      have hb1 : l1.bias = true := by
        rw [hl4, hl3, hl2] at hbt
        simp only at hbt
        rw [hfr.2.2.2.2.2.2.2.2.2.2.1] at hbt
        exact hbt
      unfold biasLengthOk at hbl
      rw [if_pos hb1] at hbl
      have hbl1 : l1.blobs = l.blobs := by rw [hl1]
      rw [hbl1] at hbl
      cases hb' : l.blobs[1]? with
      | none => rw [hb'] at hbl; simp at hbl
      | some bb =>
        rw [hb'] at hbl
        simp only [Except.ok.injEq, decide_eq_true_eq] at hbl
        rw [ewn] at hbl
        refine ⟨bb, by rw [g4]; exact hb', ?_⟩
        rw [a3]
        exact_mod_cast hbl
    · intro hbt
      have hb2 : l2.bias = true := by rw [hl4, hl3] at hbt; exact hbt
      obtain ⟨_, hl3'⟩ := (allocBiasOnes_ok hb).2 hb2
      have e2h : l2.outH = l'.outH := by rw [hl4, hl3]
      have e2w : l2.outW = l'.outW := by rw [hl4, hl3]
      have hsh : l'.biasOnesBlob.shape = [1, (l2.outH * l2.outW).toNat] := by rw [hl4, hl3']
      have hdt : ∀ i, l'.biasOnesBlob.data i = 1 := by intro i; rw [hl4, hl3']
      refine ⟨?_, hdt⟩
      rw [hsh, e2h, e2w, hSn]
    · intro h1
      have h13 : BaseConvolutionLayerImpl.is1x1 l3 = false := by
        rw [hl4] at h1; exact h1
      obtain ⟨_, hl4'⟩ := (allocColRow_ok ha).2 h13
      have ecs : l3.colRowBlobShape = [l'.outH * l'.outW, l'.ksize] := by
        rw [hl4, hl3, hl2]
      have hcs : l'.colRowBlob.shape = l3.colRowBlobShape.map Int.toNat := by rw [hl4']
      rw [hcs, ecs]
      simp only [List.map_cons, List.map_nil]
      rw [hSn, g15, ewc, eic, a7, ← hwr, ← hwc, ewr, ewl, toNat_mul3_cast]
  · intro ii out ho
    have hlt : ii < inputs.length := by
      rcases Nat.lt_or_ge ii outs.length with hlt | hge
      · rw [hlen] at hlt; exact hlt
      · rw [List.getElem?_eq_none hge] at ho; cases ho
    have hii : inputs[ii]? = some inputs[ii] := List.getElem?_eq_getElem hlt
    refine ⟨inputs[ii], hii, ?_⟩
    obtain ⟨out', out0, ho', _, hout, _, _, _⟩ := hshape ii inputs[ii] hii
    rw [ho] at ho'; cases ho'
    have hag : inputAgrees input inputs[ii] = true :=
      (List.all_eq_true.1 hall) _ (List.getElem_mem hlt)
    obtain ⟨hty', M, hM⟩ := inputAgrees_shape hins hag
    refine ⟨M, by rw [hM, a4], by rw [hty']; exact hty, ?_⟩
    rw [hout]
    simp only
    have enum : inputs[ii].num = (M : Int) := by simp [Blob.num, Blob.xsize, hM]
    rw [enum, e3c, e3h, e3w, g11, ewn, a3]
    simp

/-! ## The accelerator path of the convolution -/

/-- A loop whose body never changes the state leaves the state as it was. -/
theorem loopFrom_state_fixed {σ : Type} (body : Nat → σ → Option Error × σ)
    (hbody : ∀ j s, (body j s).2 = s) : ∀ (k i : Nat) (s : σ), (loopFrom body k i s).2 = s := by
  intro k
  induction k with
  | zero => intro i s; rfl
  | succ k ih =>
    intro i s
    simp only [loopFrom]
    have h2 := hbody i s
    rcases hb : body i s with ⟨e, s1⟩
    rw [hb] at h2
    simp only at h2
    subst h2
    cases e with
    | some e => rfl
    | none => exact ih (i + 1) s1

/-- A loop on a state that its body never changes fails at the first failing iteration. -/
theorem loopFrom_first_failure {σ : Type} (body : Nat → σ → Option Error × σ) (s : σ) (e : Error)
    (i0 : Nat) (hfail : body i0 s = (some e, s)) :
    ∀ (k i : Nat), i ≤ i0 → i0 < i + k → (∀ j, i ≤ j → j < i0 → body j s = (none, s)) →
      loopFrom body k i s = (some e, s) := by
  intro k
  induction k with
  | zero => intro i h1 h2 _; omega
  | succ k ih =>
    intro i h1 h2 hbefore
    simp only [loopFrom]
    by_cases hi : i = i0
    · subst hi; rw [hfail]
    · rw [hbefore i (Nat.le_refl i) (by omega)]
      exact ih (i + 1) (by omega) (by omega) (fun j hj1 hj2 => hbefore j (by omega) hj2)

/-- A loop on a state that its body never changes and on which no iteration fails. -/
theorem loopFrom_no_failure {σ : Type} (body : Nat → σ → Option Error × σ) (s : σ) :
    ∀ (k i : Nat), (∀ j, i ≤ j → j < i + k → body j s = (none, s)) →
      loopFrom body k i s = (none, s) := by
  intro k
  induction k with
  | zero => intro i _; rfl
  | succ k ih =>
    intro i hall
    simp only [loopFrom]
    rw [hall i (Nat.le_refl i) (by omega)]
    exact ih (i + 1) (fun j hj1 hj2 => hall j (by omega) (by omega))

theorem set_getElem?_self {α : Type} (xs : List α) (i : Nat) (a : α) (h : xs[i]? = some a) :
    xs.set i a = xs := by
  induction xs generalizing i with
  | nil => rfl
  | cons x xs ih =>
    cases i with
    | zero =>
      simp only [List.getElem?_cons_zero, Option.some.injEq] at h
      subst h; rfl
    | succ i =>
      simp only [List.getElem?_cons_succ] at h
      simp only [List.set_cons_succ, ih i h]

/-- On the accelerator path the loop body changes nothing. -/
theorem forwardBody_umat_state (env : Env) (l : Layer) (weightsMat biasesMat : Mat)
    (inpMat : MatView) (outMat : Mat) (n g : Nat) (s : FwdState) :
    (ConvolutionLayerImpl.forwardBody env l true weightsMat biasesMat inpMat outMat n g s).2 = s ∧
    ∃ e, (ConvolutionLayerImpl.forwardBody env l true weightsMat biasesMat inpMat outMat n g s).1
      = some e := by
  unfold ConvolutionLayerImpl.forwardBody
  cases slice inpMat n (g * l.inpGroupCn) l.inpGroupCn with
  | error e => exact ⟨rfl, e, rfl⟩
  | ok curInp =>
    simp only [ConvolutionLayerImpl.im2row, if_true, ConvolutionLayerImpl.im2rowUMat]
    exact ⟨trivial, _, rfl⟩

/-- On the accelerator path one iteration of the loop over the outputs changes nothing. -/
theorem forwardOutput_umat_state (env : Env) (l : Layer) (weightsMat biasesMat : Mat)
    (inputs : List Blob) (ii : Nat) (s : Blob × List Blob) :
    (ConvolutionLayerImpl.forwardOutput env l true weightsMat biasesMat inputs ii s).2 = s := by
  unfold ConvolutionLayerImpl.forwardOutput
  cases hi : inputs[ii]? with
  | none => rfl
  | some inp =>
    cases ho : s.2[ii]? with
    | none => rfl
    | some out =>
      simp only
      cases inp.shape.head? with
      | none => rfl
      | some numImg =>
        simp only
        cases reshaped out.getRefConst ((numImg : Int) * l.group * l.outGroupCn)
            (l.outH * l.outW) with
        | error e => rfl
        | ok outMat =>
          simp only
          have hst : (forLoop numImg (fun n => forLoop l.group.toNat (fun g =>
              ConvolutionLayerImpl.forwardBody env l true weightsMat biasesMat inp.getRefConst
                outMat n g)) ⟨s.1, out⟩).2 = ⟨s.1, out⟩ :=
            loopFrom_state_fixed _ (fun n s' => loopFrom_state_fixed _
              (fun g s'' => (forwardBody_umat_state env l weightsMat biasesMat inp.getRefConst
                outMat n g s'').1) _ 0 s') _ 0 _
          rcases hl : forLoop numImg (fun n => forLoop l.group.toNat (fun g =>
              ConvolutionLayerImpl.forwardBody env l true weightsMat biasesMat inp.getRefConst
                outMat n g)) ⟨s.1, out⟩ with ⟨e, s'⟩
          rw [hl] at hst
          simp only at hst
          subst hst
          simp only [set_getElem?_self s.2 ii out ho]

/-- On the accelerator path `forward_` writes nothing: the layer and the outputs are
returned as they were passed. -/
theorem forward_umat_state (env : Env) (l : Layer) (inputs outputs : List Blob) :
    (ConvolutionLayerImpl.forward_ env l true inputs outputs).2 = (l, outputs) := by
  unfold ConvolutionLayerImpl.forward_
  split
  · rfl
  · split
    · rfl
    · split
      · rename_i weightsMat biasesMat _ _
        have hst := loopFrom_state_fixed
          (ConvolutionLayerImpl.forwardOutput env l true weightsMat biasesMat inputs)
          (fun ii s => forwardOutput_umat_state env l weightsMat biasesMat inputs ii s)
          outputs.length 0 (l.colRowBlob, outputs)
        unfold forLoop
        rcases hl : loopFrom (ConvolutionLayerImpl.forwardOutput env l true weightsMat biasesMat
          inputs) outputs.length 0 (l.colRowBlob, outputs) with ⟨e, s'⟩
        rw [hl] at hst
        simp only at hst
        subst hst
        rfl
      · rfl
      · rfl

/-- A loop on a state that its body never changes, every iteration of which either passes
or fails with `e`, fails with `e` as soon as one iteration does. -/
theorem loopFrom_some_failure {σ : Type} (body : Nat → σ → Option Error × σ) (s : σ) (e : Error) :
    ∀ (k i : Nat), (∀ j, i ≤ j → j < i + k → body j s = (none, s) ∨ body j s = (some e, s)) →
      (∃ j, i ≤ j ∧ j < i + k ∧ body j s = (some e, s)) →
      loopFrom body k i s = (some e, s) := by
  intro k
  induction k with
  | zero => intro i _ ⟨j, h1, h2, _⟩; omega
  | succ k ih =>
    intro i hall ⟨j, h1, h2, hj⟩
    simp only [loopFrom]
    rcases hall i (Nat.le_refl i) (by omega) with hi | hi
    · rw [hi]
      simp only
      have hne : j ≠ i := by
        intro hji; subst hji; rw [hi] at hj; cases hj
      exact ih (i + 1) (fun j' hj1 hj2 => hall j' (by omega) (by omega))
        ⟨j, by omega, by omega, hj⟩
    · rw [hi]

/-- The matrices `weightsMat` and `biasesMat` of `forward_` on a ready layer. -/
theorem forward_prelude_ready (l : Layer) {G I O kh kw H W oh ow : Nat}
    (hr : ConvReady l G I O kh kw H W oh ow) :
    ∃ w weightsMat biasesMat, l.blobs[0]? = some w ∧
      reshaped w.getRefConst l.outCn l.ksize = Except.ok weightsMat ∧
      biasesMatOf l = Except.ok biasesMat := by
  obtain ⟨w, hw, hws⟩ := hr.weight
  refine ⟨w, _, ?_, hw, reshaped_ok w.getRefConst l.outCn l.ksize (G * O) (I * kh * kw) hr.outCn
    hr.ksize (by
      simp only [Blob.getRefConst, MatView.total, hws]
      rw [if_neg (by simp)]
      simp only [List.prod_cons, List.prod_nil]
      ring), ?_⟩
  · exact (if l.bias then
      match l.blobs[1]? with
      | some b => ⟨G * O, 1, fun i j => b.getRefConst.buf (b.getRefConst.offset + (i * 1 + j))⟩
      | none => Mat.empty
      else Mat.empty)
  · unfold biasesMatOf
    rcases Bool.eq_false_or_eq_true l.bias with hb | hb
    · obtain ⟨b, hb1, hbt⟩ := hr.biasBlob hb
      simp only [hb, if_true, hb1]
      exact reshaped_ok b.getRefConst l.outCn 1 (G * O) 1 hr.outCn rfl
        (by simp only [Blob.getRefConst, MatView.total]; simpa [Blob.total] using hbt.symm)
    · simp only [hb, Bool.false_eq_true, if_false]

/-- One iteration of the loop over the outputs on the accelerator path of a ready layer:
it passes without any effect for an empty batch item list and fails with the
not-implemented error otherwise. -/
theorem forwardOutput_umat_ready (env : Env) (l : Layer) {G I O kh kw H W oh ow : Nat}
    (hr : ConvReady l G I O kh kw H W oh ow) (weightsMat biasesMat : Mat)
    (inputs : List Blob) (ii : Nat) (s : Blob × List Blob) (inp out : Blob)
    (hi : inputs[ii]? = some inp) (ho : s.2[ii]? = some out)
    (hp : PairReady G I O H W oh ow inp out) :
    (inp.num = 0 → ConvolutionLayerImpl.forwardOutput env l true weightsMat biasesMat inputs ii s
        = (none, s)) ∧
    (1 ≤ inp.num → ConvolutionLayerImpl.forwardOutput env l true weightsMat biasesMat inputs ii s
        = (some Error.StsNotImplemented, s)) := by
  obtain ⟨N, hshape, htype, hout⟩ := hp
  have hS : l.outH * l.outW = ((oh * ow : Nat) : Int) := by rw [hr.outH, hr.outW]; push_cast; rfl
  have hGn : l.group.toNat = G := by rw [hr.group]; exact Int.toNat_ofNat _
  have hnum : inp.num = (N : Int) := by simp [Blob.num, Blob.xsize, hshape]
  have hG := hr.groupPos
  unfold ConvolutionLayerImpl.forwardOutput
  simp only [hi, ho, hshape, List.head?_cons]
  rw [reshaped_ok out.getRefConst _ (l.outH * l.outW) (N * G * O) (oh * ow)
    (by rw [hr.group, hr.outGroupCn]; push_cast; rfl) hS
    (by
      simp only [Blob.getRefConst, MatView.total, hout]
      rw [if_neg (by simp)]
      simp only [List.prod_cons, List.prod_nil]
      ring)]
  simp only [hGn]
  constructor
  · intro h0
    have hN : N = 0 := by rw [hnum] at h0; exact_mod_cast h0
    subst hN
    simp only [forLoop, loopFrom, set_getElem?_self s.2 ii out ho]
  · intro h1
    have hN : 1 ≤ N := by rw [hnum] at h1; exact_mod_cast h1
    have hbody : ∀ s' : FwdState, ConvolutionLayerImpl.forwardBody env l true weightsMat biasesMat
        inp.getRefConst ⟨N * G * O, oh * ow, fun i j =>
          out.getRefConst.buf (out.getRefConst.offset + (i * (oh * ow) + j))⟩ 0 0 s'
        = (some Error.StsNotImplemented, s') := by
      intro s'
      unfold ConvolutionLayerImpl.forwardBody
      rw [slice_ok inp.getRefConst ((0 : Nat) : Int) (((0 : Nat) : Int) * l.inpGroupCn)
        l.inpGroupCn N (G * I) H W 0 (0 * I) I hshape rfl
        (by rw [hr.inpGroupCn]; push_cast; rfl) hr.inpGroupCn (by omega)
        (group_block_le I (by omega))]
      simp only [ConvolutionLayerImpl.im2row, if_true, ConvolutionLayerImpl.im2rowUMat]
    have hinner : ∀ s' : FwdState, forLoop G (fun g =>
        ConvolutionLayerImpl.forwardBody env l true weightsMat biasesMat inp.getRefConst
          ⟨N * G * O, oh * ow, fun i j =>
            out.getRefConst.buf (out.getRefConst.offset + (i * (oh * ow) + j))⟩ 0 g) s'
        = (some Error.StsNotImplemented, s') := fun s' =>
      loopFrom_first_failure _ s' _ 0 (hbody s') G 0 (Nat.le_refl 0) (by omega)
        (fun j _ hj => absurd hj (Nat.not_lt_zero j))
    have houter := loopFrom_first_failure (fun n => forLoop G (fun g =>
        ConvolutionLayerImpl.forwardBody env l true weightsMat biasesMat inp.getRefConst
          ⟨N * G * O, oh * ow, fun i j =>
            out.getRefConst.buf (out.getRefConst.offset + (i * (oh * ow) + j))⟩ n g))
      (⟨s.1, out⟩ : FwdState) Error.StsNotImplemented 0 (hinner _) N 0 (Nat.le_refl 0) (by omega)
      (fun j _ hj => absurd hj (Nat.not_lt_zero j))
    simp only [forLoop] at houter ⊢
    rw [houter]
    simp only [set_getElem?_self s.2 ii out ho]

/-- C10: when the accelerator path is selected, `forward` of a convolution never writes an
output element or the scratch buffer (layer and outputs are returned as passed, for every
call); and every call on a successfully allocated layer with at least one batch item in
some input fails with the not-implemented error of `im2row`, the host path not being tried. -/
theorem conv_forward_accelerator_fails (env : Env) (l : Layer) (inputs outputs : List Blob)
    (hocl : l.useOpenCL = true) :
    (ConvolutionLayerImpl.forward env l inputs outputs).2 = (l, outputs) ∧
    (ConvolutionLayerImpl.forward env l inputs outputs
      = ConvolutionLayerImpl.forward_ env l true inputs outputs) ∧
    (∀ (l0 : Layer) (outputs0 : List Blob), l0.layerKind = LayerKind.Convolution →
      BaseConvolutionLayerImpl.allocate env l0 inputs outputs0 = (none, l, outputs) →
      (∃ inp, inp ∈ inputs ∧ 1 ≤ inp.num) →
      (ConvolutionLayerImpl.forward env l inputs outputs).1 = some Error.StsNotImplemented) := by
  have hfw : ConvolutionLayerImpl.forward env l inputs outputs
      = ConvolutionLayerImpl.forward_ env l true inputs outputs := by
    unfold ConvolutionLayerImpl.forward
    rw [hocl]; rfl
  refine ⟨by rw [hfw]; exact forward_umat_state env l inputs outputs, hfw, ?_⟩
  intro l0 outputs0 hk halloc ⟨inp0, hmem, hnum⟩
  obtain ⟨G, I, O, kh, kw, H, W, oh, ow, hr, hne, hlen, hpairs⟩ := allocate_conv_ready hk halloc
  obtain ⟨w, weightsMat, biasesMat, hw, hwm, hbm⟩ := forward_prelude_ready l hr
  rw [hfw]
  unfold ConvolutionLayerImpl.forward_
  rw [if_neg (by simp only [not_not]; exact List.length_pos.2 hne)]
  simp only [hw, hwm, hbm]
  have hcase : ∀ j, j < outputs.length → ∃ inp out, inputs[j]? = some inp ∧
      outputs[j]? = some out ∧ PairReady G I O H W oh ow inp out := by
    intro j hj
    obtain ⟨inp, hi, hp⟩ := hpairs j outputs[j] (List.getElem?_eq_getElem hj)
    exact ⟨inp, outputs[j], hi, List.getElem?_eq_getElem hj, hp⟩
  have hloop := loopFrom_some_failure
    (ConvolutionLayerImpl.forwardOutput env l true weightsMat biasesMat inputs)
    (l.colRowBlob, outputs) Error.StsNotImplemented outputs.length 0
    (by
      intro j _ hj
      obtain ⟨inp, out, hi, ho, hp⟩ := hcase j (by omega)
      have h2 := forwardOutput_umat_ready env l hr weightsMat biasesMat inputs j
        (l.colRowBlob, outputs) inp out hi ho hp
      have hnn : (0 : Int) ≤ inp.num := by unfold Blob.num Blob.xsize; exact Int.ofNat_nonneg _
      by_cases hpos : 0 < inp.num
      · exact Or.inr (h2.2 (by omega))
      · exact Or.inl (h2.1 (by omega)))
    (by
      obtain ⟨j, hj, hjm⟩ := List.getElem_of_mem hmem
      have hjo : j < outputs.length := by rw [hlen]; exact hj
      obtain ⟨inp, out, hi, ho, hp⟩ := hcase j hjo
      have hinp : inp = inp0 := by
        rw [List.getElem?_eq_getElem hj, hjm] at hi
        exact (Option.some.inj hi).symm
      subst hinp
      exact ⟨j, Nat.zero_le j, by omega,
        (forwardOutput_umat_ready env l hr weightsMat biasesMat inputs j
          (l.colRowBlob, outputs) inp out hi ho hp).2 hnum⟩)
  simp only [forLoop, hloop]

/-! ## Bias linearity -/

/-- The output channel of a flat output index. -/
theorem channel_index (G O S n c p : Nat) (hc : c < G * O) (hp : p < S) :
    ((n * (G * O) + c) * S + p) / S / O % G * O + ((n * (G * O) + c) * S + p) / S % O = c := by
  have hO : 0 < O := by
    rcases Nat.eq_zero_or_pos O with h | h
    · subst h; simp at hc
    · exact h
  rw [(flat_index (n * (G * O) + c) p S hp).1]
  have h1 : (n * (G * O) + c) / O = n * G + c / O := by
    have : n * (G * O) + c = c + (n * G) * O := by ring
    rw [this, Nat.add_mul_div_right _ _ hO]; omega
  have h2 : (n * (G * O) + c) % O = c % O := by
    have : n * (G * O) + c = c + (n * G) * O := by ring
    rw [this, Nat.add_mul_mod_self_right]
  have h3 : c / O < G := (Nat.div_lt_iff_lt_mul hO).2 hc
  have h4 : (n * G + c / O) % G = c / O := by
    rw [Nat.add_comm, Nat.add_mul_mod_self_right, Nat.mod_eq_of_lt h3]
  rw [h1, h2, h4]
  have := Nat.div_add_mod c O
  rw [Nat.mul_comm] at this
  exact this

/-- The stored value depends on the layer only through its geometry, its weights and, for
the added term, its bias. -/
theorem outElem_congr (env : Env) (l1 l2 : Layer) (inp : Blob)
    (hk : l1.kernel = l2.kernel) (hs : l1.stride = l2.stride) (hd : l1.dilation = l2.dilation)
    (hp : l1.pad = l2.pad) (h1 : l1.inpCn = l2.inpCn) (h2 : l1.inpGroupCn = l2.inpGroupCn)
    (h3 : l1.inpH = l2.inpH) (h4 : l1.inpW = l2.inpW) (h5 : l1.outH = l2.outH)
    (h6 : l1.outW = l2.outW) (h7 : l1.ksize = l2.ksize) (h8 : l1.outGroupCn = l2.outGroupCn)
    (h9 : l1.weightData = l2.weightData) (n g r p : Nat) :
    ConvolutionLayerImpl.outElem env l1 inp n g r p =
      ConvolutionLayerImpl.outElem env l2 inp n g r p
        - l2.biasData (g * l2.outGroupCn.toNat + r) + l1.biasData (g * l2.outGroupCn.toNat + r) := by
  have hrow : ∀ k, ConvolutionLayerImpl.rowElem env l1 inp n g p k
      = ConvolutionLayerImpl.rowElem env l2 inp n g p k := by
    intro k
    simp only [ConvolutionLayerImpl.rowElem, BaseConvolutionLayerImpl.is1x1,
      ConvolutionLayerImpl.geometry, hk, hs, hd, hp, h1, h2, h3, h4, h5, h6, h7]
  simp only [ConvolutionLayerImpl.outElem, hrow, h7, h8, h9]
  ring

theorem outAt_congr (env : Env) (l1 l2 : Layer) (inp : Blob)
    (hk : l1.kernel = l2.kernel) (hs : l1.stride = l2.stride) (hd : l1.dilation = l2.dilation)
    (hp : l1.pad = l2.pad) (h1 : l1.inpCn = l2.inpCn) (h2 : l1.inpGroupCn = l2.inpGroupCn)
    (h3 : l1.inpH = l2.inpH) (h4 : l1.inpW = l2.inpW) (h5 : l1.outH = l2.outH)
    (h6 : l1.outW = l2.outW) (h7 : l1.ksize = l2.ksize) (h8 : l1.outGroupCn = l2.outGroupCn)
    (h9 : l1.weightData = l2.weightData) (h10 : l1.group = l2.group) (idx : Nat) :
    ConvolutionLayerImpl.outAt env l1 inp idx =
      ConvolutionLayerImpl.outAt env l2 inp idx
        - l2.biasData (idx / (l2.outH * l2.outW).toNat / l2.outGroupCn.toNat % l2.group.toNat
            * l2.outGroupCn.toNat + idx / (l2.outH * l2.outW).toNat % l2.outGroupCn.toNat)
        + l1.biasData (idx / (l2.outH * l2.outW).toNat / l2.outGroupCn.toNat % l2.group.toNat
            * l2.outGroupCn.toNat + idx / (l2.outH * l2.outW).toNat % l2.outGroupCn.toNat) := by
  unfold ConvolutionLayerImpl.outAt
  rw [h5, h6, h8, h10]
  exact outElem_congr env l1 l2 inp hk hs hd hp h1 h2 h3 h4 h5 h6 h7 h8 h9 _ _ _ _

/-- Two successful allocations of convolution layers that differ only in their bias blob
agree on the geometry, the weights and the derived extents. -/
theorem allocate_conv_same_geometry {env : Env} {la lb la' lb' : Layer}
    {inputs outsA outsB oa ob : List Blob}
    (hka : la.layerKind = LayerKind.Convolution) (hkb : lb.layerKind = LayerKind.Convolution)
    (hA : BaseConvolutionLayerImpl.allocate env la inputs outsA = (none, la', oa))
    (hB : BaseConvolutionLayerImpl.allocate env lb inputs outsB = (none, lb', ob))
    (e1 : la.kernel = lb.kernel) (e2 : la.stride = lb.stride) (e3 : la.dilation = lb.dilation)
    (e4 : la.pad = lb.pad) (e5 : la.padMode = lb.padMode) (e6 : la.blobs[0]? = lb.blobs[0]?)
    (e7 : la.tryUseOpenCL = lb.tryUseOpenCL) :
    la'.kernel = lb'.kernel ∧ la'.stride = lb'.stride ∧ la'.dilation = lb'.dilation ∧
    la'.pad = lb'.pad ∧ la'.inpCn = lb'.inpCn ∧ la'.inpGroupCn = lb'.inpGroupCn ∧
    la'.inpH = lb'.inpH ∧ la'.inpW = lb'.inpW ∧ la'.outH = lb'.outH ∧ la'.outW = lb'.outW ∧
    la'.ksize = lb'.ksize ∧ la'.outGroupCn = lb'.outGroupCn ∧ la'.weightData = lb'.weightData ∧
    la'.group = lb'.group ∧ la'.outCn = lb'.outCn ∧ la'.useOpenCL = lb'.useOpenCL := by
  obtain ⟨ia, wa, hia, hwa, a1, a2, a3, a4, a5, a6, a7, a8, a9, a10, a11, a12, a13, a14, a15,
    a16, a17, _, _⟩ := allocate_conv_fields hka hA
  obtain ⟨ib, wb, hib, hwb, b1, b2, b3, b4, b5, b6, b7, b8, b9, b10, b11, b12, b13, b14, b15,
    b16, b17, _, _⟩ := allocate_conv_fields hkb hB
  rw [hia] at hib; cases hib
  rw [e6, hwb] at hwa; cases hwa
  have hpo : la'.pad = lb'.pad ∧ la'.outH = lb'.outH ∧ la'.outW = lb'.outW := by
    rcases Bool.eq_false_or_eq_true la.padMode.isEmpty with hp | hp
    · obtain ⟨p1, p2, p3⟩ := a16 hp
      obtain ⟨q1, q2, q3⟩ := b16 (by rw [← e5]; exact hp)
      rw [p1, p2, p3, q1, q2, q3, e1, e2, e3, e4]
      exact ⟨rfl, rfl, rfl⟩
    · have p := a17 hp
      have q := b17 (by rw [← e5]; exact hp)
      rw [e1, e2, e4, e5, q] at p
      simp only [Except.ok.injEq, Prod.mk.injEq] at p
      exact ⟨p.1.symm, p.2.1.symm, p.2.2.symm⟩
  have hwd : la'.weightData = lb'.weightData := by
    unfold Layer.weightData
    rw [a4, b4, e6]
  refine ⟨by rw [a1, b1, e1], by rw [a2, b2, e2], by rw [a3, b3, e3], hpo.1, by rw [a10, b10],
    by rw [a14, b14], by rw [a8, b8], by rw [a9, b9], hpo.2.1, hpo.2.2,
    by rw [a15, b15, e1], by rw [a13, b13], hwd, by rw [a12, b12], by rw [a11, b11],
    by rw [a7, b7, e3, e7]⟩

/-- The host `forward` on a successfully allocated convolution layer whose fast path, if
taken, is legal: the call succeeds, every output keeps its header and holds the values
`outAt`, and the layer changes at most in the elements of its scratch blob. -/
theorem conv_forward_allocated {env : Env} {l l' : Layer} {inputs outputs outs : List Blob}
    (hk : l.layerKind = LayerKind.Convolution)
    (halloc : BaseConvolutionLayerImpl.allocate env l inputs outputs = (none, l', outs))
    (hhost : l'.useOpenCL = false)
    (hfast : BaseConvolutionLayerImpl.is1x1 l' = true → l'.outH * l'.outW = l'.inpH * l'.inpW) :
    ∃ crb outs', ConvolutionLayerImpl.forward env l' inputs outs
        = (none, { l' with colRowBlob := crb }, outs') ∧
      outs'.length = inputs.length ∧
      (BaseConvolutionLayerImpl.is1x1 l' = true → crb = l'.colRowBlob) ∧
      ∀ (ii : Nat) (inp : Blob), inputs[ii]? = some inp →
        ∃ out out', outs[ii]? = some out ∧ outs'[ii]? = some out' ∧
          out.shape = [inp.num.toNat, l'.outCn.toNat, l'.outH.toNat, l'.outW.toNat] ∧
          OutputDone env l' inp out out' := by
  obtain ⟨G, I, O, kh, kw, H, W, oh, ow, hr, hne, hlen, hpairs⟩ := allocate_conv_ready hk halloc
  have hfast' : BaseConvolutionLayerImpl.is1x1 l' = true → oh * ow = H * W := by
    intro h1
    have := hfast h1
    rw [hr.outH, hr.outW, hr.inpH, hr.inpW] at this
    exact_mod_cast this
  obtain ⟨crb, outs', hfw, q1, q2, q3, _⟩ := conv_forward_ready env l' hr hfast' inputs outs hne
    hpairs
  refine ⟨crb, outs', ?_, by rw [q1, hlen], q3, ?_⟩
  · have hsel : ConvolutionLayerImpl.forward env l' inputs outs
        = ConvolutionLayerImpl.forward_ env l' false inputs outs := by
      unfold ConvolutionLayerImpl.forward
      rw [hhost]; rfl
    rw [hsel]
    exact hfw
  · intro ii inp hi
    have hlt : ii < outs.length := by
      rcases Nat.lt_or_ge ii inputs.length with h | h
      · rw [hlen]; exact h
      · rw [List.getElem?_eq_none h] at hi; cases hi
    have ho : outs[ii]? = some outs[ii] := List.getElem?_eq_getElem hlt
    obtain ⟨inp', hi', N, hs1, _, hs2⟩ := hpairs ii _ ho
    rw [hi] at hi'; cases hi'
    obtain ⟨out', ho', hd⟩ := q2 ii inp _ hi ho
    refine ⟨_, out', ho, ho', ?_, hd⟩
    have e1 : inp.num.toNat = N := by simp [Blob.num, Blob.xsize, hs1]
    have e2 : l'.outCn.toNat = G * O := by rw [hr.outCn]; exact Int.toNat_ofNat _
    have e3 : l'.outH.toNat = oh := by rw [hr.outH]; exact Int.toNat_ofNat _
    have e4 : l'.outW.toNat = ow := by rw [hr.outW]; exact Int.toNat_ofNat _
    rw [hs2, e1, e2, e3, e4]

/-! ## The host path when the fast path is not legal -/

/-- One iteration of the loop over the outputs on the host path of a ready 1x1 layer whose
output spatial size differs from the input spatial size: it passes without any effect for an
empty batch item list and fails in the reshape of the input slice otherwise. -/
theorem forwardOutput_host_illegal (env : Env) (l : Layer) {G I O kh kw H W oh ow : Nat}
    (hr : ConvReady l G I O kh kw H W oh ow)
    (h1 : BaseConvolutionLayerImpl.is1x1 l = true) (hneq : oh * ow ≠ H * W)
    (weightsMat biasesMat : Mat)
    (inputs : List Blob) (ii : Nat) (s : Blob × List Blob) (inp out : Blob)
    (hi : inputs[ii]? = some inp) (ho : s.2[ii]? = some out)
    (hp : PairReady G I O H W oh ow inp out) :
    (inp.num = 0 → ConvolutionLayerImpl.forwardOutput env l false weightsMat biasesMat inputs ii s
        = (none, s)) ∧
    (1 ≤ inp.num → ConvolutionLayerImpl.forwardOutput env l false weightsMat biasesMat inputs ii s
        = (some Error.StsUnmatchedSizes, s)) := by
  obtain ⟨N, hshape, htype, hout⟩ := hp
  have hS : l.outH * l.outW = ((oh * ow : Nat) : Int) := by rw [hr.outH, hr.outW]; push_cast; rfl
  have hGn : l.group.toNat = G := by rw [hr.group]; exact Int.toNat_ofNat _
  have hnum : inp.num = (N : Int) := by simp [Blob.num, Blob.xsize, hshape]
  have hG := hr.groupPos
  have hIpos := hr.inpGroupPos
  have hk : kh = 1 ∧ kw = 1 := by
    have h1' := h1
    unfold BaseConvolutionLayerImpl.is1x1 at h1'
    simp only [Bool.and_eq_true, decide_eq_true_eq] at h1'
    rw [hr.kernelH, hr.kernelW] at h1'
    omega
  obtain ⟨rfl, rfl⟩ := hk
  unfold ConvolutionLayerImpl.forwardOutput
  simp only [hi, ho, hshape, List.head?_cons]
  rw [reshaped_ok out.getRefConst _ (l.outH * l.outW) (N * G * O) (oh * ow)
    (by rw [hr.group, hr.outGroupCn]; push_cast; rfl) hS
    (by
      simp only [Blob.getRefConst, MatView.total, hout]
      rw [if_neg (by simp)]
      simp only [List.prod_cons, List.prod_nil]
      ring)]
  simp only [hGn]
  constructor
  · intro h0
    have hN : N = 0 := by rw [hnum] at h0; exact_mod_cast h0
    subst hN
    simp only [forLoop, loopFrom, set_getElem?_self s.2 ii out ho]
  · intro hpos
    have hN : 1 ≤ N := by rw [hnum] at hpos; exact_mod_cast hpos
    have hbody : ∀ s' : FwdState, ConvolutionLayerImpl.forwardBody env l false weightsMat
        biasesMat inp.getRefConst ⟨N * G * O, oh * ow, fun i j =>
          out.getRefConst.buf (out.getRefConst.offset + (i * (oh * ow) + j))⟩ 0 0 s'
        = (some Error.StsUnmatchedSizes, s') := by
      intro s'
      unfold ConvolutionLayerImpl.forwardBody
      rw [slice_ok inp.getRefConst ((0 : Nat) : Int) (((0 : Nat) : Int) * l.inpGroupCn)
        l.inpGroupCn N (G * I) H W 0 (0 * I) I hshape rfl
        (by rw [hr.inpGroupCn]; push_cast; rfl) hr.inpGroupCn (by omega)
        (group_block_le I (by omega))]
      simp only [ConvolutionLayerImpl.im2row, Bool.false_eq_true, if_false,
        ConvolutionLayerImpl.im2rowMat, h1, if_true]
      have hbad : reshaped
          ⟨[1, I, H, W], inp.getRefConst.type, inp.getRefConst.buf, inp.getRefConst.bufSize,
            inp.getRefConst.offset + (0 * (G * I) + 0 * I) * (H * W)⟩ l.ksize (l.outH * l.outW)
          = Except.error Error.StsUnmatchedSizes := by
        unfold reshaped
        rw [hr.ksize, hS]
        rw [if_neg (by omega)]
        rw [if_pos]
        simp only [MatView.total]
        rw [if_neg (by simp)]
        simp only [List.prod_cons, List.prod_nil]
        intro hEq
        have hEq' : I * 1 * 1 * (oh * ow) = 1 * (I * (H * (W * 1))) := by exact_mod_cast hEq
        have : I * (oh * ow) = I * (H * W) := by
          simp only [Nat.mul_one, Nat.one_mul] at hEq'
          exact hEq'
        exact hneq (Nat.eq_of_mul_eq_mul_left (by omega) this)
      rw [hbad]
    have hinner : ∀ s' : FwdState, forLoop G (fun g =>
        ConvolutionLayerImpl.forwardBody env l false weightsMat biasesMat inp.getRefConst
          ⟨N * G * O, oh * ow, fun i j =>
            out.getRefConst.buf (out.getRefConst.offset + (i * (oh * ow) + j))⟩ 0 g) s'
        = (some Error.StsUnmatchedSizes, s') := fun s' =>
      loopFrom_first_failure _ s' _ 0 (hbody s') G 0 (Nat.le_refl 0) (by omega)
        (fun j _ hj => absurd hj (Nat.not_lt_zero j))
    have houter := loopFrom_first_failure (fun n => forLoop G (fun g =>
        ConvolutionLayerImpl.forwardBody env l false weightsMat biasesMat inp.getRefConst
          ⟨N * G * O, oh * ow, fun i j =>
            out.getRefConst.buf (out.getRefConst.offset + (i * (oh * ow) + j))⟩ n g))
      (⟨s.1, out⟩ : FwdState) Error.StsUnmatchedSizes 0 (hinner _) N 0 (Nat.le_refl 0)
      (by omega) (fun j _ hj => absurd hj (Nat.not_lt_zero j))
    simp only [forLoop] at houter ⊢
    rw [houter]
    simp only [set_getElem?_self s.2 ii out ho]

/-- The host `forward_` on a ready 1x1 layer whose output spatial size differs from the
input spatial size: nothing is written; the call fails in the reshape of the first input
slice as soon as some input has a batch item, and passes otherwise. -/
theorem conv_forward_illegal (env : Env) (l : Layer) {G I O kh kw H W oh ow : Nat}
    (hr : ConvReady l G I O kh kw H W oh ow)
    (h1 : BaseConvolutionLayerImpl.is1x1 l = true) (hneq : oh * ow ≠ H * W)
    (inputs outs : List Blob) (hne : inputs ≠ []) (hlen : outs.length = inputs.length)
    (hpairs : ∀ (ii : Nat) (out : Blob), outs[ii]? = some out →
      ∃ inp, inputs[ii]? = some inp ∧ PairReady G I O H W oh ow inp out) :
    ((∃ inp, inp ∈ inputs ∧ 1 ≤ inp.num) →
      ConvolutionLayerImpl.forward_ env l false inputs outs
        = (some Error.StsUnmatchedSizes, l, outs)) ∧
    ((∀ inp, inp ∈ inputs → inp.num = 0) →
      ConvolutionLayerImpl.forward_ env l false inputs outs = (none, l, outs)) := by
  obtain ⟨w, weightsMat, biasesMat, hw, hwm, hbm⟩ := forward_prelude_ready l hr
  have hcase : ∀ j, j < outs.length → ∃ inp out, inputs[j]? = some inp ∧
      outs[j]? = some out ∧ PairReady G I O H W oh ow inp out := by
    intro j hj
    obtain ⟨inp, hi, hp⟩ := hpairs j outs[j] (List.getElem?_eq_getElem hj)
    exact ⟨inp, outs[j], hi, List.getElem?_eq_getElem hj, hp⟩
  have hstep : ∀ j, j < outs.length → ∃ inp, inputs[j]? = some inp ∧
      (inp.num = 0 → ConvolutionLayerImpl.forwardOutput env l false weightsMat biasesMat inputs j
        (l.colRowBlob, outs) = (none, (l.colRowBlob, outs))) ∧
      (1 ≤ inp.num → ConvolutionLayerImpl.forwardOutput env l false weightsMat biasesMat inputs j
        (l.colRowBlob, outs) = (some Error.StsUnmatchedSizes, (l.colRowBlob, outs))) := by
    intro j hj
    obtain ⟨inp, out, hi, ho, hp⟩ := hcase j hj
    exact ⟨inp, hi, forwardOutput_host_illegal env l hr h1 hneq weightsMat biasesMat inputs j
      (l.colRowBlob, outs) inp out hi ho hp⟩
  constructor
  · intro ⟨inp0, hmem, hnum⟩
    unfold ConvolutionLayerImpl.forward_
    rw [if_neg (by simp only [not_not]; exact List.length_pos.2 hne)]
    simp only [hw, hwm, hbm]
    have hloop := loopFrom_some_failure
      (ConvolutionLayerImpl.forwardOutput env l false weightsMat biasesMat inputs)
      (l.colRowBlob, outs) Error.StsUnmatchedSizes outs.length 0
      (by
        intro j _ hj
        obtain ⟨inp, _, h2⟩ := hstep j (by omega)
        have hnn : (0 : Int) ≤ inp.num := by unfold Blob.num Blob.xsize; exact Int.ofNat_nonneg _
        by_cases hpos : 0 < inp.num
        · exact Or.inr (h2.2 (by omega))
        · exact Or.inl (h2.1 (by omega)))
      (by
        obtain ⟨j, hj, hjm⟩ := List.getElem_of_mem hmem
        have hjo : j < outs.length := by rw [hlen]; exact hj
        obtain ⟨inp, hi, h2⟩ := hstep j hjo
        have hinp : inp = inp0 := by
          rw [List.getElem?_eq_getElem hj, hjm] at hi
          exact (Option.some.inj hi).symm
        subst hinp
        exact ⟨j, Nat.zero_le j, by omega, h2.2 hnum⟩)
    simp only [forLoop, hloop]
  · intro hzero
    unfold ConvolutionLayerImpl.forward_
    rw [if_neg (by simp only [not_not]; exact List.length_pos.2 hne)]
    simp only [hw, hwm, hbm]
    have hloop := loopFrom_no_failure
      (ConvolutionLayerImpl.forwardOutput env l false weightsMat biasesMat inputs)
      (l.colRowBlob, outs) outs.length 0
      (by
        intro j _ hj
        obtain ⟨inp, hi, h2⟩ := hstep j (by omega)
        exact h2.1 (hzero inp (List.getElem?_mem hi)))
    simp only [forLoop, hloop]

/-- The host `forward` on every successfully allocated convolution layer. The call succeeds
exactly when the fast path is legal (or not taken) or no input has a batch item, and fails in
the reshape of the input slice otherwise; when it succeeds there is one output per input,
with its header kept and the values `outAt` stored. -/
theorem conv_forward_allocated_total {env : Env} {l l' : Layer}
    {inputs outputs outs : List Blob}
    (hk : l.layerKind = LayerKind.Convolution)
    (halloc : BaseConvolutionLayerImpl.allocate env l inputs outputs = (none, l', outs))
    (hhost : l'.useOpenCL = false) :
    ∃ e crb outs', ConvolutionLayerImpl.forward env l' inputs outs
        = (e, { l' with colRowBlob := crb }, outs') ∧
      (((BaseConvolutionLayerImpl.is1x1 l' = true → l'.outH * l'.outW = l'.inpH * l'.inpW) ∨
          ∀ inp, inp ∈ inputs → inp.num = 0) → e = none) ∧
      (¬ ((BaseConvolutionLayerImpl.is1x1 l' = true → l'.outH * l'.outW = l'.inpH * l'.inpW) ∨
          ∀ inp, inp ∈ inputs → inp.num = 0) → e = some Error.StsUnmatchedSizes) ∧
      (e = none → ∀ (ii : Nat) (inp : Blob), inputs[ii]? = some inp →
        ∃ out out', outs[ii]? = some out ∧ outs'[ii]? = some out' ∧
          out.shape = [inp.num.toNat, l'.outCn.toNat, l'.outH.toNat, l'.outW.toNat] ∧
          OutputDone env l' inp out out') := by
  by_cases hleg : BaseConvolutionLayerImpl.is1x1 l' = true →
      l'.outH * l'.outW = l'.inpH * l'.inpW
  · obtain ⟨crb, outs', hfw, _, _, hd⟩ := conv_forward_allocated hk halloc hhost hleg
    exact ⟨none, crb, outs', hfw, fun _ => rfl, fun h => absurd (Or.inl hleg) h, fun _ => hd⟩
  · have h1 : BaseConvolutionLayerImpl.is1x1 l' = true := by
      rcases Bool.eq_false_or_eq_true (BaseConvolutionLayerImpl.is1x1 l') with h | h
      · exact h
      · exact absurd (fun h' => by rw [h] at h'; cases h') hleg
    obtain ⟨G, I, O, kh, kw, H, W, oh, ow, hr, hne, hlen, hpairs⟩ := allocate_conv_ready hk halloc
    have hneq : oh * ow ≠ H * W := by
      intro heq
      apply hleg
      intro _
      rw [hr.outH, hr.outW, hr.inpH, hr.inpW]
      exact_mod_cast heq
    have hsel : ConvolutionLayerImpl.forward env l' inputs outs
        = ConvolutionLayerImpl.forward_ env l' false inputs outs := by
      unfold ConvolutionLayerImpl.forward
      rw [hhost]; rfl
    obtain ⟨hfail, hpass⟩ := conv_forward_illegal env l' hr h1 hneq inputs outs hne hlen hpairs
    by_cases hz : ∀ inp, inp ∈ inputs → inp.num = 0
    · refine ⟨none, l'.colRowBlob, outs, by rw [hsel, hpass hz], fun _ => rfl,
        fun h => absurd (Or.inr hz) h, ?_⟩
      intro _ ii inp hi
      have hlt : ii < outs.length := by
        rcases Nat.lt_or_ge ii inputs.length with h | h
        · rw [hlen]; exact h
        · rw [List.getElem?_eq_none h] at hi; cases hi
      have ho : outs[ii]? = some outs[ii] := List.getElem?_eq_getElem hlt
      obtain ⟨inp', hi', N, hs1, _, hs2⟩ := hpairs ii _ ho
      rw [hi] at hi'; cases hi'
      have e1 : inp.num.toNat = N := by simp [Blob.num, Blob.xsize, hs1]
      have e2 : l'.outCn.toNat = G * O := by rw [hr.outCn]; exact Int.toNat_ofNat _
      have e3 : l'.outH.toNat = oh := by rw [hr.outH]; exact Int.toNat_ofNat _
      have e4 : l'.outW.toNat = ow := by rw [hr.outW]; exact Int.toNat_ofNat _
      have hN0 : N = 0 := by
        have := hz inp (List.getElem?_mem hi)
        rw [← e1, this]; rfl
      refine ⟨_, _, ho, ho, by rw [hs2, e1, e2, e3, e4], rfl, rfl, rfl, ?_⟩
      intro idx
      have ht : outs[ii].total = 0 := by
        rw [total_shape4 _ _ _ _ _ hs2, hN0]; simp
      rw [ht, if_neg (Nat.not_lt_zero idx)]
    · have hex : ∃ inp, inp ∈ inputs ∧ 1 ≤ inp.num := by
        by_contra hcon
        apply hz
        intro inp hmem
        have hnn : (0 : Int) ≤ inp.num := by unfold Blob.num Blob.xsize; exact Int.ofNat_nonneg _
        by_contra hne0
        exact hcon ⟨inp, hmem, by omega⟩
      refine ⟨some Error.StsUnmatchedSizes, l'.colRowBlob, outs, by rw [hsel, hfail hex], ?_,
        fun _ => rfl, fun h => by cases h⟩
      intro h
      rcases h with h | h
      · exact absurd h hleg
      · exact absurd h hz

/-- C5: bias linearity of the host convolution. For a layer with weight `W` and bias `B`
and the same layer without the bias, both successfully allocated on the same inputs, the
host `forward` ends in the same way on both (normally whenever the 1x1 fast path is not taken
or is legal), and when it returns normally every element of output channel `c` of every
batch item of every output is larger with the bias by exactly `B[c]`. -/
theorem conv_forward_bias_linearity (env : Env) (l : Layer) (W B : Blob)
    (inputs outputs : List Blob) (lb ln : Layer) (outsB outsN : List Blob)
    (hk : l.layerKind = LayerKind.Convolution) (hblobs : l.blobs = [W, B])
    (hab : BaseConvolutionLayerImpl.allocate env l inputs outputs = (none, lb, outsB))
    (han : BaseConvolutionLayerImpl.allocate env { l with blobs := [W] } inputs outputs
      = (none, ln, outsN))
    (hhost : lb.useOpenCL = false) :
    ∃ e lb' outsB' ln' outsN',
      ConvolutionLayerImpl.forward env lb inputs outsB = (e, lb', outsB') ∧
      ConvolutionLayerImpl.forward env ln inputs outsN = (e, ln', outsN') ∧
      (((BaseConvolutionLayerImpl.is1x1 lb = true → lb.outH * lb.outW = lb.inpH * lb.inpW) ∨
          ∀ inp, inp ∈ inputs → inp.num = 0) → e = none) ∧
      (e = none → ∀ (ii : Nat) (inp : Blob), inputs[ii]? = some inp →
        ∃ outb outn, outsB'[ii]? = some outb ∧ outsN'[ii]? = some outn ∧
          outb.shape = [inp.num.toNat, lb.outCn.toNat, lb.outH.toNat, lb.outW.toNat] ∧
          outn.shape = outb.shape ∧
          ∀ n c p, n < inp.num.toNat → c < lb.outCn.toNat →
            p < lb.outH.toNat * lb.outW.toNat →
            outb.data ((n * lb.outCn.toNat + c) * (lb.outH.toNat * lb.outW.toNat) + p)
              = outn.data ((n * lb.outCn.toNat + c) * (lb.outH.toNat * lb.outW.toNat) + p)
                + B.data c) := by
  have hkn : ({ l with blobs := [W] } : Layer).layerKind = LayerKind.Convolution := hk
  obtain ⟨g1, g2, g3, g4, g5, g6, g7, g8, g9, g10, g11, g12, g13, g14, g15, g16⟩ :=
    allocate_conv_same_geometry hk hkn hab han rfl rfl rfl rfl rfl (by rw [hblobs]; rfl) rfl
  have h1e : BaseConvolutionLayerImpl.is1x1 ln = BaseConvolutionLayerImpl.is1x1 lb := by
    unfold BaseConvolutionLayerImpl.is1x1
    rw [g1, g2, g3]
  have hPe : ((BaseConvolutionLayerImpl.is1x1 ln = true →
        ln.outH * ln.outW = ln.inpH * ln.inpW) ∨ ∀ inp, inp ∈ inputs → inp.num = 0) ↔
      ((BaseConvolutionLayerImpl.is1x1 lb = true →
        lb.outH * lb.outW = lb.inpH * lb.inpW) ∨ ∀ inp, inp ∈ inputs → inp.num = 0) := by
    rw [h1e, ← g9, ← g10, ← g7, ← g8]
  obtain ⟨eb, crbb, outsB', hfb, hpb, hqb, hdb'⟩ := conv_forward_allocated_total hk hab hhost
  obtain ⟨en, crbn, outsN', hfn, hpn, hqn, hdn'⟩ :=
    conv_forward_allocated_total hkn han (by rw [← g16]; exact hhost)
  have hee : en = eb := by
    by_cases hP : (BaseConvolutionLayerImpl.is1x1 lb = true →
        lb.outH * lb.outW = lb.inpH * lb.inpW) ∨ ∀ inp, inp ∈ inputs → inp.num = 0
    · rw [hpb hP, hpn (hPe.2 hP)]
    · rw [hqb hP, hqn (fun h => hP (hPe.1 h))]
  subst hee
  -- the bias data of the two layers
  obtain ⟨_, _, _, _, _, _, _, fb4, _, fb6, _⟩ := allocate_conv_fields hk hab
  obtain ⟨_, _, _, _, _, _, _, fn4, _, fn6, _⟩ := allocate_conv_fields hkn han
  have hbb : lb.biasData = B.data := by
    unfold Layer.biasData
    rw [fb6, fb4, hblobs]
    rfl
  have hbn : ln.biasData = fun _ => 0 := by
    unfold Layer.biasData
    rw [fn6]
    rfl
  obtain ⟨G, I, O, kh, kw, H, Wd, oh, ow, hr, _, _, _⟩ := allocate_conv_ready hk hab
  have hOC : lb.outCn.toNat = G * O := by rw [hr.outCn]; exact Int.toNat_ofNat _
  have hOH : lb.outH.toNat = oh := by rw [hr.outH]; exact Int.toNat_ofNat _
  have hOW : lb.outW.toNat = ow := by rw [hr.outW]; exact Int.toNat_ofNat _
  have hOn : ln.outGroupCn.toNat = O := by rw [← g12, hr.outGroupCn]; exact Int.toNat_ofNat _
  have hGn : ln.group.toNat = G := by rw [← g14, hr.group]; exact Int.toNat_ofNat _
  have hSn : (ln.outH * ln.outW).toNat = oh * ow := by
    rw [← g9, ← g10, hr.outH, hr.outW]; exact toNat_mul_cast _ _
  refine ⟨en, _, outsB', _, outsN', hfb, hfn, hpb, ?_⟩
  intro hnone ii inp hi
  have hdb := hdb' hnone
  have hdn := hdn' hnone
  obtain ⟨outb0, outb, _, hob, hsb, hsb', _, _, hdatab⟩ := hdb ii inp hi
  obtain ⟨outn0, outn, _, hon, hsn, hsn', _, _, hdatan⟩ := hdn ii inp hi
  rw [← g15, ← g9, ← g10] at hsn
  refine ⟨outb, outn, hob, hon, hsb'.trans hsb, by rw [hsn', hsn, hsb', hsb], ?_⟩
  intro n c p hn hc hp
  rw [hOC] at hc
  rw [hOH, hOW] at hp
  rw [hOC, hOH, hOW]
  have hNn : inp.num.toNat * (G * O) * oh * ow = outb0.total := by
    rw [total_shape4 outb0 _ _ _ _ (by rw [hsb, hOC, hOH, hOW])]
  have hNn' : outn0.total = outb0.total := by
    rw [total_shape4 outn0 _ _ _ _ (by rw [hsn, hOC, hOH, hOW]), hNn]
  have hidx : (n * (G * O) + c) * (oh * ow) + p < outb0.total := by
    rw [← hNn]
    have h1 : n * (G * O) + c + 1 ≤ inp.num.toNat * (G * O) := by
      have : (n + 1) * (G * O) ≤ inp.num.toNat * (G * O) := Nat.mul_le_mul_right _ hn
      rw [Nat.add_mul, Nat.one_mul] at this
      omega
    have h2 : (n * (G * O) + c + 1) * (oh * ow) ≤ inp.num.toNat * (G * O) * (oh * ow) :=
      Nat.mul_le_mul_right _ h1
    rw [Nat.add_mul, Nat.one_mul] at h2
    have e : inp.num.toNat * (G * O) * (oh * ow) = inp.num.toNat * (G * O) * oh * ow := by ring
    omega
  rw [hdatab, hdatan, if_pos hidx, if_pos (by rw [hNn']; exact hidx)]
  rw [outAt_congr env lb ln inp g1 g2 g3 g4 g5 g6 g7 g8 g9 g10 g11 g12 g13 g14]
  rw [hbb, hbn, hSn, hOn, hGn, channel_index G O (oh * ow) n c p hc hp]
  ring

/-- Witness of C5: the concrete scenario with the bias `[1, 2]`: the first element of
channel 0 grows by 1 and the first element of channel 1 (flat index 25) by 2. -/
theorem conv_forward_bias_linearity_witness :
    scenarioBiasLayer.layerKind = LayerKind.Convolution ∧
    scenarioBiasLayer.blobs = [scenarioWeight, scenarioBias] ∧
    (BaseConvolutionLayerImpl.allocate refEnv scenarioBiasLayer [scenarioInput] []).1 = none ∧
    (BaseConvolutionLayerImpl.allocate refEnv
      { scenarioBiasLayer with blobs := [scenarioWeight] } [scenarioInput] []).1 = none ∧
    ∃ outsB' outsN' outb outn,
      (ConvolutionLayerImpl.forward refEnv
        (BaseConvolutionLayerImpl.allocate refEnv scenarioBiasLayer [scenarioInput] []).2.1
        [scenarioInput]
        (BaseConvolutionLayerImpl.allocate refEnv scenarioBiasLayer [scenarioInput] []).2.2).1
        = none ∧
      (ConvolutionLayerImpl.forward refEnv
        (BaseConvolutionLayerImpl.allocate refEnv scenarioBiasLayer [scenarioInput] []).2.1
        [scenarioInput]
        (BaseConvolutionLayerImpl.allocate refEnv scenarioBiasLayer [scenarioInput] []).2.2).2.2
        = outsB' ∧
      (ConvolutionLayerImpl.forward refEnv
        (BaseConvolutionLayerImpl.allocate refEnv
          { scenarioBiasLayer with blobs := [scenarioWeight] } [scenarioInput] []).2.1
        [scenarioInput]
        (BaseConvolutionLayerImpl.allocate refEnv
          { scenarioBiasLayer with blobs := [scenarioWeight] } [scenarioInput] []).2.2).2.2
        = outsN' ∧
      outsB'[0]? = some outb ∧ outsN'[0]? = some outn ∧
      outb.data 0 = outn.data 0 + 1 ∧ outb.data 25 = outn.data 25 + 2 := by
  obtain ⟨e, lb', outsB', ln', outsN', h1, h2, he, h3⟩ :=
    conv_forward_bias_linearity refEnv scenarioBiasLayer scenarioWeight scenarioBias
      [scenarioInput] []
      (BaseConvolutionLayerImpl.allocate refEnv scenarioBiasLayer [scenarioInput] []).2.1
      (BaseConvolutionLayerImpl.allocate refEnv
        { scenarioBiasLayer with blobs := [scenarioWeight] } [scenarioInput] []).2.1
      (BaseConvolutionLayerImpl.allocate refEnv scenarioBiasLayer [scenarioInput] []).2.2
      (BaseConvolutionLayerImpl.allocate refEnv
        { scenarioBiasLayer with blobs := [scenarioWeight] } [scenarioInput] []).2.2
      rfl rfl (Prod.ext (by decide) rfl) (Prod.ext (by decide) rfl) (by decide)
  have he' : e = none := he (Or.inl (fun h => absurd h (by decide)))
  obtain ⟨outb, outn, hb, hn, _, _, hd⟩ := h3 he' 0 scenarioInput rfl
  refine ⟨rfl, rfl, by decide, by decide, outsB', outsN', outb, outn, by rw [h1, he'],
    by rw [h1], by rw [h2], hb, hn, ?_, ?_⟩
  · exact hd 0 0 0 (by decide) (by decide) (by decide)
  · exact hd 0 1 0 (by decide) (by decide) (by decide)

/-- Witness of C10: the scenario layer with the accelerator available and requested. -/
theorem conv_forward_accelerator_fails_witness :
    (BaseConvolutionLayerImpl.allocate oclEnv oclLayer [scenarioInput] []).2.1.useOpenCL = true ∧
    (ConvolutionLayerImpl.forward oclEnv
      (BaseConvolutionLayerImpl.allocate oclEnv oclLayer [scenarioInput] []).2.1 [scenarioInput]
      (BaseConvolutionLayerImpl.allocate oclEnv oclLayer [scenarioInput] []).2.2).1
      = some Error.StsNotImplemented ∧
    (ConvolutionLayerImpl.forward oclEnv
      (BaseConvolutionLayerImpl.allocate oclEnv oclLayer [scenarioInput] []).2.1 [scenarioInput]
      (BaseConvolutionLayerImpl.allocate oclEnv oclLayer [scenarioInput] []).2.2).2.2
      = (BaseConvolutionLayerImpl.allocate oclEnv oclLayer [scenarioInput] []).2.2 :=
  have h := conv_forward_accelerator_fails oclEnv
    (BaseConvolutionLayerImpl.allocate oclEnv oclLayer [scenarioInput] []).2.1 [scenarioInput]
    (BaseConvolutionLayerImpl.allocate oclEnv oclLayer [scenarioInput] []).2.2 (by decide)
  ⟨by decide,
   h.2.2 oclLayer [] rfl (Prod.ext (by decide) rfl) ⟨scenarioInput, by simp, by decide⟩,
   congrArg Prod.snd h.1⟩

/-! ## The 1x1 fast path -/

/-- C7 (counterexample): three 1x1 layers on which the claim fails. With a bias the output
is the matrix product plus the bias (weight 2, input 3, bias 5: output 11, product 6); with
pad (1, 1) the output is 3x3 for a 1x1 input and the host `forward` fails in the reshape of
the input slice; with the accelerator selected `forward` fails in `im2row`. -/
theorem conv_1x1_product_counterexample :
    (BaseConvolutionLayerImpl.is1x1 pointwiseBiasLayer = true ∧
      (BaseConvolutionLayerImpl.allocate refEnv pointwiseBiasLayer [unitInput] []).1 = none ∧
      (ConvolutionLayerImpl.forward refEnv
        (BaseConvolutionLayerImpl.allocate refEnv pointwiseBiasLayer [unitInput] []).2.1
        [unitInput]
        (BaseConvolutionLayerImpl.allocate refEnv pointwiseBiasLayer [unitInput] []).2.2).1
        = none ∧
      (ConvolutionLayerImpl.forward refEnv
        (BaseConvolutionLayerImpl.allocate refEnv pointwiseBiasLayer [unitInput] []).2.1
        [unitInput]
        (BaseConvolutionLayerImpl.allocate refEnv pointwiseBiasLayer [unitInput] []).2.2).2.2.map
        (fun b => b.data 0) = [11] ∧
      pointwiseBiasLayer.weightData 0 * unitInput.data 0 = 6) ∧
    (BaseConvolutionLayerImpl.is1x1 pointwisePaddedLayer = true ∧
      (BaseConvolutionLayerImpl.allocate refEnv pointwisePaddedLayer [unitInput] []).1 = none ∧
      (BaseConvolutionLayerImpl.allocate refEnv pointwisePaddedLayer [unitInput] []).2.2.map
        Blob.shape = [[1, 1, 3, 3]] ∧
      (ConvolutionLayerImpl.forward refEnv
        (BaseConvolutionLayerImpl.allocate refEnv pointwisePaddedLayer [unitInput] []).2.1
        [unitInput]
        (BaseConvolutionLayerImpl.allocate refEnv pointwisePaddedLayer [unitInput] []).2.2).1
        = some Error.StsUnmatchedSizes) ∧
    (BaseConvolutionLayerImpl.is1x1 pointwiseOclLayer = true ∧
      (BaseConvolutionLayerImpl.allocate oclEnv pointwiseOclLayer [pointwiseInput] []).1 = none ∧
      (ConvolutionLayerImpl.forward oclEnv
        (BaseConvolutionLayerImpl.allocate oclEnv pointwiseOclLayer [pointwiseInput] []).2.1
        [pointwiseInput]
        (BaseConvolutionLayerImpl.allocate oclEnv pointwiseOclLayer [pointwiseInput] []).2.2).1
        = some Error.StsNotImplemented) := by
  refine ⟨⟨by decide, by decide, by decide, by decide, by decide⟩,
    ⟨by decide, by decide, by decide, by decide⟩, ⟨by decide, by decide, by decide⟩⟩

/-- C7 (amended): for a convolution layer with kernel, stride and dilation (1, 1),
successfully allocated on the host path with an output spatial size equal to the input
spatial size, `allocate` leaves the scratch buffer untouched, `forward` succeeds and returns
the layer unchanged (scratch buffer included), and the output of each batch item `n` and
group `g` is the matrix product of the weight slice, reshaped to `(outGroupCn, ksize)`, with
the raw input channel slice, reshaped to `(ksize, outH*outW)`, plus the bias of each output
channel when the layer has one. -/
theorem conv_forward_1x1_product (env : Env) (l l' : Layer) (inputs outputs outs : List Blob)
    (hk : l.layerKind = LayerKind.Convolution) (h1x1 : BaseConvolutionLayerImpl.is1x1 l = true)
    (halloc : BaseConvolutionLayerImpl.allocate env l inputs outputs = (none, l', outs))
    (hhost : l'.useOpenCL = false)
    (hlegal : l'.outH * l'.outW = l'.inpH * l'.inpW) :
    l'.colRowBlob = l.colRowBlob ∧ l'.blobs = l.blobs ∧
    ∃ outs', ConvolutionLayerImpl.forward env l' inputs outs = (none, l', outs') ∧
      ∀ (ii : Nat) (inp : Blob), inputs[ii]? = some inp →
        ∃ out', outs'[ii]? = some out' ∧
          ∀ n g r p, n < inp.num.toNat → g < l'.group.toNat → r < l'.outGroupCn.toNat →
            p < (l'.outH * l'.outW).toNat →
            out'.data (((g + n * l'.group.toNat) * l'.outGroupCn.toNat + r)
                * (l'.outH * l'.outW).toNat + p)
              = sumTo (fun k =>
                  l'.weightData ((g * l'.outGroupCn.toNat + r) * l'.ksize.toNat + k) *
                  inp.data ((n * l'.inpCn.toNat + g * l'.inpGroupCn.toNat)
                      * (l'.inpH.toNat * l'.inpW.toNat)
                    + (k * (l'.outH * l'.outW).toNat + p))) l'.ksize.toNat
                + l'.biasData (g * l'.outGroupCn.toNat + r) := by
  obtain ⟨_, _, _, _, f1, f2, f3, f4, _, _, _, _, _, _, _, _, _, _, _, _, _, fcr, _⟩ :=
    allocate_conv_fields hk halloc
  have h1' : BaseConvolutionLayerImpl.is1x1 l' = true := by
    unfold BaseConvolutionLayerImpl.is1x1 at h1x1 ⊢
    rw [f1, f2, f3]; exact h1x1
  obtain ⟨crb, outs', hfw, _, hcrb, hd⟩ :=
    conv_forward_allocated hk halloc hhost (fun _ => hlegal)
  obtain ⟨G, I, O, kh, kw, H, W, oh, ow, hr, _, _, _⟩ := allocate_conv_ready hk halloc
  have hOn : l'.outGroupCn.toNat = O := by rw [hr.outGroupCn]; exact Int.toNat_ofNat _
  have hGn : l'.group.toNat = G := by rw [hr.group]; exact Int.toNat_ofNat _
  have hSn : (l'.outH * l'.outW).toNat = oh * ow := by
    rw [hr.outH, hr.outW]; exact toNat_mul_cast _ _
  have hOC : l'.outCn.toNat = G * O := by rw [hr.outCn]; exact Int.toNat_ofNat _
  have hOH : l'.outH.toNat = oh := by rw [hr.outH]; exact Int.toNat_ofNat _
  have hOW : l'.outW.toNat = ow := by rw [hr.outW]; exact Int.toNat_ofNat _
  refine ⟨fcr h1x1, f4, outs', ?_, ?_⟩
  · rw [hfw, hcrb h1']
  · intro ii inp hi
    obtain ⟨out, out', _, ho', hs, _, _, _, hdata⟩ := hd ii inp hi
    refine ⟨out', ho', ?_⟩
    intro n g r p hn hg hrO hp
    rw [hGn] at hg
    rw [hOn] at hrO
    rw [hSn] at hp
    have hrow : ConvolutionLayerImpl.outElem env l' inp n g r p
        = sumTo (fun k =>
            l'.weightData ((g * l'.outGroupCn.toNat + r) * l'.ksize.toNat + k) *
            inp.data ((n * l'.inpCn.toNat + g * l'.inpGroupCn.toNat)
                * (l'.inpH.toNat * l'.inpW.toNat)
              + (k * (l'.outH * l'.outW).toNat + p))) l'.ksize.toNat
          + l'.biasData (g * l'.outGroupCn.toNat + r) := by
      simp only [ConvolutionLayerImpl.outElem, ConvolutionLayerImpl.rowElem, h1', if_true]
    rw [← hrow, hGn, hOn, hSn]
    have hlo : (g + n * G) * O * (oh * ow) ≤ ((g + n * G) * O + r) * (oh * ow) + p := by
      have : (g + n * G) * O * (oh * ow) ≤ ((g + n * G) * O + r) * (oh * ow) :=
        Nat.mul_le_mul_right _ (by omega)
      omega
    have hhi : ((g + n * G) * O + r) * (oh * ow) + p < ((g + n * G) * O + O) * (oh * ow) := by
      have : ((g + n * G) * O + r + 1) * (oh * ow) ≤ ((g + n * G) * O + O) * (oh * ow) :=
        Nat.mul_le_mul_right _ (by omega)
      rw [Nat.add_mul _ 1, Nat.one_mul] at this
      omega
    have htot : ((g + n * G) * O + r) * (oh * ow) + p < out.total := by
      rw [total_shape4 out _ _ _ _ (by rw [hs, hOC, hOH, hOW])]
      have h1 := pair_block_le (O * (oh * ow)) hn hg
      have e1 : (g + n * G) * (O * (oh * ow)) + O * (oh * ow)
          = ((g + n * G) * O + O) * (oh * ow) := by ring
      have e2 : inp.num.toNat * G * (O * (oh * ow)) = inp.num.toNat * (G * O) * oh * ow := by ring
      omega
    rw [hdata, if_pos htot, ← outElem_eq_outAt env l' hr inp n g _ hg hlo hhi]
    have hfi := flat_index ((g + n * G) * O + r) p (oh * ow) hp
    rw [hfi.1, hfi.2, Nat.add_sub_cancel_left]

/-- Witness of C7 (amended): a 1x1 layer with two input and two output channels, weight
rows `[1, 2]` and `[3, 4]`, on an input with the channel rows `[5, 6]` and `[7, 8]`: the
sentinel in the scratch buffer stays, and the first output element is `1*5 + 2*7`. -/
theorem conv_forward_1x1_product_witness :
    pointwiseLayer.layerKind = LayerKind.Convolution ∧
    BaseConvolutionLayerImpl.is1x1 { pointwiseLayer with colRowBlob := sentinelBlob } = true ∧
    (BaseConvolutionLayerImpl.allocate refEnv { pointwiseLayer with colRowBlob := sentinelBlob }
      [pointwiseInput] []).1 = none ∧
    (BaseConvolutionLayerImpl.allocate refEnv { pointwiseLayer with colRowBlob := sentinelBlob }
      [pointwiseInput] []).2.1.colRowBlob = sentinelBlob ∧
    ∃ outs' out',
      ConvolutionLayerImpl.forward refEnv
        (BaseConvolutionLayerImpl.allocate refEnv
          { pointwiseLayer with colRowBlob := sentinelBlob } [pointwiseInput] []).2.1
        [pointwiseInput]
        (BaseConvolutionLayerImpl.allocate refEnv
          { pointwiseLayer with colRowBlob := sentinelBlob } [pointwiseInput] []).2.2
        = (none, (BaseConvolutionLayerImpl.allocate refEnv
          { pointwiseLayer with colRowBlob := sentinelBlob } [pointwiseInput] []).2.1, outs') ∧
      outs'[0]? = some out' ∧ out'.data 0 = 1 * 5 + 2 * 7 := by
  have h := conv_forward_1x1_product refEnv { pointwiseLayer with colRowBlob := sentinelBlob }
    (BaseConvolutionLayerImpl.allocate refEnv { pointwiseLayer with colRowBlob := sentinelBlob }
      [pointwiseInput] []).2.1 [pointwiseInput] []
    (BaseConvolutionLayerImpl.allocate refEnv { pointwiseLayer with colRowBlob := sentinelBlob }
      [pointwiseInput] []).2.2 rfl (by decide) (Prod.ext (by decide) rfl) (by decide) (by decide)
  obtain ⟨hcr, _, outs', hfw, hd⟩ := h
  obtain ⟨out', ho', hval⟩ := hd 0 pointwiseInput rfl
  refine ⟨rfl, by decide, by decide, hcr, outs', out', hfw, ho', ?_⟩
  have := hval 0 0 0 0 (by decide) (by decide) (by decide) (by decide)
  exact this

/-! ## Where the input shape is checked -/

/-- C9 (counterexample): a 3x3 convolution allocated for a 3x3 input (`inpH = inpW = 3`,
output 1x1) is run on a 4x4 input. `forward` raises nothing: it returns normally and has
overwritten the output element (0 before the call) with the sum 36 of the first nine input
elements. -/
theorem forward_shape_mismatch_counterexample :
    (BaseConvolutionLayerImpl.allocate refEnv boxLayer [boxInput] []).1 = none ∧
    (BaseConvolutionLayerImpl.allocate refEnv boxLayer [boxInput] []).2.1.inpH = 3 ∧
    (BaseConvolutionLayerImpl.allocate refEnv boxLayer [boxInput] []).2.1.inpW = 3 ∧
    largerInput.rows = 4 ∧ largerInput.cols = 4 ∧
    (BaseConvolutionLayerImpl.allocate refEnv boxLayer [boxInput] []).2.2.map
      (fun b => b.data 0) = [0] ∧
    (ConvolutionLayerImpl.forward refEnv
      (BaseConvolutionLayerImpl.allocate refEnv boxLayer [boxInput] []).2.1 [largerInput]
      (BaseConvolutionLayerImpl.allocate refEnv boxLayer [boxInput] []).2.2).1 = none ∧
    (ConvolutionLayerImpl.forward refEnv
      (BaseConvolutionLayerImpl.allocate refEnv boxLayer [boxInput] []).2.1 [largerInput]
      (BaseConvolutionLayerImpl.allocate refEnv boxLayer [boxInput] []).2.2).2.2.map
      (fun b => b.data 0) = [36] := by
  refine ⟨by decide, by decide, by decide, by decide, by decide, by decide, by decide, by decide⟩

theorem init_error_is_assert {env : Env} {l l1 : Layer} {e : Error}
    (h : BaseConvolutionLayerImpl.init env l = (some e, l1)) : e = Error.StsAssert := by
  unfold BaseConvolutionLayerImpl.init at h
  split at h
  · simp only [Prod.mk.injEq, Option.some.injEq] at h; exact h.1.symm
  · rename_i hlen
    split at h
    · rename_i hnil
      simp only [not_not] at hlen
      rw [hnil] at hlen
      simp at hlen
    · split at h
      · simp only [Prod.mk.injEq, Option.some.injEq] at h; exact h.1.symm
      · simp at h

/-- C9 (amended): the input shapes are checked by `allocate`, for both layers: when some
input differs from `inputs[0]` in element type, channel count or spatial size, `allocate`
fails with an assertion error and leaves the outputs list, the all-ones vector and the
scratch buffer as they were. The convolution `forward_` itself checks only that the input
list is not empty, failing with an assertion error before anything is written. -/
theorem allocate_rejects_mismatched_inputs (env : Env) (l : Layer) (inputs outputs : List Blob)
    (input inp : Blob) (i : Nat) (h0 : inputs[0]? = some input) (hi : inputs[i]? = some inp)
    (hm : inp.type ≠ input.type ∨ inp.channels ≠ input.channels ∨ inp.rows ≠ input.rows ∨
      inp.cols ≠ input.cols) :
    (BaseConvolutionLayerImpl.allocate env l inputs outputs).1 = some Error.StsAssert ∧
    (BaseConvolutionLayerImpl.allocate env l inputs outputs).2.2 = outputs ∧
    (BaseConvolutionLayerImpl.allocate env l inputs outputs).2.1.biasOnesBlob = l.biasOnesBlob ∧
    (BaseConvolutionLayerImpl.allocate env l inputs outputs).2.1.colRowBlob = l.colRowBlob ∧
    ∀ umat, ConvolutionLayerImpl.forward_ env l umat [] outputs
      = (some Error.StsAssert, l, outputs) := by
  have hag : inputAgrees input inp = false := by
    unfold inputAgrees
    rcases hm with h | h | h | h <;> simp [h]
  have hmem : inp ∈ inputs := List.getElem?_mem hi
  have hall : ¬ (inputs.all (inputAgrees input) = true) := by
    intro hall
    have := (List.all_eq_true.1 hall) inp hmem
    rw [hag] at this
    cases this
  have hfw : ∀ umat, ConvolutionLayerImpl.forward_ env l umat [] outputs
      = (some Error.StsAssert, l, outputs) := by
    intro umat
    unfold ConvolutionLayerImpl.forward_
    simp
  cases inputs with
  | nil => simp at h0
  | cons input0 rest =>
    simp only [List.getElem?_cons_zero, Option.some.injEq] at h0
    subst h0
    unfold BaseConvolutionLayerImpl.allocate
    simp only
    have hib := @init_buffers env l
    rcases hinit : BaseConvolutionLayerImpl.init env l with ⟨e1, l1⟩
    rw [hinit] at hib
    cases e1 with
    | some e =>
      have := init_error_is_assert hinit
      subst this
      exact ⟨rfl, rfl, hib.1, hib.2.1, hfw⟩
    | none =>
      simp only
      split
      · exact ⟨rfl, rfl, hib.1, hib.2.1, hfw⟩
      · exact ⟨rfl, rfl, hib.1, hib.2.1, hfw⟩

/-- Witness of C9 (amended): a 3x3 input followed by a 4x4 input. -/
theorem allocate_rejects_mismatched_inputs_witness :
    [boxInput, largerInput][0]? = some boxInput ∧
    [boxInput, largerInput][1]? = some largerInput ∧
    largerInput.rows ≠ boxInput.rows ∧
    (BaseConvolutionLayerImpl.allocate refEnv boxLayer [boxInput, largerInput]
      [sentinelBlob]).1 = some Error.StsAssert ∧
    (BaseConvolutionLayerImpl.allocate refEnv boxLayer [boxInput, largerInput]
      [sentinelBlob]).2.2 = [sentinelBlob] :=
  have h := allocate_rejects_mismatched_inputs refEnv boxLayer [boxInput, largerInput]
    [sentinelBlob] boxInput largerInput 1 rfl rfl (Or.inr (Or.inr (Or.inl (by decide))))
  ⟨rfl, rfl, by decide, h.1, h.2.1⟩

/-! ## Group decomposability -/

theorem channelSlice_shape (b : Blob) (N C H W c0 cn : Nat) (hs : b.shape = [N, C, H, W]) :
    (b.channelSlice c0 cn).shape = [N, cn, H, W] ∧ (b.channelSlice c0 cn).type = b.type := by
  unfold Blob.channelSlice
  rw [hs]
  exact ⟨rfl, rfl⟩

theorem channelSlice_data (b : Blob) (N C H W c0 cn n t : Nat) (hs : b.shape = [N, C, H, W])
    (ht : t < cn * (H * W)) :
    (b.channelSlice c0 cn).data (n * cn * (H * W) + t) = b.data ((n * C + c0) * (H * W) + t) := by
  unfold Blob.channelSlice
  rw [hs]
  simp only
  have e : n * cn * (H * W) + t = n * (cn * (H * W)) + t := by ring
  rw [e, (flat_index n t (cn * (H * W)) ht).1, (flat_index n t (cn * (H * W)) ht).2]

/-- The index of the elements stored for one output position of a single-group layer. -/
theorem single_group_index (O S n r p : Nat) (hr : r < O) (hp : p < S) :
    ((n * O + r) * S + p) / S / O / 1 = n ∧ ((n * O + r) * S + p) / S / O % 1 = 0 ∧
    ((n * O + r) * S + p) / S % O = r ∧ ((n * O + r) * S + p) % S = p := by
  rw [(flat_index (n * O + r) p S hp).1, (flat_index (n * O + r) p S hp).2,
    (flat_index n r O hr).1, (flat_index n r O hr).2]
  exact ⟨Nat.div_one n, Nat.mod_one n, rfl, rfl⟩

/-- The value stored for group `g` by the grouped layer `l` is the value stored by a layer
`lg` of the same geometry whose weights and bias are those of group `g`, run on the channels
of group `g`. -/
theorem outElem_group (env : Env) (l lg : Layer) (inp : Blob) {G I O kh kw H W oh ow N : Nat}
    (hr : ConvReady l G I O kh kw H W oh ow) (hshape : inp.shape = [N, G * I, H, W])
    (hfast : BaseConvolutionLayerImpl.is1x1 l = true → oh * ow = H * W)
    (ek : lg.kernel = l.kernel) (es : lg.stride = l.stride) (ed : lg.dilation = l.dilation)
    (ep : lg.pad = l.pad) (e1 : lg.inpGroupCn = l.inpGroupCn) (e2 : lg.inpH = l.inpH)
    (e3 : lg.inpW = l.inpW) (e4 : lg.outH = l.outH) (e5 : lg.outW = l.outW)
    (e6 : lg.ksize = l.ksize) (e7 : lg.outGroupCn = l.outGroupCn) (e8 : lg.inpCn = (I : Int))
    (g : Nat)
    (ew : ∀ k, lg.weightData k = l.weightData (g * O * (I * kh * kw) + k))
    (eb : ∀ r, lg.biasData r = l.biasData (g * O + r))
    (n r p : Nat) (hp : p < oh * ow) :
    ConvolutionLayerImpl.outElem env l inp n g r p
      = ConvolutionLayerImpl.outElem env lg (inp.channelSlice (g * I) I) n 0 r p := by
  have hOn : l.outGroupCn.toNat = O := by rw [hr.outGroupCn]; exact Int.toNat_ofNat _
  have hK : l.ksize.toNat = I * kh * kw := by rw [hr.ksize]; exact Int.toNat_ofNat _
  have hCn : l.inpCn.toNat = G * I := by rw [hr.inpCn]; exact Int.toNat_ofNat _
  have hCg : lg.inpCn.toNat = I := by rw [e8]; exact Int.toNat_ofNat _
  have hI : l.inpGroupCn.toNat = I := by rw [hr.inpGroupCn]; exact Int.toNat_ofNat _
  have hH : l.inpH.toNat = H := by rw [hr.inpH]; exact Int.toNat_ofNat _
  have hW : l.inpW.toNat = W := by rw [hr.inpW]; exact Int.toNat_ofNat _
  have hSn : (l.outH * l.outW).toNat = oh * ow := by
    rw [hr.outH, hr.outW]; exact toNat_mul_cast _ _
  have hread : (l.inpGroupCn * l.inpH * l.inpW).toNat = I * H * W := by
    rw [hr.inpGroupCn, hr.inpH, hr.inpW]; exact toNat_mul3_cast _ _ _
  have h1g : BaseConvolutionLayerImpl.is1x1 lg = BaseConvolutionLayerImpl.is1x1 l := by
    unfold BaseConvolutionLayerImpl.is1x1
    rw [ek, es, ed]
  have hgeo : ConvolutionLayerImpl.geometry lg = ConvolutionLayerImpl.geometry l := by
    unfold ConvolutionLayerImpl.geometry
    rw [ek, es, ed, ep, e1, e2, e3, e4, e5]
  simp only [ConvolutionLayerImpl.outElem, e6, e7, hOn, hK, ew, eb]
  have hrow : ∀ k, k < I * kh * kw →
      ConvolutionLayerImpl.rowElem env l inp n g p k
        = ConvolutionLayerImpl.rowElem env lg (inp.channelSlice (g * I) I) n 0 p k := by
    intro k hk
    simp only [ConvolutionLayerImpl.rowElem, h1g, hgeo, e1, e2, e3, e4, e5, e6, hCn, hCg, hI, hH,
      hW, hSn, hread, hK]
    rcases Bool.eq_false_or_eq_true (BaseConvolutionLayerImpl.is1x1 l) with h1 | h1
    · have hkk : kh = 1 ∧ kw = 1 := by
        have h1' := h1
        unfold BaseConvolutionLayerImpl.is1x1 at h1'
        simp only [Bool.and_eq_true, decide_eq_true_eq] at h1'
        rw [hr.kernelH, hr.kernelW] at h1'
        omega
      obtain ⟨rfl, rfl⟩ := hkk
      simp only [h1, if_true]
      have hS := hfast h1
      have ht : k * (oh * ow) + p < I * (H * W) := by
        rw [← hS]
        have hk' : k < I := by simpa using hk
        have : (k + 1) * (oh * ow) ≤ I * (oh * ow) := Nat.mul_le_mul_right _ hk'
        rw [Nat.add_mul, Nat.one_mul] at this
        omega
      have e : (n * I + 0 * I) * (H * W) + (k * (oh * ow) + p)
          = n * I * (H * W) + (k * (oh * ow) + p) := by ring
      rw [e, channelSlice_data inp N (G * I) H W (g * I) I n _ hshape ht]
    · simp only [h1, Bool.false_eq_true, if_false]
      congr 1
      apply List.map_congr_left
      intro i hi
      have hi' : i < I * (H * W) := by
        have := List.mem_range.1 hi
        have e : I * H * W = I * (H * W) := by ring
        omega
      have e : (n * I + 0 * I) * (H * W) + i = n * I * (H * W) + i := by ring
      rw [e, channelSlice_data inp N (G * I) H W (g * I) I n i hshape hi']
  rw [sumTo_congr (I * kh * kw) (fun k hk => by rw [hrow k hk])]
  congr 1
  · apply sumTo_congr
    intro k _
    congr 2
    ring
  · congr 1
    ring

/-- C6: group decomposability of the host convolution. Let a convolution layer be
successfully allocated with `G` groups, and let `g < G`. The single-group layer made of the
weight rows and bias entries of group `g`, allocated on the input channels of group `g`, has
group count 1; the host `forward` ends in the same way on both layers (normally whenever
the 1x1 fast path is not taken or is legal), and when it returns normally channel
`g*outGroupCn + r` of every batch item of the grouped output equals channel `r` of the
single-group output. -/
theorem conv_forward_group_decomposition (env : Env) (l l' lg : Layer)
    (inputs outputs outs outsG : List Blob) (g : Nat)
    (hk : l.layerKind = LayerKind.Convolution)
    (halloc : BaseConvolutionLayerImpl.allocate env l inputs outputs = (none, l', outs))
    (hhost : l'.useOpenCL = false)
    (hg : g < l'.group.toNat)
    (hallocG : BaseConvolutionLayerImpl.allocate env (l.groupLayer g l'.outGroupCn.toNat)
      (inputs.map (fun b => b.channelSlice (g * l'.inpGroupCn.toNat) l'.inpGroupCn.toNat))
      outputs = (none, lg, outsG)) :
    lg.group = 1 ∧
    ∃ e l'' outs' lg' outsG',
      ConvolutionLayerImpl.forward env l' inputs outs = (e, l'', outs') ∧
      ConvolutionLayerImpl.forward env lg
        (inputs.map (fun b => b.channelSlice (g * l'.inpGroupCn.toNat) l'.inpGroupCn.toNat))
        outsG = (e, lg', outsG') ∧
      (((BaseConvolutionLayerImpl.is1x1 l' = true → l'.outH * l'.outW = l'.inpH * l'.inpW) ∨
          ∀ inp, inp ∈ inputs → inp.num = 0) → e = none) ∧
      (e = none → ∀ (ii : Nat) (inp : Blob), inputs[ii]? = some inp →
        ∃ out outg, outs'[ii]? = some out ∧ outsG'[ii]? = some outg ∧
          out.shape = [inp.num.toNat, l'.outCn.toNat, l'.outH.toNat, l'.outW.toNat] ∧
          outg.shape = [inp.num.toNat, l'.outGroupCn.toNat, l'.outH.toNat, l'.outW.toNat] ∧
          ∀ n r p, n < inp.num.toNat → r < l'.outGroupCn.toNat →
            p < l'.outH.toNat * l'.outW.toNat →
            out.data ((n * l'.outCn.toNat + (g * l'.outGroupCn.toNat + r))
                * (l'.outH.toNat * l'.outW.toNat) + p)
              = outg.data ((n * l'.outGroupCn.toNat + r) * (l'.outH.toNat * l'.outW.toNat) + p))
    := by
  obtain ⟨G, I, O, kh, kw, H, W, oh, ow, hr, hne, hlen, hpairs⟩ := allocate_conv_ready hk halloc
  have hOn : l'.outGroupCn.toNat = O := by rw [hr.outGroupCn]; exact Int.toNat_ofNat _
  have hIn : l'.inpGroupCn.toNat = I := by rw [hr.inpGroupCn]; exact Int.toNat_ofNat _
  have hGn : l'.group.toNat = G := by rw [hr.group]; exact Int.toNat_ofNat _
  have hOC : l'.outCn.toNat = G * O := by rw [hr.outCn]; exact Int.toNat_ofNat _
  have hOH : l'.outH.toNat = oh := by rw [hr.outH]; exact Int.toNat_ofNat _
  have hOW : l'.outW.toNat = ow := by rw [hr.outW]; exact Int.toNat_ofNat _
  have hSn : (l'.outH * l'.outW).toNat = oh * ow := by
    rw [hr.outH, hr.outW]; exact toNat_mul_cast _ _
  rw [hOn, hIn] at hallocG ⊢
  rw [hGn] at hg
  rw [hOC, hOH, hOW]
  have hkg : (l.groupLayer g O).layerKind = LayerKind.Convolution := hk
  -- the fields of the two allocated layers
  obtain ⟨input0, w, hin0, hw, a1, a2, a3, a4, a5, a6, a7, a8, a9, a10, a11, a12, a13, a14, a15,
    a16, a17, _, _⟩ := allocate_conv_fields hk halloc
  obtain ⟨inputG, wG, hinG, hwG, b1, b2, b3, b4, b5, b6, b7, b8, b9, b10, b11, b12, b13, b14, b15,
    b16, b17, _, _⟩ := allocate_conv_fields hkg hallocG
  -- the weight of the grouped layer and its slice
  obtain ⟨w0, hw0, hws⟩ := hr.weight
  rw [a4, hw] at hw0; cases hw0
  obtain ⟨rest, hblobs⟩ : ∃ rest, l.blobs = w :: rest := by
    cases hb : l.blobs with
    | nil => rw [hb] at hw; simp at hw
    | cons x rest =>
      rw [hb] at hw
      simp only [List.getElem?_cons_zero, Option.some.injEq] at hw
      subst hw
      exact ⟨rest, rfl⟩
  have hgb : (l.groupLayer g O).blobs
      = w.leadingSlice (g * O) O :: rest.map (fun b => b.biasSlice (g * O) O) := by
    unfold Layer.groupLayer
    simp only [hblobs]
  rw [hgb] at hwG
  simp only [List.getElem?_cons_zero, Option.some.injEq] at hwG
  subst hwG
  have hwGs : (w.leadingSlice (g * O) O).shape = [O, I, kh, kw] := by
    unfold Blob.leadingSlice; rw [hws]
  have hwGd : ∀ k, (w.leadingSlice (g * O) O).data k = w.data (g * O * (I * kh * kw) + k) := by
    intro k
    unfold Blob.leadingSlice; rw [hws]
    simp only [List.prod_cons, List.prod_nil]
    congr 1
    ring
  -- the first input and its slice
  have hpos : 0 < outs.length := by rw [hlen]; exact List.length_pos.2 hne
  have hout0 : outs[0]? = some outs[0] := List.getElem?_eq_getElem hpos
  obtain ⟨inp0, hi0, N0, hs0, _, _⟩ := hpairs 0 _ hout0
  rw [hin0] at hi0; cases hi0
  rw [List.getElem?_map, hin0] at hinG
  simp only [Option.map_some', Option.some.injEq] at hinG
  subst hinG
  obtain ⟨hsG, _⟩ := channelSlice_shape input0 N0 (G * I) H W (g * I) I hs0
  have eGc : (input0.channelSlice (g * I) I).channels = (I : Int) := by
    simp [Blob.channels, Blob.xsize, hsG]
  have eGr : (input0.channelSlice (g * I) I).rows = input0.rows := by
    simp [Blob.rows, Blob.xsize, hsG, hs0]
  have eGl : (input0.channelSlice (g * I) I).cols = input0.cols := by
    simp [Blob.cols, Blob.xsize, hsG, hs0]
  have eWn : (w.leadingSlice (g * O) O).num = (O : Int) := by
    simp [Blob.num, Blob.xsize, hwGs]
  have eWc : (w.leadingSlice (g * O) O).channels = (I : Int) := by
    simp [Blob.channels, Blob.xsize, hwGs]
  have hIne : (I : Int) ≠ 0 := by have := hr.inpGroupPos; omega
  have hgroup : lg.group = 1 := by rw [b12, eGc, eWc]; exact Int.tdiv_self hIne
  have hgi : lg.inpGroupCn = l'.inpGroupCn := by
    rw [b14, eGc, eWc, Int.tdiv_self hIne, Int.tdiv_one, hr.inpGroupCn]
  have hgo : lg.outGroupCn = l'.outGroupCn := by
    rw [b13, eGc, eWn, eWc, Int.tdiv_self hIne, Int.tdiv_one, hr.outGroupCn]
  have hgoc : lg.outCn = (O : Int) := by rw [b11, eWn]
  have hgic : lg.inpCn = (I : Int) := by rw [b10, eGc]
  have hgk : lg.kernel = l'.kernel := by rw [b1, a1]; rfl
  have hgs : lg.stride = l'.stride := by rw [b2, a2]; rfl
  have hgd : lg.dilation = l'.dilation := by rw [b3, a3]; rfl
  have hgks : lg.ksize = l'.ksize := by
    rw [b15, a15, eGc, eWc, Int.tdiv_self hIne, Int.tdiv_one, ← hr.inpGroupCn, a14]
    rfl
  have hgh : lg.inpH = l'.inpH := by rw [b8, a8, eGr]
  have hgw : lg.inpW = l'.inpW := by rw [b9, a9, eGl]
  have hpo : lg.pad = l'.pad ∧ lg.outH = l'.outH ∧ lg.outW = l'.outW := by
    rcases Bool.eq_false_or_eq_true l.padMode.isEmpty with hp | hp
    · obtain ⟨p1, p2, p3⟩ := a16 hp
      obtain ⟨q1, q2, q3⟩ := b16 hp
      rw [p1, p2, p3, q1, q2, q3, eGr, eGl]
      exact ⟨rfl, rfl, rfl⟩
    · have p := a17 hp
      have q := b17 hp
      rw [eGr, eGl] at q
      have hq : env.getConvPoolOutParams input0.rows input0.cols l.kernel l.stride l.pad l.padMode
          = Except.ok (lg.pad, lg.outH, lg.outW) := q
      rw [p] at hq
      simp only [Except.ok.injEq, Prod.mk.injEq] at hq
      exact ⟨hq.1.symm, hq.2.1.symm, hq.2.2.symm⟩
  have hghost : lg.useOpenCL = false := by rw [b7]; rw [a7] at hhost; exact hhost
  have h1g : BaseConvolutionLayerImpl.is1x1 lg = BaseConvolutionLayerImpl.is1x1 l' := by
    unfold BaseConvolutionLayerImpl.is1x1
    rw [hgk, hgs, hgd]
  have hnumS : ∀ inp, inp ∈ inputs → (inp.channelSlice (g * I) I).num = inp.num := by
    intro inp hmem
    obtain ⟨j, hj, hjm⟩ := List.getElem_of_mem hmem
    have hjo : j < outs.length := by rw [hlen]; exact hj
    obtain ⟨inp', hi', N, hs1, _, _⟩ := hpairs j outs[j] (List.getElem?_eq_getElem hjo)
    rw [List.getElem?_eq_getElem hj, hjm] at hi'
    cases hi'
    obtain ⟨hsl, _⟩ := channelSlice_shape inp N (G * I) H W (g * I) I hs1
    simp [Blob.num, Blob.xsize, hsl, hs1]
  have hPe : ((BaseConvolutionLayerImpl.is1x1 lg = true →
        lg.outH * lg.outW = lg.inpH * lg.inpW) ∨
        ∀ inp, inp ∈ inputs.map (fun b => b.channelSlice (g * I) I) → inp.num = 0) ↔
      ((BaseConvolutionLayerImpl.is1x1 l' = true →
        l'.outH * l'.outW = l'.inpH * l'.inpW) ∨ ∀ inp, inp ∈ inputs → inp.num = 0) := by
    rw [h1g, hpo.2.1, hpo.2.2, hgh, hgw]
    constructor
    · rintro (h | h)
      · exact Or.inl h
      · refine Or.inr (fun inp hmem => ?_)
        rw [← hnumS inp hmem]
        exact h _ (List.mem_map_of_mem _ hmem)
    · rintro (h | h)
      · exact Or.inl h
      · refine Or.inr (fun inpg hmem => ?_)
        obtain ⟨inp, hmem', rfl⟩ := List.mem_map.1 hmem
        rw [hnumS inp hmem']
        exact h inp hmem'
  -- the weights and the bias of the two layers
  have hwd : l'.weightData = w.data := by unfold Layer.weightData; rw [a4, hw]
  have hwdg : ∀ k, lg.weightData k = l'.weightData (g * O * (I * kh * kw) + k) := by
    intro k
    unfold Layer.weightData
    rw [b4, hgb, a4, hw]
    simp only [List.getElem?_cons_zero]
    exact hwGd k
  have hbdg : ∀ r, lg.biasData r = l'.biasData (g * O + r) := by
    intro r
    unfold Layer.biasData
    rw [b6, a6, b4, a4, hgb, hblobs]
    cases rest with
    | nil => simp
    | cons b rest' => simp [Blob.biasSlice]
  -- the two forward calls
  obtain ⟨e, crb, outs', hfw, hpe, hqe, hd'⟩ := conv_forward_allocated_total hk halloc hhost
  obtain ⟨eG, crbG, outsG', hfwG, hpG, hqG, hdG'⟩ :=
    conv_forward_allocated_total hkg hallocG hghost
  have hee : eG = e := by
    by_cases hP : (BaseConvolutionLayerImpl.is1x1 l' = true →
        l'.outH * l'.outW = l'.inpH * l'.inpW) ∨ ∀ inp, inp ∈ inputs → inp.num = 0
    · rw [hpe hP, hpG (hPe.2 hP)]
    · rw [hqe hP, hqG (fun h => hP (hPe.1 h))]
  subst hee
  refine ⟨hgroup, eG, _, outs', _, outsG', hfw, hfwG, hpe, ?_⟩
  intro hnone ii inp hi
  have hd := hd' hnone
  have hdG := hdG' hnone
  have hP : (BaseConvolutionLayerImpl.is1x1 l' = true →
      l'.outH * l'.outW = l'.inpH * l'.inpW) ∨ ∀ inp, inp ∈ inputs → inp.num = 0 := by
    by_contra hcon
    rw [hqe hcon] at hnone
    cases hnone
  obtain ⟨out, out', ho, ho', hs, _, _, _, hdata⟩ := hd ii inp hi
  obtain ⟨outg, outg', _, hog', hsg, hsg', _, _, hdatag⟩ :=
    hdG ii (inp.channelSlice (g * I) I) (by rw [List.getElem?_map, hi]; rfl)
  obtain ⟨inp', hi', N, hs1, _, hs2⟩ := hpairs ii out ho
  rw [hi] at hi'; cases hi'
  have hnum : inp.num.toNat = N := by simp [Blob.num, Blob.xsize, hs1]
  obtain ⟨hsGi, _⟩ := channelSlice_shape inp N (G * I) H W (g * I) I hs1
  have hnumg : (inp.channelSlice (g * I) I).num.toNat = N := by
    simp [Blob.num, Blob.xsize, hsGi]
  have hgOC : lg.outCn.toNat = O := by rw [hgoc]; exact Int.toNat_ofNat _
  have hgOH : lg.outH.toNat = oh := by rw [hpo.2.1]; exact hOH
  have hgOW : lg.outW.toNat = ow := by rw [hpo.2.2]; exact hOW
  rw [hnumg, hgOC, hgOH, hgOW] at hsg
  rw [hnum, hOC, hOH, hOW] at hs
  rw [hnum]
  refine ⟨out', outg', ho', hog', by rw [← hs]; assumption, by rw [← hsg]; exact hsg', ?_⟩
  intro n r p hn hrO hp
  have hfast' : BaseConvolutionLayerImpl.is1x1 l' = true → oh * ow = H * W := by
    rcases hP with hleg | hz
    · intro h1
      have := hleg h1
      rw [hr.outH, hr.outW, hr.inpH, hr.inpW] at this
      exact_mod_cast this
    · exfalso
      have h0 := hz inp (List.getElem?_mem hi)
      have : inp.num.toNat = 0 := by rw [h0]; rfl
      omega
  -- the element of the grouped output
  have hlo : (g + n * G) * O * (oh * ow) ≤ ((g + n * G) * O + r) * (oh * ow) + p := by
    have : (g + n * G) * O * (oh * ow) ≤ ((g + n * G) * O + r) * (oh * ow) :=
      Nat.mul_le_mul_right _ (by omega)
    omega
  have hhi : ((g + n * G) * O + r) * (oh * ow) + p < ((g + n * G) * O + O) * (oh * ow) := by
    have : ((g + n * G) * O + r + 1) * (oh * ow) ≤ ((g + n * G) * O + O) * (oh * ow) :=
      Nat.mul_le_mul_right _ (by omega)
    rw [Nat.add_mul _ 1, Nat.one_mul] at this
    omega
  have htot : ((g + n * G) * O + r) * (oh * ow) + p < out.total := by
    rw [total_shape4 out _ _ _ _ hs]
    have h1 := pair_block_le (O * (oh * ow)) hn hg
    have e1 : (g + n * G) * (O * (oh * ow)) + O * (oh * ow)
        = ((g + n * G) * O + O) * (oh * ow) := by ring
    have e2 : N * G * (O * (oh * ow)) = N * (G * O) * oh * ow := by ring
    omega
  have eidx : (n * (G * O) + (g * O + r)) * (oh * ow) + p
      = ((g + n * G) * O + r) * (oh * ow) + p := by ring
  have hfi := flat_index ((g + n * G) * O + r) p (oh * ow) hp
  have hleft : out'.data ((n * (G * O) + (g * O + r)) * (oh * ow) + p)
      = ConvolutionLayerImpl.outElem env l' inp n g r p := by
    rw [eidx, hdata, if_pos htot, ← outElem_eq_outAt env l' hr inp n g _ hg hlo hhi,
      hfi.1, hfi.2, Nat.add_sub_cancel_left]
  -- the element of the single-group output
  have htotg : (n * O + r) * (oh * ow) + p < outg.total := by
    rw [total_shape4 outg _ _ _ _ hsg]
    have h1 : n * O + r + 1 ≤ N * O := by
      have : (n + 1) * O ≤ N * O := Nat.mul_le_mul_right _ hn
      rw [Nat.add_mul, Nat.one_mul] at this
      omega
    have h2 : (n * O + r + 1) * (oh * ow) ≤ N * O * (oh * ow) := Nat.mul_le_mul_right _ h1
    rw [Nat.add_mul _ 1, Nat.one_mul] at h2
    have e2 : N * O * (oh * ow) = N * O * oh * ow := by ring
    omega
  have hgSn : (lg.outH * lg.outW).toNat = oh * ow := by rw [hpo.2.1, hpo.2.2]; exact hSn
  have hgOn : lg.outGroupCn.toNat = O := by rw [hgo]; exact hOn
  have hgGn : lg.group.toNat = 1 := by rw [hgroup]; rfl
  have hright : outg'.data ((n * O + r) * (oh * ow) + p)
      = ConvolutionLayerImpl.outElem env lg (inp.channelSlice (g * I) I) n 0 r p := by
    rw [hdatag, if_pos htotg]
    unfold ConvolutionLayerImpl.outAt
    rw [hgSn, hgOn, hgGn]
    obtain ⟨i1, i2, i3, i4⟩ := single_group_index O (oh * ow) n r p hrO hp
    rw [i1, i2, i3, i4]
  rw [hleft, hright]
  exact outElem_group env l' lg inp hr hs1 hfast' hgk hgs hgd hpo.1 hgi hgh hgw hpo.2.1 hpo.2.2
    hgks hgo hgic g hwdg hbdg n r p hp

/-- Witness of C6: a 3x3 layer with two groups and a bias, and its second group: element
1 of the grouped output (channel 1) is element 0 of the single-group output. -/
theorem conv_forward_group_decomposition_witness :
    groupedLayer.layerKind = LayerKind.Convolution ∧
    (BaseConvolutionLayerImpl.allocate refEnv groupedLayer [groupedInput] []).1 = none ∧
    (BaseConvolutionLayerImpl.allocate refEnv groupedLayer [groupedInput] []).2.1.group = 2 ∧
    (BaseConvolutionLayerImpl.allocate refEnv (groupedLayer.groupLayer 1 1)
      [groupedInput.channelSlice 1 1] []).1 = none ∧
    ∃ outs' outsG' out outg,
      (ConvolutionLayerImpl.forward refEnv
        (BaseConvolutionLayerImpl.allocate refEnv groupedLayer [groupedInput] []).2.1
        [groupedInput]
        (BaseConvolutionLayerImpl.allocate refEnv groupedLayer [groupedInput] []).2.2).1
        = none ∧
      (ConvolutionLayerImpl.forward refEnv
        (BaseConvolutionLayerImpl.allocate refEnv groupedLayer [groupedInput] []).2.1
        [groupedInput]
        (BaseConvolutionLayerImpl.allocate refEnv groupedLayer [groupedInput] []).2.2).2.2
        = outs' ∧
      (ConvolutionLayerImpl.forward refEnv
        (BaseConvolutionLayerImpl.allocate refEnv (groupedLayer.groupLayer 1 1)
          [groupedInput.channelSlice 1 1] []).2.1
        [groupedInput.channelSlice 1 1]
        (BaseConvolutionLayerImpl.allocate refEnv (groupedLayer.groupLayer 1 1)
          [groupedInput.channelSlice 1 1] []).2.2).2.2 = outsG' ∧
      outs'[0]? = some out ∧ outsG'[0]? = some outg ∧ out.data 1 = outg.data 0 := by
  obtain ⟨_, e, l'', outs', lg', outsG', h1, h2, he, h3⟩ :=
    conv_forward_group_decomposition refEnv groupedLayer
      (BaseConvolutionLayerImpl.allocate refEnv groupedLayer [groupedInput] []).2.1
      (BaseConvolutionLayerImpl.allocate refEnv (groupedLayer.groupLayer 1 1)
        [groupedInput.channelSlice 1 1] []).2.1
      [groupedInput] []
      (BaseConvolutionLayerImpl.allocate refEnv groupedLayer [groupedInput] []).2.2
      (BaseConvolutionLayerImpl.allocate refEnv (groupedLayer.groupLayer 1 1)
        [groupedInput.channelSlice 1 1] []).2.2
      1 rfl (Prod.ext (by decide) rfl) (by decide) (by decide) (Prod.ext (by decide) rfl)
  have he' : e = none := he (Or.inl (fun h => absurd h (by decide)))
  obtain ⟨out, outg, ho, hog, _, _, hd⟩ := h3 he' 0 groupedInput rfl
  refine ⟨rfl, by decide, by decide, by decide, outs', outsG', out, outg, by rw [h1, he'],
    by rw [h1], ?_, ho, hog, hd 0 0 0 (by decide) (by decide) (by decide)⟩
  exact congrArg (fun x => x.2.2) h2

/-! ## Backend selection -/

/-- The configuration that `setGroup` of the convolution leaves alone. -/
theorem conv_setGroup_config (l : Layer) (w : Blob) :
    (ConvolutionLayerImpl.setGroup l w).2.kernel = l.kernel ∧
    (ConvolutionLayerImpl.setGroup l w).2.stride = l.stride ∧
    (ConvolutionLayerImpl.setGroup l w).2.pad = l.pad ∧
    (ConvolutionLayerImpl.setGroup l w).2.dilation = l.dilation ∧
    (ConvolutionLayerImpl.setGroup l w).2.adjustPad = l.adjustPad ∧
    (ConvolutionLayerImpl.setGroup l w).2.padMode = l.padMode ∧
    (ConvolutionLayerImpl.setGroup l w).2.blobs = l.blobs ∧
    (ConvolutionLayerImpl.setGroup l w).2.tryUseOpenCL = l.tryUseOpenCL ∧
    (ConvolutionLayerImpl.setGroup l w).2.bias = l.bias ∧
    (ConvolutionLayerImpl.setGroup l w).2.useOpenCL = l.useOpenCL ∧
    (ConvolutionLayerImpl.setGroup l w).2.layerKind = l.layerKind := by
  unfold ConvolutionLayerImpl.setGroup
  split
  · simp
  · simp only
    split
    · simp
    · split
      · simp
      · split <;> simp

/-- The configuration that `setGroup` of the deconvolution leaves alone. -/
theorem deconv_setGroup_config (l : Layer) (w : Blob) :
    (DeConvolutionLayerImpl.setGroup l w).2.kernel = l.kernel ∧
    (DeConvolutionLayerImpl.setGroup l w).2.stride = l.stride ∧
    (DeConvolutionLayerImpl.setGroup l w).2.pad = l.pad ∧
    (DeConvolutionLayerImpl.setGroup l w).2.dilation = l.dilation ∧
    (DeConvolutionLayerImpl.setGroup l w).2.adjustPad = l.adjustPad ∧
    (DeConvolutionLayerImpl.setGroup l w).2.padMode = l.padMode ∧
    (DeConvolutionLayerImpl.setGroup l w).2.blobs = l.blobs ∧
    (DeConvolutionLayerImpl.setGroup l w).2.tryUseOpenCL = l.tryUseOpenCL ∧
    (DeConvolutionLayerImpl.setGroup l w).2.bias = l.bias ∧
    (DeConvolutionLayerImpl.setGroup l w).2.useOpenCL = l.useOpenCL ∧
    (DeConvolutionLayerImpl.setGroup l w).2.layerKind = l.layerKind := by
  unfold DeConvolutionLayerImpl.setGroup
  split
  · simp
  · simp only
    split
    · simp
    · split
      · simp
      · split <;> simp

/-- The configuration that `setOutSize` leaves alone (the pad is replaced in pad mode). -/
theorem conv_setOutSize_config (env : Env) (l : Layer) :
    (ConvolutionLayerImpl.setOutSize env l).2.adjustPad = l.adjustPad ∧
    (ConvolutionLayerImpl.setOutSize env l).2.padMode = l.padMode ∧
    (ConvolutionLayerImpl.setOutSize env l).2.tryUseOpenCL = l.tryUseOpenCL := by
  unfold ConvolutionLayerImpl.setOutSize
  split
  · split <;> simp
  · split <;> simp

/-- Shape inference keeps the configuration of the layer, whether it succeeds or fails. -/
theorem computeInpOutShape_config (env : Env) (l : Layer) (input : Blob) :
    (computeInpOutShape env l input).2.kernel = l.kernel ∧
    (computeInpOutShape env l input).2.stride = l.stride ∧
    (computeInpOutShape env l input).2.dilation = l.dilation ∧
    (computeInpOutShape env l input).2.adjustPad = l.adjustPad ∧
    (computeInpOutShape env l input).2.padMode = l.padMode ∧
    (computeInpOutShape env l input).2.blobs = l.blobs ∧
    (computeInpOutShape env l input).2.tryUseOpenCL = l.tryUseOpenCL ∧
    (computeInpOutShape env l input).2.bias = l.bias ∧
    (computeInpOutShape env l input).2.useOpenCL = l.useOpenCL ∧
    (computeInpOutShape env l input).2.layerKind = l.layerKind := by
  unfold computeInpOutShape
  cases hk : l.layerKind with
  | Convolution =>
    simp only
    unfold ConvolutionLayerImpl.computeInpOutShape
    split
    · simp [hk]
    · rename_i w hw
      split
      · simp [hk]
      · simp [hk]
      · have h1 := conv_setOutSize_frame env (ConvolutionLayerImpl.setInpShape l w input)
        have h1c := conv_setOutSize_config env (ConvolutionLayerImpl.setInpShape l w input)
        split
        · rename_i e l1 hs
          rw [hs] at h1 h1c
          simp only at h1 h1c ⊢
          simp only [ConvolutionLayerImpl.setInpShape] at h1 h1c
          obtain ⟨_, _, a3, _, _, _, _, a8, a9, a10, a11, a12, a13⟩ := h1
          exact ⟨a8, a9, a10, h1c.1, h1c.2.1, a3, h1c.2.2, a11, a12, by rw [a13, hk]⟩
        · rename_i l1 hs
          rw [hs] at h1 h1c
          have h2 := conv_setGroup_config l1 w
          simp only at h1 h1c
          simp only [ConvolutionLayerImpl.setInpShape] at h1 h1c
          obtain ⟨_, _, a3, _, _, _, _, a8, a9, a10, a11, a12, a13⟩ := h1
          obtain ⟨b1, b2, _, b4, b5, b6, b7, b8, b9, b10, b11⟩ := h2
          exact ⟨b1.trans a8, b2.trans a9, b4.trans a10, b5.trans h1c.1, b6.trans h1c.2.1,
            b7.trans a3, b8.trans h1c.2.2, b9.trans a11, b10.trans a12,
            by rw [b11, a13, hk]⟩
  | Deconvolution =>
    simp only
    unfold DeConvolutionLayerImpl.computeInpOutShape
    split
    · simp [hk]
    · rename_i w hw
      split
      · simp [hk]
      · simp [hk]
      · obtain ⟨b1, b2, _, b4, b5, b6, b7, b8, b9, b10, b11⟩ :=
          deconv_setGroup_config (DeConvolutionLayerImpl.setInpOutShape l w input) w
        rw [b1, b2, b4, b5, b6, b7, b8, b9, b10, b11]
        simp [DeConvolutionLayerImpl.setInpOutShape, hk]

/-- The configuration of the layer after a successful `allocate`: the geometry and the blobs
are kept, `bias` and the backend are those chosen by `init`. -/
theorem allocate_config {env : Env} {l l' : Layer} {inputs outputs outs : List Blob}
    (h : BaseConvolutionLayerImpl.allocate env l inputs outputs = (none, l', outs)) :
    l'.kernel = l.kernel ∧ l'.stride = l.stride ∧ l'.dilation = l.dilation ∧
    l'.adjustPad = l.adjustPad ∧ l'.padMode = l.padMode ∧ l'.blobs = l.blobs ∧
    l'.tryUseOpenCL = l.tryUseOpenCL ∧ l'.layerKind = l.layerKind ∧
    l'.bias = decide (2 ≤ l.blobs.length) ∧
    l'.useOpenCL = (env.oclUseOpenCL && l.tryUseOpenCL && decide (l.dilation = Size.mk 1 1)) := by
  obtain ⟨input, l1, l2, l3, _, hinit, _, _, _, hc, hb, _, ha⟩ := allocate_ok h
  obtain ⟨h1, _⟩ := init_ok hinit
  obtain ⟨c1, c2, c3, c4, c5, c6, c7, c8, c9, c10⟩ := computeInpOutShape_config env l1 input
  rw [hc] at c1 c2 c3 c4 c5 c6 c7 c8 c9 c10
  simp only at c1 c2 c3 c4 c5 c6 c7 c8 c9 c10
  obtain ⟨b3, hb3⟩ := allocBiasOnes_frame hb
  obtain ⟨b4, hb4⟩ := allocColRow_frame ha
  subst hb4 hb3
  simp only
  rw [c1, c2, c3, c4, c5, c6, c7, c8, c9, c10, h1]
  simp

/-- C11 fails as stated: with the accelerator available and the opt-in flag set, a
convolution and a deconvolution with dilation (2, 2) pass `init` and `allocate` without any
error; the host path is selected. -/
theorem accelerator_dilation_counterexample :
    oclEnv.oclUseOpenCL = true ∧
    dilatedOclLayer.tryUseOpenCL = true ∧ dilatedOclLayer.dilation ≠ Size.mk 1 1 ∧
    (BaseConvolutionLayerImpl.init oclEnv dilatedOclLayer).1 = none ∧
    (BaseConvolutionLayerImpl.init oclEnv dilatedOclLayer).2.useOpenCL = false ∧
    (BaseConvolutionLayerImpl.allocate oclEnv dilatedOclLayer [scenarioInput] []).1 = none ∧
    dilatedOclDeconvLayer.tryUseOpenCL = true ∧ dilatedOclDeconvLayer.dilation ≠ Size.mk 1 1 ∧
    (BaseConvolutionLayerImpl.init oclEnv dilatedOclDeconvLayer).1 = none ∧
    (BaseConvolutionLayerImpl.allocate oclEnv dilatedOclDeconvLayer [unitInput] []).1 = none ∧
    (BaseConvolutionLayerImpl.allocate oclEnv dilatedOclDeconvLayer [unitInput] []).2.1.useOpenCL
      = false := by
  refine ⟨rfl, rfl, by decide, by decide, by decide, by decide, rfl, by decide, by decide,
    by decide, by decide⟩

/-- C11, amended: requesting the accelerator for a layer whose dilation is not (1, 1) raises
no error of its own. `init` and `allocate` behave exactly as they do when the accelerator is
not available: `init` can only fail by one of its two assertions on the blobs, and when it
returns normally the host path is selected. -/
theorem init_dilation_selects_host (env : Env) (l : Layer) (inputs outputs : List Blob)
    (hd : l.dilation ≠ Size.mk 1 1) :
    BaseConvolutionLayerImpl.init env l
      = BaseConvolutionLayerImpl.init { env with oclUseOpenCL := false } l ∧
    BaseConvolutionLayerImpl.allocate env l inputs outputs
      = BaseConvolutionLayerImpl.allocate { env with oclUseOpenCL := false } l inputs outputs ∧
    ((BaseConvolutionLayerImpl.init env l).1 = none ∨
      (BaseConvolutionLayerImpl.init env l).1 = some Error.StsAssert) ∧
    ((BaseConvolutionLayerImpl.init env l).1 = none →
      (BaseConvolutionLayerImpl.init env l).2.useOpenCL = false) ∧
    ∀ l' outs, BaseConvolutionLayerImpl.allocate env l inputs outputs = (none, l', outs) →
      l'.useOpenCL = false := by
  have hinit : BaseConvolutionLayerImpl.init env l
      = BaseConvolutionLayerImpl.init { env with oclUseOpenCL := false } l := by
    unfold BaseConvolutionLayerImpl.init
    simp [hd]
  refine ⟨hinit, ?_, ?_, ?_, ?_⟩
  · unfold BaseConvolutionLayerImpl.allocate
    rw [hinit]
    rfl
  · cases hi : BaseConvolutionLayerImpl.init env l with
    | mk e l1 =>
      cases e with
      | none => exact Or.inl rfl
      | some e => exact Or.inr (by rw [init_error_is_assert hi])
  · intro hnone
    cases hi : BaseConvolutionLayerImpl.init env l with
    | mk e l1 =>
      rw [hi] at hnone
      simp only at hnone
      subst hnone
      obtain ⟨h1, _⟩ := init_ok hi
      rw [h1]
      simp [hd]
  · intro l' outs h
    rw [(allocate_config h).2.2.2.2.2.2.2.2.2]
    simp [hd]

/-- C11 witness: the dilated scenario layer on the accelerator environment. -/
theorem init_dilation_selects_host_witness :
    dilatedOclLayer.dilation ≠ Size.mk 1 1 ∧
    (BaseConvolutionLayerImpl.init oclEnv dilatedOclLayer).1 = none ∧
    (BaseConvolutionLayerImpl.init oclEnv dilatedOclLayer).2.useOpenCL = false :=
  ⟨by decide, by decide,
    (init_dilation_selects_host oclEnv dilatedOclLayer [scenarioInput] [] (by decide)).2.2.2.1
      (by decide)⟩

/-- C12: backend selection. After a successful `init`, and after a successful `allocate`,
the accelerator path is selected if and only if the accelerator is available, the caller's
opt-in flag is set and the dilation is (1, 1); it is never selected for another dilation. -/
theorem init_backend_selection (env : Env) (l l1 : Layer)
    (h : BaseConvolutionLayerImpl.init env l = (none, l1)) :
    (l1.useOpenCL = true ↔
      env.oclUseOpenCL = true ∧ l.tryUseOpenCL = true ∧ l.dilation = Size.mk 1 1) ∧
    (l.dilation ≠ Size.mk 1 1 → l1.useOpenCL = false) ∧
    l1.tryUseOpenCL = l.tryUseOpenCL ∧ l1.dilation = l.dilation ∧
    ∀ inputs outputs l' outs,
      BaseConvolutionLayerImpl.allocate env l inputs outputs = (none, l', outs) →
      (l'.useOpenCL = true ↔
        env.oclUseOpenCL = true ∧ l.tryUseOpenCL = true ∧ l.dilation = Size.mk 1 1) := by
  obtain ⟨h1, _⟩ := init_ok h
  subst h1
  refine ⟨?_, ?_, rfl, rfl, ?_⟩
  · simp [and_assoc]
  · intro hd
    simp [hd]
  · intro inputs outputs l' outs ha
    rw [(allocate_config ha).2.2.2.2.2.2.2.2.2]
    simp [and_assoc]

/-- C12 witness: on the accelerator environment the opted-in scenario layer selects the
accelerator, the dilated one does not. -/
theorem init_backend_selection_witness :
    (BaseConvolutionLayerImpl.init oclEnv oclLayer).2.useOpenCL = true ∧
    (oclEnv.oclUseOpenCL = true ∧ oclLayer.tryUseOpenCL = true ∧
      oclLayer.dilation = Size.mk 1 1) ∧
    (BaseConvolutionLayerImpl.init refEnv oclLayer).2.useOpenCL = false ∧
    (BaseConvolutionLayerImpl.init oclEnv scenarioLayer).2.useOpenCL = false :=
  ⟨(init_backend_selection oclEnv oclLayer (BaseConvolutionLayerImpl.init oclEnv oclLayer).2
      (Prod.ext (by decide) rfl)).1.2 ⟨rfl, rfl, by decide⟩,
    ⟨rfl, rfl, by decide⟩, by decide, by decide⟩

/-! ## The scratch buffer after `allocate` -/

/-- The steps behind a successful deconvolution shape inference. -/
theorem deconv_computeInpOutShape_ok {l l2 : Layer} {input : Blob}
    (h : DeConvolutionLayerImpl.computeInpOutShape l input = (none, l2)) :
    ∃ w, l.blobs[0]? = some w ∧ biasLengthOk l w = Except.ok true ∧
      DeConvolutionLayerImpl.setGroup (DeConvolutionLayerImpl.setInpOutShape l w input) w
        = (none, l2) := by
  unfold DeConvolutionLayerImpl.computeInpOutShape at h
  split at h
  · simp at h
  · rename_i w hw
    split at h
    · simp at h
    · simp at h
    · rename_i hb
      exact ⟨w, hw, hb, h⟩

/-- The scratch shape and `ksize` recorded by a successful shape inference. -/
theorem computeInpOutShape_scratch_shape {env : Env} {l l2 : Layer} {input : Blob}
    (h : computeInpOutShape env l input = (none, l2)) :
    (l.layerKind = LayerKind.Convolution →
      l2.ksize = l2.inpGroupCn * l2.kernel.height * l2.kernel.width ∧
      l2.colRowBlobShape = [l2.outH * l2.outW, l2.ksize]) ∧
    (l.layerKind = LayerKind.Deconvolution →
      l2.ksize = l2.outGroupCn * l2.kernel.height * l2.kernel.width ∧
      l2.colRowBlobShape = [l2.ksize, l2.inpH * l2.inpW]) := by
  unfold computeInpOutShape at h
  cases hk : l.layerKind with
  | Convolution =>
    rw [hk] at h
    simp only at h
    refine ⟨fun _ => ?_, fun hf => (by cases hf)⟩
    obtain ⟨w, l1, _, _, _, hg⟩ := conv_computeInpOutShape_ok h
    obtain ⟨_, _, _, _, _, _, h2⟩ := conv_setGroup_ok hg
    subst h2
    exact ⟨rfl, rfl⟩
  | Deconvolution =>
    rw [hk] at h
    simp only at h
    refine ⟨fun hf => (by cases hf), fun _ => ?_⟩
    obtain ⟨w, _, _, hg⟩ := deconv_computeInpOutShape_ok h
    obtain ⟨_, _, _, _, _, _, h2⟩ := deconv_setGroup_ok hg
    subst h2
    exact ⟨rfl, rfl⟩

/-- C13: the scratch buffer after every successful `allocate`. The layer is 1x1 after the
call exactly when it was before. When it is not, the scratch buffer is zero-filled, has the
element type of the input and the shape `(outH*outW, inpGroupCn*kernelH*kernelW)` for a
convolution and `(outGroupCn*kernelH*kernelW, inpH*inpW)` for a deconvolution, which is the
shape `colRowBlobShape` computed by shape inference. When the layer is 1x1, `allocate`
leaves the scratch buffer as it was. -/
theorem allocate_scratch_buffer (env : Env) (l l' : Layer) (inputs outputs outs : List Blob)
    (h : BaseConvolutionLayerImpl.allocate env l inputs outputs = (none, l', outs)) :
    BaseConvolutionLayerImpl.is1x1 l' = BaseConvolutionLayerImpl.is1x1 l ∧
    (BaseConvolutionLayerImpl.is1x1 l' = true → l'.colRowBlob = l.colRowBlob) ∧
    (BaseConvolutionLayerImpl.is1x1 l' = false →
      (∀ i, l'.colRowBlob.data i = 0) ∧
      (∀ input, inputs[0]? = some input → l'.colRowBlob.type = input.type) ∧
      l'.colRowBlob.shape.map Int.ofNat = l'.colRowBlobShape ∧
      (l'.layerKind = LayerKind.Convolution →
        l'.colRowBlob.shape.map Int.ofNat
          = [l'.outH * l'.outW, l'.inpGroupCn * l'.kernel.height * l'.kernel.width]) ∧
      (l'.layerKind = LayerKind.Deconvolution →
        l'.colRowBlob.shape.map Int.ofNat
          = [l'.outGroupCn * l'.kernel.height * l'.kernel.width, l'.inpH * l'.inpW])) := by
  obtain ⟨input, l1, l2, l3, hin, hinit, _, _, _, hc, hb, _, ha⟩ := allocate_ok h
  obtain ⟨h1, _⟩ := init_ok hinit
  obtain ⟨c1, c2, c3, _, _, _, _, _, _, c10⟩ := computeInpOutShape_config env l1 input
  obtain ⟨_, f2⟩ := computeInpOutShape_frame env l1 input
  obtain ⟨s1, s2⟩ := computeInpOutShape_scratch_shape hc
  rw [hc] at c1 c2 c3 c10 f2
  simp only at c1 c2 c3 c10 f2
  obtain ⟨b3, hb3⟩ := allocBiasOnes_frame hb
  obtain ⟨a1, a2⟩ := allocColRow_ok ha
  have hl1 : l1.kernel = l.kernel ∧ l1.stride = l.stride ∧ l1.dilation = l.dilation ∧
      l1.layerKind = l.layerKind ∧ l1.colRowBlob = l.colRowBlob := by
    rw [h1]; exact ⟨rfl, rfl, rfl, rfl, rfl⟩
  have hl3 : BaseConvolutionLayerImpl.is1x1 l3 = BaseConvolutionLayerImpl.is1x1 l := by
    unfold BaseConvolutionLayerImpl.is1x1
    rw [hb3]
    simp only
    rw [c1, c2, c3, hl1.1, hl1.2.1, hl1.2.2.1]
  have hl4 : BaseConvolutionLayerImpl.is1x1 l' = BaseConvolutionLayerImpl.is1x1 l3 := by
    obtain ⟨b4, hb4⟩ := allocColRow_frame ha
    rw [hb4]
    rfl
  refine ⟨hl4.trans hl3, ?_, ?_⟩
  · intro ht
    rw [hl4] at ht
    rw [a1 ht, hb3]
    simp only
    rw [f2, hl1.2.2.2.2]
  · intro hf
    rw [hl4] at hf
    obtain ⟨hnn, h4⟩ := a2 hf
    have hsh : l3.colRowBlobShape = l2.colRowBlobShape := by rw [hb3]
    have hkind : l'.layerKind = l1.layerKind := by rw [h4, hb3]; exact c10
    have hfield : l'.colRowBlobShape = l2.colRowBlobShape ∧ l'.outH = l2.outH ∧
        l'.outW = l2.outW ∧ l'.inpGroupCn = l2.inpGroupCn ∧ l'.outGroupCn = l2.outGroupCn ∧
        l'.kernel = l2.kernel ∧ l'.inpH = l2.inpH ∧ l'.inpW = l2.inpW := by
      rw [h4, hb3]
      exact ⟨rfl, rfl, rfl, rfl, rfl, rfl, rfl, rfl⟩
    obtain ⟨g1, g2, g3, g4, g5, g6, g7, g8⟩ := hfield
    have hshape : l'.colRowBlob.shape.map Int.ofNat = l2.colRowBlobShape := by
      rw [h4]
      simp only
      rw [toNat_cast_list hnn, hsh]
    have hdata : ∀ i, l'.colRowBlob.data i = 0 := by
      intro i
      rw [h4]
    have htype : l'.colRowBlob.type = input.type := by rw [h4]
    refine ⟨hdata, ?_, by rw [hshape, g1], ?_, ?_⟩
    · intro input' hin'
      rw [hin] at hin'
      cases hin'
      exact htype
    · intro hk
      obtain ⟨e1, e2⟩ := s1 (by rw [← hkind]; exact hk)
      rw [hshape, e2, e1, g2, g3, g4, g6]
    · intro hk
      obtain ⟨e1, e2⟩ := s2 (by rw [← hkind]; exact hk)
      rw [hshape, e2, e1, g5, g6, g7, g8]

/-- C13 witness: the scenario layer gets a zero-filled (25, 27) scratch buffer. -/
theorem allocate_scratch_buffer_witness :
    (BaseConvolutionLayerImpl.allocate refEnv scenarioLayer [scenarioInput] []).1 = none ∧
    (BaseConvolutionLayerImpl.allocate refEnv scenarioLayer [scenarioInput] []).2.1.colRowBlob.shape
      = [25, 27] ∧
    (BaseConvolutionLayerImpl.allocate refEnv scenarioLayer [scenarioInput] []).2.1.colRowBlob.data 3
      = 0 :=
  ⟨by decide, by decide,
    ((allocate_scratch_buffer refEnv scenarioLayer
      (BaseConvolutionLayerImpl.allocate refEnv scenarioLayer [scenarioInput] []).2.1
      [scenarioInput] []
      (BaseConvolutionLayerImpl.allocate refEnv scenarioLayer [scenarioInput] []).2.2
      (Prod.ext (by decide) rfl)).2.2 (by decide)).1 3⟩

/-! ## Row ranges of the convolution output -/

/-- Two blocks of `O` rows that share a row are the same block. -/
theorem block_unique {t t' O r : Int} (hO : 0 ≤ O) (h1 : t * O ≤ r) (h2 : r < t * O + O)
    (h1' : t' * O ≤ r) (h2' : r < t' * O + O) : t = t' := by
  rcases lt_trichotomy t t' with hlt | heq | hgt
  · exfalso
    have := mul_le_mul_of_nonneg_right (show t + 1 ≤ t' by omega) hO
    have e : (t + 1) * O = t * O + O := by ring
    rw [e] at this
    omega
  · exact heq
  · exfalso
    have := mul_le_mul_of_nonneg_right (show t' + 1 ≤ t by omega) hO
    have e : (t' + 1) * O = t' * O + O := by ring
    rw [e] at this
    omega

/-- The block number `g + n * G` determines the batch item and the group. -/
theorem pair_unique {n g n' g' G : Int} (hg : 0 ≤ g) (hgG : g < G) (hg' : 0 ≤ g')
    (hgG' : g' < G) (h : g + n * G = g' + n' * G) : n = n' ∧ g = g' := by
  have hG : 0 ≤ G := by omega
  have hn : n = n' := by
    rcases lt_trichotomy n n' with hlt | heq | hgt
    · exfalso
      have := mul_le_mul_of_nonneg_right (show n + 1 ≤ n' by omega) hG
      have e : (n + 1) * G = n * G + G := by ring
      rw [e] at this
      omega
    · exact heq
    · exfalso
      have := mul_le_mul_of_nonneg_right (show n' + 1 ≤ n by omega) hG
      have e : (n' + 1) * G = n' * G + G := by ring
      rw [e] at this
      omega
  subst hn
  exact ⟨rfl, by omega⟩

/-- Every row below `N * (G * O)` lies in the block of one pair `(n, g)`. -/
theorem block_cover {N G O r : Int} (hG : 1 ≤ G) (hO : 0 ≤ O) (hr : 0 ≤ r)
    (hlt : r < N * (G * O)) :
    ∃ n g, 0 ≤ n ∧ n < N ∧ 0 ≤ g ∧ g < G ∧ (g + n * G) * O ≤ r ∧ r < (g + n * G) * O + O := by
  have hOpos : 0 < O := by
    rcases lt_or_eq_of_le hO with h | h
    · exact h
    · exfalso
      rw [← h] at hlt
      simp at hlt
      omega
  have hGpos : 0 < G := by omega
  have e1 := Int.ediv_add_emod r O
  have e2 := Int.ediv_add_emod (r / O) G
  have m1 := Int.emod_nonneg r (show O ≠ 0 by omega)
  have m2 := Int.emod_lt_of_pos r hOpos
  have m3 := Int.emod_nonneg (r / O) (show G ≠ 0 by omega)
  have m4 := Int.emod_lt_of_pos (r / O) hGpos
  have ht : r / O < N * G := by
    apply Int.ediv_lt_of_lt_mul hOpos
    have : N * G * O = N * (G * O) := by ring
    rw [this]
    exact hlt
  have ht0 : 0 ≤ r / O := Int.ediv_nonneg hr hO
  refine ⟨r / O / G, r / O % G, Int.ediv_nonneg ht0 (by omega),
    Int.ediv_lt_of_lt_mul hGpos ht, m3, m4, ?_, ?_⟩
  · have e3 : r / O % G + r / O / G * G = r / O := by linarith
    rw [e3]
    have : r / O * O = O * (r / O) := by ring
    rw [this]
    omega
  · have e3 : r / O % G + r / O / G * G = r / O := by linarith
    rw [e3]
    have : r / O * O = O * (r / O) := by ring
    rw [this]
    omega

/-- The group count and the per-group channel counts after a successful shape inference of
the convolution. -/
theorem conv_computeInpOutShape_group {env : Env} {l l' : Layer} {input : Blob}
    (h : ConvolutionLayerImpl.computeInpOutShape env l input = (none, l')) :
    1 ≤ l'.group ∧ 0 ≤ l'.outGroupCn ∧ l'.group * l'.outGroupCn = l'.outCn ∧
    1 ≤ l'.inpGroupCn ∧ l'.group * l'.inpGroupCn = l'.inpCn ∧ 0 ≤ l'.outCn := by
  obtain ⟨w, l1, _, _, hs, hg⟩ := conv_computeInpOutShape_ok h
  obtain ⟨hc, hg0, hm1, hm2, hnum, hch, h2⟩ := conv_setGroup_ok hg
  obtain ⟨_, _, _, f4, f5, _⟩ := conv_setOutSize_frame env (ConvolutionLayerImpl.setInpShape l w input)
  rw [hs] at f4 f5
  simp only [ConvolutionLayerImpl.setInpShape] at f4 f5
  have hi : 0 ≤ l1.inpCn := by rw [f4]; exact Int.ofNat_nonneg _
  have ho : 0 ≤ l1.outCn := by rw [f5]; exact Int.ofNat_nonneg _
  have hw : 0 ≤ w.channels := Int.ofNat_nonneg _
  have hgn : 0 ≤ l1.inpCn.tdiv w.channels := Int.tdiv_nonneg hi hw
  have hg1 : 1 ≤ l1.inpCn.tdiv w.channels := by omega
  subst h2
  simp only
  refine ⟨hg1, Int.tdiv_nonneg ho hgn, mul_tdiv_of_tmod_zero hm2, ?_, mul_tdiv_of_tmod_zero hm1, ho⟩
  rw [← hch]
  omega

/-- C15: after a successful shape inference of the convolution, the output matrix of
`numImg * group * outGroupCn` rows has `numImg * outCn` rows; the row ranges
`_Range((g + n*group)*outGroupCn, outGroupCn)` of two pairs `(n, g)` with `0 <= g < group`
that share a row belong to the same pair; and a row lies in `0 .. numImg*outCn - 1` exactly
when it lies in the range of some pair with `0 <= n < numImg` and `0 <= g < group`. -/
theorem conv_out_ranges_partition (env : Env) (l l' : Layer) (input : Blob) (numImg : Int)
    (h : ConvolutionLayerImpl.computeInpOutShape env l input = (none, l')) :
    numImg * l'.group * l'.outGroupCn = numImg * l'.outCn ∧
    (∀ n g n' g' r, 0 ≤ g → g < l'.group → 0 ≤ g' → g' < l'.group →
      inRange (ConvolutionLayerImpl.outRange l' n g) r = true →
      inRange (ConvolutionLayerImpl.outRange l' n' g') r = true → n = n' ∧ g = g') ∧
    (∀ r, (0 ≤ r ∧ r < numImg * l'.outCn) ↔
      ∃ n g, 0 ≤ n ∧ n < numImg ∧ 0 ≤ g ∧ g < l'.group ∧
        inRange (ConvolutionLayerImpl.outRange l' n g) r = true) := by
  obtain ⟨hG, hO, hGO, _, _, _⟩ := conv_computeInpOutShape_group h
  have hr : ∀ n g r, inRange (ConvolutionLayerImpl.outRange l' n g) r = true ↔
      ((g + n * l'.group) * l'.outGroupCn ≤ r ∧
        r < (g + n * l'.group) * l'.outGroupCn + l'.outGroupCn) := by
    intro n g r
    simp [inRange, ConvolutionLayerImpl.outRange]
  refine ⟨by rw [mul_assoc, hGO], ?_, ?_⟩
  · intro n g n' g' r hg hgG hg' hgG' h1 h2
    obtain ⟨a1, a2⟩ := (hr n g r).1 h1
    obtain ⟨b1, b2⟩ := (hr n' g' r).1 h2
    exact pair_unique hg hgG hg' hgG' (block_unique hO a1 a2 b1 b2)
  · intro r
    rw [← hGO]
    constructor
    · rintro ⟨h0, hlt⟩
      obtain ⟨n, g, c1, c2, c3, c4, c5, c6⟩ := block_cover hG hO h0 hlt
      exact ⟨n, g, c1, c2, c3, c4, (hr n g r).2 ⟨c5, c6⟩⟩
    · rintro ⟨n, g, c1, c2, c3, c4, c5⟩
      obtain ⟨a1, a2⟩ := (hr n g r).1 c5
      have hG0 : 0 ≤ l'.group := by omega
      have hnn : 0 ≤ n * l'.group := mul_nonneg c1 hG0
      have hst : 0 ≤ (g + n * l'.group) * l'.outGroupCn := mul_nonneg (by omega) hO
      have hnG := mul_le_mul_of_nonneg_right (show n + 1 ≤ numImg by omega) hG0
      have e1 : (n + 1) * l'.group = n * l'.group + l'.group := by ring
      rw [e1] at hnG
      have hup := mul_le_mul_of_nonneg_right
        (show g + n * l'.group + 1 ≤ numImg * l'.group by omega) hO
      have e2 : (g + n * l'.group + 1) * l'.outGroupCn
          = (g + n * l'.group) * l'.outGroupCn + l'.outGroupCn := by ring
      have e3 : numImg * l'.group * l'.outGroupCn = numImg * (l'.group * l'.outGroupCn) := by
        ring
      rw [e2, e3] at hup
      exact ⟨by omega, by omega⟩

/-- C15 witness: the layer with two groups of one output channel and a batch of two items;
row 3 of the four output rows belongs to the pair `(1, 1)` only. -/
theorem conv_out_ranges_partition_witness :
    (ConvolutionLayerImpl.computeInpOutShape refEnv groupedLayer groupedInput).1 = none ∧
    (ConvolutionLayerImpl.computeInpOutShape refEnv groupedLayer groupedInput).2.group = 2 ∧
    (ConvolutionLayerImpl.computeInpOutShape refEnv groupedLayer groupedInput).2.outCn = 2 ∧
    (∃ n g, 0 ≤ n ∧ n < 2 ∧ 0 ≤ g ∧
      g < (ConvolutionLayerImpl.computeInpOutShape refEnv groupedLayer groupedInput).2.group ∧
      inRange (ConvolutionLayerImpl.outRange
        (ConvolutionLayerImpl.computeInpOutShape refEnv groupedLayer groupedInput).2 n g) 3
        = true) ∧
    inRange (ConvolutionLayerImpl.outRange
      (ConvolutionLayerImpl.computeInpOutShape refEnv groupedLayer groupedInput).2 1 1) 3
      = true :=
  ⟨by decide, by decide, by decide,
    ((conv_out_ranges_partition refEnv groupedLayer
      (ConvolutionLayerImpl.computeInpOutShape refEnv groupedLayer groupedInput).2
      groupedInput 2 (Prod.ext (by decide) rfl)).2.2 3).1 ⟨by decide, by decide⟩,
    by decide⟩

/-! ## Legality of the 1x1 fast path -/

/-- The extents after a successful shape inference of the convolution without pad mode. -/
theorem conv_computeInpOutShape_extents {env : Env} {l l' : Layer} {input : Blob}
    (h : ConvolutionLayerImpl.computeInpOutShape env l input = (none, l'))
    (hpm : l.padMode.isEmpty = true) :
    l'.inpH = input.rows ∧ l'.inpW = input.cols ∧
    l'.outH = convOutSize input.rows l.pad.height l.dilation.height l.kernel.height
      l.stride.height ∧
    l'.outW = convOutSize input.cols l.pad.width l.dilation.width l.kernel.width
      l.stride.width ∧
    l'.ksize = l'.inpGroupCn * l.kernel.height * l.kernel.width := by
  obtain ⟨w, l1, _, _, hs, hg⟩ := conv_computeInpOutShape_ok h
  obtain ⟨_, _, _, _, _, _, h2⟩ := conv_setGroup_ok hg
  obtain ⟨hs1, _⟩ := conv_setOutSize_ok hs
  obtain ⟨_, _, h1⟩ := hs1 hpm
  subst h2
  subst h1
  exact ⟨rfl, rfl, rfl, rfl, rfl⟩

/-- The extents after a successful shape inference of the deconvolution. -/
theorem deconv_computeInpOutShape_extents {l l' : Layer} {input : Blob}
    (h : DeConvolutionLayerImpl.computeInpOutShape l input = (none, l')) :
    l'.inpH = input.rows ∧ l'.inpW = input.cols ∧
    l'.outH = deconvOutSize input.rows l.pad.height l.kernel.height l.stride.height
      l.adjustPad.height ∧
    l'.outW = deconvOutSize input.cols l.pad.width l.kernel.width l.stride.width
      l.adjustPad.width ∧
    l'.ksize = l'.outGroupCn * l.kernel.height * l.kernel.width := by
  obtain ⟨w, _, _, hg⟩ := deconv_computeInpOutShape_ok h
  obtain ⟨_, _, _, _, _, _, h2⟩ := deconv_setGroup_ok hg
  subst h2
  exact ⟨rfl, rfl, rfl, rfl, rfl⟩

/-- What `is1x1` says about the geometry. -/
theorem is1x1_iff (l : Layer) :
    BaseConvolutionLayerImpl.is1x1 l = true ↔
      l.kernel.height = 1 ∧ l.kernel.width = 1 ∧ l.stride.height = 1 ∧ l.stride.width = 1 ∧
      l.dilation.height = 1 ∧ l.dilation.width = 1 := by
  unfold BaseConvolutionLayerImpl.is1x1
  simp [and_assoc]

/-- C16 fails as stated: `is1x1` does not look at the pad. A 1x1 convolution with pad (1, 1)
on a 1x1 input has a 3x3 output, and a 1x1 deconvolution with pad (1, 1) on a 3x3 input has
a 1x1 output; neither has a pad mode set. `forward` then fails on both: the convolution
when it reshapes the input slice, the deconvolution when the product meets the destination
slice. -/
theorem fast_path_legality_counterexample :
    BaseConvolutionLayerImpl.is1x1 pointwisePaddedLayer = true ∧
    pointwisePaddedLayer.padMode.isEmpty = true ∧
    (computeInpOutShape refEnv pointwisePaddedLayer unitInput).1 = none ∧
    (computeInpOutShape refEnv pointwisePaddedLayer unitInput).2.outH *
      (computeInpOutShape refEnv pointwisePaddedLayer unitInput).2.outW = 9 ∧
    (computeInpOutShape refEnv pointwisePaddedLayer unitInput).2.inpH *
      (computeInpOutShape refEnv pointwisePaddedLayer unitInput).2.inpW = 1 ∧
    BaseConvolutionLayerImpl.is1x1 pointwisePaddedDeconvLayer = true ∧
    pointwisePaddedDeconvLayer.padMode.isEmpty = true ∧
    (computeInpOutShape refEnv pointwisePaddedDeconvLayer boxInput).1 = none ∧
    (computeInpOutShape refEnv pointwisePaddedDeconvLayer boxInput).2.outH *
      (computeInpOutShape refEnv pointwisePaddedDeconvLayer boxInput).2.outW = 1 ∧
    (computeInpOutShape refEnv pointwisePaddedDeconvLayer boxInput).2.inpH *
      (computeInpOutShape refEnv pointwisePaddedDeconvLayer boxInput).2.inpW = 9 ∧
    (BaseConvolutionLayerImpl.allocate refEnv pointwisePaddedLayer [unitInput] []).1 = none ∧
    (ConvolutionLayerImpl.forward refEnv
      (BaseConvolutionLayerImpl.allocate refEnv pointwisePaddedLayer [unitInput] []).2.1
      [unitInput]
      (BaseConvolutionLayerImpl.allocate refEnv pointwisePaddedLayer [unitInput] []).2.2).1
      = some Error.StsUnmatchedSizes ∧
    (BaseConvolutionLayerImpl.allocate refEnv pointwisePaddedDeconvLayer [boxInput] []).1
      = none ∧
    (DeConvolutionLayerImpl.forward refScatter
      (BaseConvolutionLayerImpl.allocate refEnv pointwisePaddedDeconvLayer [boxInput] []).2.1
      [boxInput]
      (BaseConvolutionLayerImpl.allocate refEnv pointwisePaddedDeconvLayer [boxInput] []).2.2).1
      = some Error.StsAssert := by
  refine ⟨by decide, by decide, by decide, by decide, by decide, by decide, by decide,
    by decide, by decide, by decide, by decide, by decide, by decide, by decide⟩

/-- C16, amended: let `is1x1` hold, no pad mode be set and shape inference succeed. Then the
convolution has `outH = inpH + 2*pad.height`, `outW = inpW + 2*pad.width` and
`ksize = inpGroupCn`, and the deconvolution has `outH = inpH - 2*pad.height +
adjustPad.height`, `outW = inpW - 2*pad.width + adjustPad.width` and `ksize = outGroupCn`.
So with pad (0, 0) in the convolution, and with `adjustPad = 2*pad` on both axes in the
deconvolution, `outH*outW = inpH*inpW`, and the reinterpretations of the fast path preserve
the element count. -/
theorem fast_path_legal_of_pad (env : Env) (l l' : Layer) (input : Blob)
    (h : computeInpOutShape env l input = (none, l'))
    (h1 : BaseConvolutionLayerImpl.is1x1 l = true) (hpm : l.padMode.isEmpty = true) :
    BaseConvolutionLayerImpl.is1x1 l' = true ∧
    (l.layerKind = LayerKind.Convolution →
      l'.outH = l'.inpH + 2 * l.pad.height ∧ l'.outW = l'.inpW + 2 * l.pad.width ∧
      l'.ksize = l'.inpGroupCn ∧
      (l.pad = Size.mk 0 0 →
        l'.outH * l'.outW = l'.inpH * l'.inpW ∧
        l'.ksize * (l'.outH * l'.outW) = l'.inpGroupCn * l'.inpH * l'.inpW)) ∧
    (l.layerKind = LayerKind.Deconvolution →
      l'.outH = l'.inpH - 2 * l.pad.height + l.adjustPad.height ∧
      l'.outW = l'.inpW - 2 * l.pad.width + l.adjustPad.width ∧
      l'.ksize = l'.outGroupCn ∧
      (l.adjustPad.height = 2 * l.pad.height → l.adjustPad.width = 2 * l.pad.width →
        l'.outH * l'.outW = l'.inpH * l'.inpW ∧
        l'.ksize * (l'.inpH * l'.inpW) = l'.outGroupCn * (l'.outH * l'.outW))) := by
  obtain ⟨k1, k2, s1, s2, d1, d2⟩ := (is1x1_iff l).1 h1
  obtain ⟨c1, c2, c3, _⟩ := computeInpOutShape_config env l input
  rw [h] at c1 c2 c3
  simp only at c1 c2 c3
  refine ⟨?_, ?_, ?_⟩
  · rw [is1x1_iff, c1, c2, c3]
    exact ⟨k1, k2, s1, s2, d1, d2⟩
  · intro hk
    unfold computeInpOutShape at h
    rw [hk] at h
    simp only at h
    obtain ⟨e1, e2, e3, e4, e5⟩ := conv_computeInpOutShape_extents h hpm
    have hH : l'.outH = l'.inpH + 2 * l.pad.height := by
      rw [e3, e1]
      unfold convOutSize
      rw [k1, s1, d1, Int.tdiv_one]
      ring
    have hW : l'.outW = l'.inpW + 2 * l.pad.width := by
      rw [e4, e2]
      unfold convOutSize
      rw [k2, s2, d2, Int.tdiv_one]
      ring
    have hks : l'.ksize = l'.inpGroupCn := by
      rw [e5, k1, k2]
      ring
    refine ⟨hH, hW, hks, ?_⟩
    intro hp
    have hp1 : l.pad.height = 0 := by rw [hp]
    have hp2 : l.pad.width = 0 := by rw [hp]
    rw [hH, hW, hks, hp1, hp2]
    constructor <;> ring
  · intro hk
    unfold computeInpOutShape at h
    rw [hk] at h
    simp only at h
    obtain ⟨e1, e2, e3, e4, e5⟩ := deconv_computeInpOutShape_extents h
    have hH : l'.outH = l'.inpH - 2 * l.pad.height + l.adjustPad.height := by
      rw [e3, e1]
      unfold deconvOutSize
      rw [k1, s1]
      ring
    have hW : l'.outW = l'.inpW - 2 * l.pad.width + l.adjustPad.width := by
      rw [e4, e2]
      unfold deconvOutSize
      rw [k2, s2]
      ring
    have hks : l'.ksize = l'.outGroupCn := by
      rw [e5, k1, k2]
      ring
    refine ⟨hH, hW, hks, ?_⟩
    intro ha1 ha2
    rw [hH, hW, hks, ha1, ha2]
    constructor <;> ring

/-- C16 witness: the pointwise layer without pad on the (1, 2, 1, 2) input. -/
theorem fast_path_legal_of_pad_witness :
    BaseConvolutionLayerImpl.is1x1 pointwiseLayer = true ∧
    (computeInpOutShape refEnv pointwiseLayer pointwiseInput).1 = none ∧
    (computeInpOutShape refEnv pointwiseLayer pointwiseInput).2.outH *
      (computeInpOutShape refEnv pointwiseLayer pointwiseInput).2.outW
      = (computeInpOutShape refEnv pointwiseLayer pointwiseInput).2.inpH *
        (computeInpOutShape refEnv pointwiseLayer pointwiseInput).2.inpW ∧
    (computeInpOutShape refEnv pointwiseLayer pointwiseInput).2.outH *
      (computeInpOutShape refEnv pointwiseLayer pointwiseInput).2.outW = 2 :=
  ⟨by decide, by decide,
    ((fast_path_legal_of_pad refEnv pointwiseLayer
      (computeInpOutShape refEnv pointwiseLayer pointwiseInput).2 pointwiseInput
      (Prod.ext (by decide) rfl) (by decide) (by decide)).2.1 rfl).2.2.2 rfl |>.1,
    by decide⟩

/-! ## The group count as a divisor -/

/-- C18: the code at the failing input. The input has one channel and the weight two
channels per group, so `group = 1 / 2 = 0`. No assertion has failed at that point, and the
next use of `group`, `inpCn % group` in the convolution (line 148) and `outCn / group` in
the deconvolution (line 285), divides by zero: shape inference and `allocate` end in
undefined behaviour, not in an assertion error. -/
theorem shape_inference_zero_group :
    narrowInput.channels = 1 ∧ wideWeight.channels = 2 ∧
    (BaseConvolutionLayerImpl.init refEnv wideWeightLayer).1 = none ∧
    (computeInpOutShape refEnv wideWeightLayer narrowInput).1 = some Error.Undefined ∧
    (computeInpOutShape refEnv wideWeightLayer narrowInput).2.group = 0 ∧
    (BaseConvolutionLayerImpl.allocate refEnv wideWeightLayer [narrowInput] []).1
      = some Error.Undefined ∧
    (BaseConvolutionLayerImpl.init refEnv wideWeightDeconvLayer).1 = none ∧
    (computeInpOutShape refEnv wideWeightDeconvLayer narrowInput).1 = some Error.Undefined ∧
    (computeInpOutShape refEnv wideWeightDeconvLayer narrowInput).2.group = 0 ∧
    (BaseConvolutionLayerImpl.allocate refEnv wideWeightDeconvLayer [narrowInput] []).1
      = some Error.Undefined := by
  refine ⟨by decide, by decide, by decide, by decide, by decide, by decide, by decide,
    by decide, by decide, by decide⟩

/-! ## The geometry handed to `col2im` -/

/-- C17: the code at the failing input. A 2x2 deconvolution with one channel turns the 1x1
input `[3]` into a 2x2 image. For 32-bit elements the host `col2im` hands the kernel the
geometry of the output image `(outGroupCn, outH, outW) = (1, 2, 2)` and the output is
`3, 6, 9, 12`. For 64-bit elements it hands it `(inpGroupCn, inpH, inpW) = (1, 1, 1)`, and
with the same element values the reference kernel stores a single `0`. -/
theorem col2im_geometry_differs_by_type :
    (BaseConvolutionLayerImpl.allocate refEnv scatterDeconvLayer [unitInput] []).1 = none ∧
    (BaseConvolutionLayerImpl.allocate refEnv scatterDeconvLayer [unitInput64] []).1 = none ∧
    (∀ i, unitInput64.data i = unitInput.data i) ∧
    DeConvolutionLayerImpl.col2imGeometry
      (BaseConvolutionLayerImpl.allocate refEnv scatterDeconvLayer [unitInput] []).2.1
      Depth.CV_32F = some ⟨1, 2, 2, 2, 2, 0, 0, 1, 1⟩ ∧
    DeConvolutionLayerImpl.col2imGeometry
      (BaseConvolutionLayerImpl.allocate refEnv scatterDeconvLayer [unitInput64] []).2.1
      Depth.CV_64F = some ⟨1, 1, 1, 2, 2, 0, 0, 1, 1⟩ ∧
    (DeConvolutionLayerImpl.forward refScatter
      (BaseConvolutionLayerImpl.allocate refEnv scatterDeconvLayer [unitInput] []).2.1
      [unitInput]
      (BaseConvolutionLayerImpl.allocate refEnv scatterDeconvLayer [unitInput] []).2.2).1
      = none ∧
    (DeConvolutionLayerImpl.forward refScatter
      (BaseConvolutionLayerImpl.allocate refEnv scatterDeconvLayer [unitInput] []).2.1
      [unitInput]
      (BaseConvolutionLayerImpl.allocate refEnv scatterDeconvLayer [unitInput] []).2.2).2.2.map
      (fun b => [b.data 0, b.data 1, b.data 2, b.data 3]) = [[3, 6, 9, 12]] ∧
    (DeConvolutionLayerImpl.forward refScatter
      (BaseConvolutionLayerImpl.allocate refEnv scatterDeconvLayer [unitInput64] []).2.1
      [unitInput64]
      (BaseConvolutionLayerImpl.allocate refEnv scatterDeconvLayer [unitInput64] []).2.2).1
      = none ∧
    (DeConvolutionLayerImpl.forward refScatter
      (BaseConvolutionLayerImpl.allocate refEnv scatterDeconvLayer [unitInput64] []).2.1
      [unitInput64]
      (BaseConvolutionLayerImpl.allocate refEnv scatterDeconvLayer [unitInput64] []).2.2).2.2.map
      (fun b => [b.data 0, b.data 1, b.data 2, b.data 3]) = [[0, 0, 0, 0]] := by
  refine ⟨by decide, by decide, fun _ => rfl, by decide, by decide, by decide, by decide,
    by decide, by decide⟩

/-! ## The deconvolution after `allocate` -/

/-- The layer state that a successful `allocate` of a deconvolution establishes, with the
extents as natural numbers: `G` groups of `I` input and `O` output channels, a `kh x kw`
kernel and `H x W` inputs. -/
theorem allocate_deconv_ready {env : Env} {l l' : Layer} {inputs outputs outs : List Blob}
    (hk : l.layerKind = LayerKind.Deconvolution)
    (h : BaseConvolutionLayerImpl.allocate env l inputs outputs = (none, l', outs)) :
    ∃ (G I O kh kw H W : Nat) (w : Blob),
      l'.blobs[0]? = some w ∧ w.shape = [G * O, I, kh, kw] ∧ 1 ≤ G ∧ 1 ≤ I ∧
      l'.group = (G : Int) ∧ l'.inpGroupCn = (I : Int) ∧ l'.outGroupCn = (O : Int) ∧
      l'.outCn = ((G * O : Nat) : Int) ∧ l'.inpCn = ((G * I : Nat) : Int) ∧
      l'.inpH = (H : Int) ∧ l'.inpW = (W : Int) ∧
      l'.kernel.height = (kh : Int) ∧ l'.kernel.width = (kw : Int) ∧
      l'.ksize = ((O * kh * kw : Nat) : Int) ∧
      (BaseConvolutionLayerImpl.is1x1 l' = false →
        l'.colRowBlob.shape = [O * kh * kw, H * W]) ∧
      (∀ (ii : Nat) (inp : Blob), inputs[ii]? = some inp → ∃ N, inp.shape = [N, G * I, H, W]) := by
  obtain ⟨input, l1, l2, l3, hin, hi, hd4, hty, hall, hc, hb, hf, ha⟩ := allocate_ok h
  obtain ⟨hl1, w, hw, hwd, hwc, hwr, _⟩ := init_ok hi
  have hk1 : l1.layerKind = LayerKind.Deconvolution := by rw [hl1]; exact hk
  unfold computeInpOutShape at hc
  rw [hk1] at hc
  simp only at hc
  obtain ⟨w1, hw1, hbl, hg⟩ := deconv_computeInpOutShape_ok hc
  have hww : w1 = w := by
    have : l1.blobs = l.blobs := by rw [hl1]
    rw [this, hw] at hw1
    exact (Option.some.inj hw1).symm
  subst hww
  obtain ⟨c1, c2, c3, c4, _, c6, hl2⟩ := deconv_setGroup_ok hg
  simp only [DeConvolutionLayerImpl.setInpOutShape] at c2 c3 c4 c6
  obtain ⟨b3, hl3⟩ := allocBiasOnes_frame hb
  obtain ⟨b4, hl4⟩ := allocColRow_frame ha
  obtain ⟨a, b, kh, kw, hws⟩ := shape_of_dims4 w1 hwd
  obtain ⟨N0, C, H, W, hins⟩ := shape_of_dims4 input hd4
  have ewn : w1.num = (a : Int) := by simp [Blob.num, Blob.xsize, hws]
  have ewc : w1.channels = (b : Int) := by simp [Blob.channels, Blob.xsize, hws]
  have ewr : w1.rows = (kh : Int) := by simp [Blob.rows, Blob.xsize, hws]
  have ewl : w1.cols = (kw : Int) := by simp [Blob.cols, Blob.xsize, hws]
  have eic : input.channels = (C : Int) := by simp [Blob.channels, Blob.xsize, hins]
  have eir : input.rows = (H : Int) := by simp [Blob.rows, Blob.xsize, hins]
  have eil : input.cols = (W : Int) := by simp [Blob.cols, Blob.xsize, hins]
  rw [ewc] at c1
  rw [ewc, eic] at c2 c3 c6
  rw [ewn, ewc, eic] at c4
  obtain ⟨a1, a2, a3, a4, a5, a6, a7⟩ := group_arith a b C c1 c2 c3 c4 c6
  have hkern : l'.kernel = l.kernel := by rw [hl4, hl3, hl2]; simp only; rw [hl1]; rfl
  have hks : l'.ksize = ((a / (C / b) * kh * kw : Nat) : Int) := by
    rw [hl4, hl3, hl2]
    simp only [DeConvolutionLayerImpl.setInpOutShape]
    rw [ewn, ewc, eic, a6]
    have : l1.kernel = l.kernel := by rw [hl1]
    rw [this, ← hwr, ← hwc, ewr, ewl]
    push_cast
    rfl
  refine ⟨C / b, b, a / (C / b), kh, kw, H, W, w1, ?_, by rw [a3]; exact hws, a1, a2, ?_, ?_, ?_,
    ?_, ?_, ?_, ?_, ?_, ?_, hks, ?_, ?_⟩
  · rw [hl4, hl3, hl2]; simp only [DeConvolutionLayerImpl.setInpOutShape]; rw [hl1]; exact hw
  · rw [hl4, hl3, hl2]; simp only [DeConvolutionLayerImpl.setInpOutShape]; rw [ewc, eic]; exact a5
  · rw [hl4, hl3, hl2]; simp only [DeConvolutionLayerImpl.setInpOutShape]; rw [ewc, eic]; exact a7
  · rw [hl4, hl3, hl2]; simp only [DeConvolutionLayerImpl.setInpOutShape]
    rw [ewn, ewc, eic]; exact a6
  · rw [hl4, hl3, hl2]; simp only [DeConvolutionLayerImpl.setInpOutShape]; rw [ewn, a3]
  · rw [hl4, hl3, hl2]; simp only [DeConvolutionLayerImpl.setInpOutShape]; rw [eic, a4]
  · rw [hl4, hl3, hl2]; simp only [DeConvolutionLayerImpl.setInpOutShape]; rw [eir]
  · rw [hl4, hl3, hl2]; simp only [DeConvolutionLayerImpl.setInpOutShape]; rw [eil]
  · rw [hkern, ← hwr, ewr]
  · rw [hkern, ← hwc, ewl]
  · intro h1
    have h13 : BaseConvolutionLayerImpl.is1x1 l3 = false := by
      rw [hl4] at h1; exact h1
    obtain ⟨_, hl4'⟩ := (allocColRow_ok ha).2 h13
    have ecs : l3.colRowBlobShape = [l'.ksize, l'.inpH * l'.inpW] := by
      rw [hl4, hl3, hl2]
    have eh : l'.inpH = (H : Int) := by
      rw [hl4, hl3, hl2]; simp only [DeConvolutionLayerImpl.setInpOutShape]; rw [eir]
    have ew : l'.inpW = (W : Int) := by
      rw [hl4, hl3, hl2]; simp only [DeConvolutionLayerImpl.setInpOutShape]; rw [eil]
    have hcs : l'.colRowBlob.shape = l3.colRowBlobShape.map Int.toNat := by rw [hl4']
    rw [hcs, ecs, hks, eh, ew]
    simp only [List.map_cons, List.map_nil, Int.toNat_ofNat]
    rw [toNat_mul_cast]
  · intro ii inp hii
    have hmem : inp ∈ inputs := List.getElem?_mem hii
    have hag : inputAgrees input inp = true := (List.all_eq_true.1 hall) _ hmem
    obtain ⟨_, M, hM⟩ := inputAgrees_shape hins hag
    exact ⟨M, by rw [hM, a4]⟩

/-- C19: after a successful `allocate` of a deconvolution, the weight tensor has the shape
`(outCn, inpCn/group, kernelH, kernelW)` and as many elements as the matrix `(inpCn, ksize)`
with `ksize = outGroupCn*kernelH*kernelW`, so that the reshape of line 306 succeeds; and
for every input, batch item `n` and group `g` the slices of lines 322-323 exist and the
product of line 325, the transposed `(inpGroupCn, ksize)` weight slice times the
`(inpGroupCn, inpH*inpW)` input slice, conforms with every destination of the scratch
buffer's shape `(ksize, inpH*inpW)`, which is the shape of the scratch buffer when the layer
is not 1x1. -/
theorem deconv_reshape_gemm_conform (env : Env) (l l' : Layer) (inputs outputs outs : List Blob)
    (hk : l.layerKind = LayerKind.Deconvolution)
    (h : BaseConvolutionLayerImpl.allocate env l inputs outputs = (none, l', outs)) :
    ∃ w weightsMat,
      l'.blobs[0]? = some w ∧
      w.shape.map Int.ofNat =
        [l'.outCn, l'.inpCn.tdiv l'.group, l'.kernel.height, l'.kernel.width] ∧
      l'.inpGroupCn = l'.inpCn.tdiv l'.group ∧
      l'.ksize = l'.outGroupCn * l'.kernel.height * l'.kernel.width ∧
      (w.total : Int)
        = l'.outCn * l'.inpCn.tdiv l'.group * l'.kernel.height * l'.kernel.width ∧
      l'.outCn * l'.inpCn.tdiv l'.group * l'.kernel.height * l'.kernel.width
        = l'.inpCn * l'.ksize ∧
      reshaped w.getRefConst l'.inpCn l'.ksize = Except.ok weightsMat ∧
      weightsMat.rows = l'.inpCn.toNat ∧ weightsMat.cols = l'.ksize.toNat ∧
      (BaseConvolutionLayerImpl.is1x1 l' = false →
        ∃ colMat, l'.colRowBlob.getMat = Except.ok colMat ∧
          colMat.rows = l'.ksize.toNat ∧ colMat.cols = (l'.inpH * l'.inpW).toNat) ∧
      ∀ (ii : Nat) (inp : Blob), inputs[ii]? = some inp →
        ∃ numImg convBlob, inp.shape.head? = some numImg ∧
          reshaped inp.getRefConst ((numImg : Int) * l'.inpCn) (l'.inpH * l'.inpW)
            = Except.ok convBlob ∧
          ∀ (n g : Nat) (colMat : Mat), n < numImg → g < l'.group.toNat →
            colMat.rows = l'.ksize.toNat → colMat.cols = (l'.inpH * l'.inpW).toNat →
            ∃ res, DeConvolutionLayerImpl.multiply l' weightsMat convBlob colMat n g
                = Except.ok res ∧
              res.rows = l'.ksize.toNat ∧ res.cols = (l'.inpH * l'.inpW).toNat := by
  obtain ⟨G, I, O, kh, kw, H, W, w, hw, hws, hG, hI, eG, eI, eO, eOC, eIC, eH, eW, ekh, ekw,
    eks, hcr, hinp⟩ := allocate_deconv_ready hk h
  have hdiv : l'.inpCn.tdiv l'.group = (I : Int) := by
    rw [eIC, eG, ← Int.ofNat_tdiv, Nat.mul_div_cancel_left I (by omega)]
  have hksn : l'.ksize.toNat = O * kh * kw := by rw [eks]; exact Int.toNat_ofNat _
  have hicn : l'.inpCn.toNat = G * I := by rw [eIC]; exact Int.toNat_ofNat _
  have hhw : (l'.inpH * l'.inpW).toNat = H * W := by rw [eH, eW]; exact toNat_mul_cast _ _
  have hwt : w.total = G * O * I * kh * kw := total_shape4 w _ _ _ _ hws
  have hwm : reshaped w.getRefConst l'.inpCn l'.ksize
      = Except.ok ⟨G * I, O * kh * kw, fun i j =>
          w.getRefConst.buf (w.getRefConst.offset + (i * (O * kh * kw) + j))⟩ := by
    apply reshaped_ok _ _ _ _ _ eIC eks
    have : w.getRefConst.total = w.total := by
      unfold MatView.total Blob.getRefConst Blob.total
      rfl
    rw [this, hwt]
    ring
  refine ⟨w, _, hw, ?_, by rw [hdiv, eI], ?_, ?_, ?_, hwm, by rw [hicn], by rw [hksn], ?_, ?_⟩
  · rw [hws, hdiv, eOC, ekh, ekw]
    rfl
  · rw [eks, eO, ekh, ekw]
    push_cast
    rfl
  · rw [hwt, hdiv, eOC, ekh, ekw]
    push_cast
    ring
  · rw [hdiv, eOC, eIC, eks, ekh, ekw]
    push_cast
    ring
  · intro h1
    refine ⟨_, getMat_ok _ _ _ (hcr h1), ?_, ?_⟩
    · rw [hksn]
    · rw [hhw]
  · intro ii inp hii
    obtain ⟨N, hN⟩ := hinp ii inp hii
    have hit : inp.getRefConst.total = N * (G * I) * H * W := by
      have : inp.getRefConst.total = inp.total := by
        unfold MatView.total Blob.getRefConst Blob.total
        rfl
      rw [this]
      exact total_shape4 inp _ _ _ _ hN
    have hcb : reshaped inp.getRefConst ((N : Int) * l'.inpCn) (l'.inpH * l'.inpW)
        = Except.ok ⟨N * (G * I), H * W, fun i j =>
            inp.getRefConst.buf (inp.getRefConst.offset + (i * (H * W) + j))⟩ := by
      apply reshaped_ok
      · rw [eIC]; push_cast; rfl
      · rw [eH, eW]; push_cast; rfl
      · rw [hit]; ring
    refine ⟨N, _, by rw [hN]; rfl, hcb, ?_⟩
    intro n g colMat hn hg hr hc
    rw [eG, Int.toNat_ofNat] at hg
    unfold DeConvolutionLayerImpl.multiply
    have hle1 : (g + n * G) * I + I ≤ N * (G * I) := by
      have := pair_block_le I hn hg
      rw [Nat.mul_assoc] at this
      exact this
    have hle2 : g * I + I ≤ G * I := group_block_le I hg
    rw [rowRange_ok _ _ _ ((g + n * G) * I) I (by rw [eG, eI]; push_cast; rfl) eI hle1,
      rowRange_ok _ _ _ (g * I) I (by rw [eI]; push_cast; rfl) eI hle2]
    simp only
    rw [gemm_ok]
    · refine ⟨_, rfl, hr, ?_⟩
      rw [hc]
    · simp only [if_true, Mat.t, Bool.false_eq_true, if_false]
      refine ⟨trivial, ?_, ?_⟩
      · rw [hr, hksn]
      · rw [hc, hhw]

/-- C19 witness: the 2x2 deconvolution layer on the single element input; the weight of four
elements is reshaped to a (1, 4) matrix and the product has the scratch shape (4, 1). -/
theorem deconv_reshape_gemm_conform_witness :
    scatterDeconvLayer.layerKind = LayerKind.Deconvolution ∧
    (BaseConvolutionLayerImpl.allocate refEnv scatterDeconvLayer [unitInput] []).1 = none ∧
    (BaseConvolutionLayerImpl.allocate refEnv scatterDeconvLayer [unitInput] []).2.1.ksize = 4 ∧
    (BaseConvolutionLayerImpl.allocate refEnv scatterDeconvLayer [unitInput]
      []).2.1.colRowBlob.shape = [4, 1] ∧
    ∃ w weightsMat,
      (BaseConvolutionLayerImpl.allocate refEnv scatterDeconvLayer [unitInput] []).2.1.blobs[0]?
        = some w ∧
      reshaped w.getRefConst
        (BaseConvolutionLayerImpl.allocate refEnv scatterDeconvLayer [unitInput] []).2.1.inpCn
        (BaseConvolutionLayerImpl.allocate refEnv scatterDeconvLayer [unitInput] []).2.1.ksize
        = Except.ok weightsMat := by
  obtain ⟨w, weightsMat, h1, _, _, _, _, _, h7, _⟩ :=
    deconv_reshape_gemm_conform refEnv scatterDeconvLayer
      (BaseConvolutionLayerImpl.allocate refEnv scatterDeconvLayer [unitInput] []).2.1
      [unitInput] []
      (BaseConvolutionLayerImpl.allocate refEnv scatterDeconvLayer [unitInput] []).2.2
      rfl (Prod.ext (by decide) rfl)
  exact ⟨rfl, by decide, by decide, by decide, w, weightsMat, h1, h7⟩

/-! ## Steps of `allocate` that leave a layer as it is -/

/-- `init` leaves a layer alone whose `bias` flag and backend are already those it selects. -/
theorem init_fixed (env : Env) (l : Layer) (w : Blob) (hw : l.blobs[0]? = some w)
    (hlen : l.blobs.length ≤ 2)
    (hwd : w.dims = 4) (hwc : w.cols = l.kernel.width) (hwr : w.rows = l.kernel.height)
    (hb : l.bias = decide (2 ≤ l.blobs.length))
    (hu : l.useOpenCL
      = (env.oclUseOpenCL && l.tryUseOpenCL && decide (l.dilation = Size.mk 1 1))) :
    BaseConvolutionLayerImpl.init env l = (none, l) := by
  unfold BaseConvolutionLayerImpl.init
  cases hbl : l.blobs with
  | nil => rw [hbl] at hw; simp at hw
  | cons w0 rest =>
    rw [hbl] at hw hlen
    simp only [List.getElem?_cons_zero, Option.some.injEq] at hw
    subst hw
    have h1 : 1 ≤ (w0 :: rest).length ∧ (w0 :: rest).length ≤ 2 := ⟨by simp, hlen⟩
    rw [if_neg (not_not.2 h1)]
    simp only
    rw [if_neg (not_not.2 ⟨hwd, hwc, hwr⟩), ← hbl, ← hb, ← hu]

/-- `setInpShape` leaves a layer alone that already holds the extents of the input. -/
theorem conv_setInpShape_fixed (l : Layer) (w input : Blob) (h1 : l.numOutput = w.num)
    (h2 : l.inpH = input.rows) (h3 : l.inpW = input.cols) (h4 : l.inpCn = input.channels)
    (h5 : l.outCn = w.num) : ConvolutionLayerImpl.setInpShape l w input = l := by
  unfold ConvolutionLayerImpl.setInpShape
  cases l
  simp only at h1 h2 h3 h4 h5
  subst h1 h2 h3 h4 h5
  rfl

/-- `setOutSize` leaves a layer alone that already holds the output size. -/
theorem conv_setOutSize_fixed (env : Env) (l : Layer)
    (he : l.padMode.isEmpty = true → l.stride.height ≠ 0 ∧ l.stride.width ≠ 0 ∧
      l.outH = convOutSize l.inpH l.pad.height l.dilation.height l.kernel.height
        l.stride.height ∧
      l.outW = convOutSize l.inpW l.pad.width l.dilation.width l.kernel.width l.stride.width)
    (hp : l.padMode.isEmpty = false →
      env.getConvPoolOutParams l.inpH l.inpW l.kernel l.stride l.pad l.padMode
        = Except.ok (l.pad, l.outH, l.outW)) :
    ConvolutionLayerImpl.setOutSize env l = (none, l) := by
  unfold ConvolutionLayerImpl.setOutSize
  rcases Bool.eq_false_or_eq_true l.padMode.isEmpty with ht | hf
  · obtain ⟨s1, s2, e1, e2⟩ := he ht
    rw [if_pos ht, if_neg (by simp [s1, s2]), ← e1, ← e2]
  · rw [if_neg (by simp [hf]), hp hf]

/-- `setGroup` of the convolution leaves a layer alone that already holds the group count
and what is derived from it. -/
theorem conv_setGroup_fixed (l : Layer) (w : Blob) (hc : w.channels ≠ 0)
    (hg : l.group = l.inpCn.tdiv w.channels) (hg0 : l.group ≠ 0)
    (hm1 : l.inpCn.tmod l.group = 0) (hm2 : l.outCn.tmod l.group = 0)
    (hn : w.num = l.outCn) (hch : w.channels = l.inpCn.tdiv l.group)
    (ho : l.outGroupCn = l.outCn.tdiv l.group) (hi : l.inpGroupCn = l.inpCn.tdiv l.group)
    (hk : l.ksize = l.inpGroupCn * l.kernel.height * l.kernel.width)
    (hs : l.colRowBlobShape = [l.outH * l.outW, l.ksize]) :
    ConvolutionLayerImpl.setGroup l w = (none, l) := by
  unfold ConvolutionLayerImpl.setGroup
  rw [if_neg hc]
  simp only
  rw [← hg, if_neg hg0, if_neg (not_not.2 ⟨hm1, hm2⟩), if_neg (not_not.2 ⟨hn, hch⟩),
    ← hi, ← ho, ← hk, ← hs]

/-- `setInpOutShape` leaves a layer alone that already holds the extents. -/
theorem deconv_setInpOutShape_fixed (l : Layer) (w input : Blob) (h1 : l.numOutput = w.num)
    (h2 : l.inpH = input.rows) (h3 : l.inpW = input.cols) (h4 : l.inpCn = input.channels)
    (h5 : l.outCn = w.num)
    (h6 : l.outH = deconvOutSize input.rows l.pad.height l.kernel.height l.stride.height
      l.adjustPad.height)
    (h7 : l.outW = deconvOutSize input.cols l.pad.width l.kernel.width l.stride.width
      l.adjustPad.width) : DeConvolutionLayerImpl.setInpOutShape l w input = l := by
  unfold DeConvolutionLayerImpl.setInpOutShape
  cases l
  simp only at h1 h2 h3 h4 h5 h6 h7
  subst h1 h2 h3 h4 h5 h6 h7
  rfl

/-- `setGroup` of the deconvolution leaves a layer alone that already holds the group count
and what is derived from it. -/
theorem deconv_setGroup_fixed (l : Layer) (w : Blob) (hc : w.channels ≠ 0)
    (hg : l.group = l.inpCn.tdiv w.channels) (hg0 : l.group ≠ 0)
    (hm1 : l.inpCn.tmod l.group = 0) (hm2 : l.outCn.tmod l.group = 0)
    (hn : w.num = l.outCn) (hch : w.channels = l.inpCn.tdiv l.group)
    (ho : l.outGroupCn = l.outCn.tdiv l.group) (hi : l.inpGroupCn = l.inpCn.tdiv l.group)
    (hk : l.ksize = l.outGroupCn * l.kernel.height * l.kernel.width)
    (hs : l.colRowBlobShape = [l.ksize, l.inpH * l.inpW]) :
    DeConvolutionLayerImpl.setGroup l w = (none, l) := by
  unfold DeConvolutionLayerImpl.setGroup
  rw [if_neg hc]
  simp only
  rw [← hg, if_neg hg0, if_neg (not_not.2 ⟨hm1, hm2⟩), if_neg (not_not.2 ⟨hn, hch⟩),
    ← ho, ← hi, ← hk, ← hs]

/-- The values stored by a successful `setOutSize`. -/
theorem conv_setOutSize_form {env : Env} {l l1 : Layer}
    (h : ConvolutionLayerImpl.setOutSize env l = (none, l1)) :
    ∃ pad oh ow, l1 = { l with pad := pad, outH := oh, outW := ow } ∧
      (l.padMode.isEmpty = true → pad = l.pad ∧ l.stride.height ≠ 0 ∧ l.stride.width ≠ 0 ∧
        oh = convOutSize l.inpH l.pad.height l.dilation.height l.kernel.height
          l.stride.height ∧
        ow = convOutSize l.inpW l.pad.width l.dilation.width l.kernel.width l.stride.width) ∧
      (l.padMode.isEmpty = false →
        env.getConvPoolOutParams l.inpH l.inpW l.kernel l.stride l.pad l.padMode
          = Except.ok (pad, oh, ow)) := by
  obtain ⟨h1, h2⟩ := conv_setOutSize_ok h
  rcases Bool.eq_false_or_eq_true l.padMode.isEmpty with ht | hf
  · obtain ⟨s1, s2, e⟩ := h1 ht
    refine ⟨l.pad, _, _, e, fun _ => ⟨rfl, s1, s2, rfl, rfl⟩, fun hf => ?_⟩
    rw [ht] at hf
    cases hf
  · obtain ⟨pad, hg, e⟩ := h2 hf
    refine ⟨pad, l1.outH, l1.outW, e, fun ht => ?_, fun _ => hg⟩
    rw [hf] at ht
    cases ht

/-- The state after a successful shape inference of the convolution, written with the
fields of the resulting layer. -/
theorem conv_computeInpOutShape_fields {env : Env} {l l2 : Layer} {input : Blob}
    (h : ConvolutionLayerImpl.computeInpOutShape env l input = (none, l2)) :
    ∃ w, l.blobs[0]? = some w ∧ biasLengthOk l w = Except.ok true ∧
      l2.numOutput = w.num ∧ l2.inpH = input.rows ∧ l2.inpW = input.cols ∧
      l2.inpCn = input.channels ∧ l2.outCn = w.num ∧
      w.channels ≠ 0 ∧ l2.group = l2.inpCn.tdiv w.channels ∧ l2.group ≠ 0 ∧
      l2.inpCn.tmod l2.group = 0 ∧ l2.outCn.tmod l2.group = 0 ∧
      w.num = l2.outCn ∧ w.channels = l2.inpCn.tdiv l2.group ∧
      l2.outGroupCn = l2.outCn.tdiv l2.group ∧ l2.inpGroupCn = l2.inpCn.tdiv l2.group ∧
      l2.ksize = l2.inpGroupCn * l2.kernel.height * l2.kernel.width ∧
      l2.colRowBlobShape = [l2.outH * l2.outW, l2.ksize] ∧
      (l.padMode.isEmpty = true → l2.stride.height ≠ 0 ∧ l2.stride.width ≠ 0 ∧
        l2.pad = l.pad ∧
        l2.outH = convOutSize l2.inpH l2.pad.height l2.dilation.height l2.kernel.height
          l2.stride.height ∧
        l2.outW = convOutSize l2.inpW l2.pad.width l2.dilation.width l2.kernel.width
          l2.stride.width) ∧
      (l.padMode.isEmpty = false →
        env.getConvPoolOutParams l2.inpH l2.inpW l2.kernel l2.stride l.pad l2.padMode
          = Except.ok (l2.pad, l2.outH, l2.outW)) := by
  obtain ⟨w, l1, hw, hbl, hs, hg⟩ := conv_computeInpOutShape_ok h
  obtain ⟨pad, oh, ow, hl1, hA, hB⟩ := conv_setOutSize_form hs
  obtain ⟨c1, c2, c3, c4, c5, c6, hl2⟩ := conv_setGroup_ok hg
  subst hl2
  subst hl1
  refine ⟨w, hw, hbl, rfl, rfl, rfl, rfl, rfl, c1, rfl, c2, c3, c4, c5, c6, rfl, rfl, rfl, rfl,
    ?_, ?_⟩
  · intro ht
    obtain ⟨p1, s1, s2, e1, e2⟩ := hA ht
    subst p1 e1 e2
    exact ⟨s1, s2, rfl, rfl, rfl⟩
  · intro hf
    exact hB hf

/-- The state after a successful shape inference of the deconvolution, written with the
fields of the resulting layer. -/
theorem deconv_computeInpOutShape_fields {l l2 : Layer} {input : Blob}
    (h : DeConvolutionLayerImpl.computeInpOutShape l input = (none, l2)) :
    ∃ w, l.blobs[0]? = some w ∧ biasLengthOk l w = Except.ok true ∧
      l2.numOutput = w.num ∧ l2.inpH = input.rows ∧ l2.inpW = input.cols ∧
      l2.inpCn = input.channels ∧ l2.outCn = w.num ∧
      l2.outH = deconvOutSize input.rows l2.pad.height l2.kernel.height l2.stride.height
        l2.adjustPad.height ∧
      l2.outW = deconvOutSize input.cols l2.pad.width l2.kernel.width l2.stride.width
        l2.adjustPad.width ∧
      w.channels ≠ 0 ∧ l2.group = l2.inpCn.tdiv w.channels ∧ l2.group ≠ 0 ∧
      l2.inpCn.tmod l2.group = 0 ∧ l2.outCn.tmod l2.group = 0 ∧
      w.num = l2.outCn ∧ w.channels = l2.inpCn.tdiv l2.group ∧
      l2.outGroupCn = l2.outCn.tdiv l2.group ∧ l2.inpGroupCn = l2.inpCn.tdiv l2.group ∧
      l2.ksize = l2.outGroupCn * l2.kernel.height * l2.kernel.width ∧
      l2.colRowBlobShape = [l2.ksize, l2.inpH * l2.inpW] := by
  obtain ⟨w, hw, hbl, hg⟩ := deconv_computeInpOutShape_ok h
  obtain ⟨c1, c2, c3, c4, c5, c6, hl2⟩ := deconv_setGroup_ok hg
  subst hl2
  exact ⟨w, hw, hbl, rfl, rfl, rfl, rfl, rfl, rfl, rfl, c1, rfl, c2, c3, c4, c5, c6, rfl, rfl,
    rfl, rfl⟩

/-- The bias-length assertion reads only the `bias` flag and the blobs. -/
theorem biasLengthOk_congr {l l' : Layer} (w : Blob) (hb : l'.bias = l.bias)
    (hbl : l'.blobs = l.blobs) : biasLengthOk l' w = biasLengthOk l w := by
  unfold biasLengthOk
  rw [hb, hbl]

/-- Shape inference run again on its own result, whose two buffers may have been replaced
since, changes nothing. In pad mode this needs the shape utility to return the same result
when it is handed the pad it has returned. -/
theorem computeInpOutShape_fixed {env : Env} {l1 l2 l' : Layer} {input : Blob}
    (hc : computeInpOutShape env l1 input = (none, l2))
    (hstab : l1.layerKind = LayerKind.Convolution → l1.padMode.isEmpty = false →
      ∀ pad oh ow,
        env.getConvPoolOutParams input.rows input.cols l1.kernel l1.stride l1.pad l1.padMode
          = Except.ok (pad, oh, ow) →
        env.getConvPoolOutParams input.rows input.cols l1.kernel l1.stride pad l1.padMode
          = Except.ok (pad, oh, ow))
    (b3 b4 : Blob) (hl' : l' = { l2 with biasOnesBlob := b3, colRowBlob := b4 }) :
    computeInpOutShape env l' input = (none, l') := by
  obtain ⟨c1, c2, c3, c4, c5, c6, c7, c8, c9, c10⟩ := computeInpOutShape_config env l1 input
  rw [hc] at c1 c2 c3 c4 c5 c6 c7 c8 c9 c10
  simp only at c1 c2 c3 c4 c5 c6 c7 c8 c9 c10
  have k1 : l'.kernel = l2.kernel := by rw [hl']
  have k2 : l'.stride = l2.stride := by rw [hl']
  have k3 : l'.dilation = l2.dilation := by rw [hl']
  have k4 : l'.adjustPad = l2.adjustPad := by rw [hl']
  have k5 : l'.padMode = l2.padMode := by rw [hl']
  have k6 : l'.blobs = l2.blobs := by rw [hl']
  have k8 : l'.bias = l2.bias := by rw [hl']
  have k10 : l'.layerKind = l2.layerKind := by rw [hl']
  have k11 : l'.pad = l2.pad := by rw [hl']
  have f1 : l'.numOutput = l2.numOutput := by rw [hl']
  have f2 : l'.inpH = l2.inpH := by rw [hl']
  have f3 : l'.inpW = l2.inpW := by rw [hl']
  have f4 : l'.inpCn = l2.inpCn := by rw [hl']
  have f5 : l'.outCn = l2.outCn := by rw [hl']
  have f6 : l'.outH = l2.outH := by rw [hl']
  have f7 : l'.outW = l2.outW := by rw [hl']
  have f8 : l'.group = l2.group := by rw [hl']
  have f9 : l'.outGroupCn = l2.outGroupCn := by rw [hl']
  have f10 : l'.inpGroupCn = l2.inpGroupCn := by rw [hl']
  have f11 : l'.ksize = l2.ksize := by rw [hl']
  have f12 : l'.colRowBlobShape = l2.colRowBlobShape := by rw [hl']
  unfold computeInpOutShape at hc ⊢
  rw [k10, c10]
  cases hk : l1.layerKind with
  | Convolution =>
    rw [hk] at hc
    simp only at hc ⊢
    obtain ⟨w, hw, hbl, a1, a2, a3, a4, a5, a6, a7, a8, a9, a10, a11, a12, a13, a14, a15, a16,
      hA, hB⟩ := conv_computeInpOutShape_fields hc
    have hw' : l'.blobs[0]? = some w := by rw [k6, c6]; exact hw
    have hbl' : biasLengthOk l' w = Except.ok true := by
      rw [biasLengthOk_congr w (k8.trans c8) (k6.trans c6)]; exact hbl
    unfold ConvolutionLayerImpl.computeInpOutShape
    rw [hw']
    simp only
    rw [hbl']
    simp only
    rw [conv_setInpShape_fixed l' w input (by rw [f1, a1]) (by rw [f2, a2]) (by rw [f3, a3])
      (by rw [f4, a4]) (by rw [f5, a5])]
    rw [conv_setOutSize_fixed env l' ?_ ?_]
    · simp only
      apply conv_setGroup_fixed l' w a6
      · rw [f8, f4]; exact a7
      · rw [f8]; exact a8
      · rw [f4, f8]; exact a9
      · rw [f5, f8]; exact a10
      · rw [f5]; exact a11
      · rw [f4, f8]; exact a12
      · rw [f9, f5, f8]; exact a13
      · rw [f10, f4, f8]; exact a14
      · rw [f11, f10, k1]; exact a15
      · rw [f12, f6, f7, f11]; exact a16
    · intro ht
      rw [k5, c5] at ht
      obtain ⟨s1, s2, _, e1, e2⟩ := hA ht
      rw [k2, f6, f7, f2, f3, k11, k3, k1]
      exact ⟨s1, s2, e1, e2⟩
    · intro hf
      rw [k5, c5] at hf
      have hg := hB hf
      rw [a2, a3, c1, c2, c5] at hg
      have hs := hstab hk hf _ _ _ hg
      rw [f2, f3, k1, k2, k11, k5, f6, f7, a2, a3, c1, c2, c5]
      exact hs
  | Deconvolution =>
    rw [hk] at hc
    simp only at hc ⊢
    obtain ⟨w, hw, hbl, a1, a2, a3, a4, a5, d1, d2, a6, a7, a8, a9, a10, a11, a12, a13, a14, a15,
      a16⟩ := deconv_computeInpOutShape_fields hc
    have hw' : l'.blobs[0]? = some w := by rw [k6, c6]; exact hw
    have hbl' : biasLengthOk l' w = Except.ok true := by
      rw [biasLengthOk_congr w (k8.trans c8) (k6.trans c6)]; exact hbl
    unfold DeConvolutionLayerImpl.computeInpOutShape
    rw [hw']
    simp only
    rw [hbl']
    simp only
    rw [deconv_setInpOutShape_fixed l' w input (by rw [f1, a1]) (by rw [f2, a2])
      (by rw [f3, a3]) (by rw [f4, a4]) (by rw [f5, a5])
      (by rw [f6, k11, k1, k2, k4]; exact d1) (by rw [f7, k11, k1, k2, k4]; exact d2)]
    apply deconv_setGroup_fixed l' w a6
    · rw [f8, f4]; exact a7
    · rw [f8]; exact a8
    · rw [f4, f8]; exact a9
    · rw [f5, f8]; exact a10
    · rw [f5]; exact a11
    · rw [f4, f8]; exact a12
    · rw [f9, f5, f8]; exact a13
    · rw [f10, f4, f8]; exact a14
    · rw [f11, f9, k1]; exact a15
    · rw [f12, f11, f2, f3]; exact a16

/-- A loop whose body returns the state unchanged at every index returns it unchanged. -/
theorem loopFrom_fixed_point {σ : Type} (body : Nat → σ → Option Error × σ) (s : σ) (n : Nat)
    (h : ∀ j, j < n → body j s = (none, s)) :
    ∀ (k i : Nat), i + k = n → loopFrom body k i s = (none, s) := by
  intro k
  induction k with
  | zero => intro i _; rfl
  | succ k ih =>
    intro i hik
    simp only [loopFrom]
    rw [h i (by omega)]
    exact ih (i + 1) (by omega)

/-- Resizing a vector to its own length changes nothing. -/
theorem resize_self (outs : List Blob) : resize outs outs.length = outs := by
  unfold resize
  simp

/-- `create` with the shape, type and location a blob already has changes nothing. -/
theorem create_fixed (b : Blob) (shape : List Int) (type : Depth) (fl : AllocFlag)
    (hnn : ∀ d ∈ shape, 0 ≤ d) (hs : b.shape = shape.map Int.toNat) (ht : b.type = type)
    (ha : b.alloc = fl) : b.create shape type fl = Except.ok b := by
  unfold Blob.create
  have hall : shape.all (fun d => decide (0 ≤ d)) = true := by
    rw [List.all_eq_true]
    intro d hd
    exact decide_eq_true (hnn d hd)
  rw [if_pos hall, ← hs, ← ht, ← ha]

/-- The ones vector is left alone when it already has its shape, type and contents. -/
theorem allocBiasOnes_fixed (l : Layer) (type : Depth) (fl : AllocFlag)
    (h : l.bias = true → 0 ≤ l.outH * l.outW ∧
      l.biasOnesBlob = ⟨[1, (l.outH * l.outW).toNat], type, fl, fun _ => 1⟩) :
    allocBiasOnes l type fl = (none, l) := by
  unfold allocBiasOnes
  rcases Bool.eq_false_or_eq_true l.bias with hb | hb
  · obtain ⟨h0, hbl⟩ := h hb
    rw [if_pos hb, create_fixed l.biasOnesBlob [1, l.outH * l.outW] type fl
      (by intro d hd; simp at hd; rcases hd with rfl | rfl <;> omega)
      (by rw [hbl]; rfl) (by rw [hbl]) (by rw [hbl])]
    simp only
    have : l.biasOnesBlob.setTo 1 = l.biasOnesBlob := by
      unfold Blob.setTo
      rw [hbl]
    rw [this]
  · rw [if_neg (by simp [hb])]

/-- The scratch buffer is left alone when it already has its shape, type and contents. -/
theorem allocColRow_fixed (l : Layer) (type : Depth) (fl : AllocFlag)
    (h : BaseConvolutionLayerImpl.is1x1 l = false → (∀ d ∈ l.colRowBlobShape, 0 ≤ d) ∧
      l.colRowBlob = ⟨l.colRowBlobShape.map Int.toNat, type, fl, fun _ => 0⟩) :
    allocColRow l type fl = (none, l) := by
  unfold allocColRow
  rcases Bool.eq_false_or_eq_true (BaseConvolutionLayerImpl.is1x1 l) with hb | hb
  · rw [if_neg (by simp [hb])]
  · obtain ⟨h0, hbl⟩ := h hb
    rw [if_pos (by simp [hb]), create_fixed l.colRowBlob l.colRowBlobShape type fl h0
      (by rw [hbl]) (by rw [hbl]) (by rw [hbl])]
    simp only
    have : l.colRowBlob.setTo 0 = l.colRowBlob := by
      unfold Blob.setTo
      rw [hbl]
    rw [this]

/-- An output that already has its shape, type and location is left alone. -/
theorem createOutput_fixed (l : Layer) (inputs : List Blob) (type : Depth) (fl : AllocFlag)
    (i : Nat) (outs : List Blob) (inp out : Blob) (hi : inputs[i]? = some inp)
    (ho : outs[i]? = some out) (h1 : 0 ≤ l.outCn) (h2 : 0 ≤ l.outH) (h3 : 0 ≤ l.outW)
    (hs : out.shape = [inp.num.toNat, l.outCn.toNat, l.outH.toNat, l.outW.toNat])
    (ht : out.type = type) (ha : out.alloc = fl) :
    createOutput l inputs type fl i outs = (none, outs) := by
  unfold createOutput
  rw [hi, ho]
  simp only
  have hn : 0 ≤ inp.num := Int.ofNat_nonneg _
  rw [create_fixed out [inp.num, l.outCn, l.outH, l.outW] type fl
    (by intro d hd; simp at hd; rcases hd with rfl | rfl | rfl | rfl <;> assumption)
    (by rw [hs]; rfl) ht ha]
  simp only
  rw [set_getElem?_self outs i out ho]

/-- C14: `allocate` is idempotent for unchanged inputs. After a successful `allocate`, a
second call on the resulting layer, with the same inputs and the outputs vector it has
produced, succeeds and returns that layer and that outputs vector unchanged: the derived
layer state, the shapes of the outputs, of the scratch buffer and of the ones vector are the
same, and so are their contents. For a convolution in pad mode the shape utility, which
lies outside this file, must return the same result when it is handed the pad it has
returned. -/
theorem allocate_idempotent (env : Env) (l l' : Layer) (inputs outputs outs : List Blob)
    (h : BaseConvolutionLayerImpl.allocate env l inputs outputs = (none, l', outs))
    (hstab : l.layerKind = LayerKind.Convolution → l.padMode.isEmpty = false →
      ∀ input pad oh ow, inputs[0]? = some input →
        env.getConvPoolOutParams input.rows input.cols l.kernel l.stride l.pad l.padMode
          = Except.ok (pad, oh, ow) →
        env.getConvPoolOutParams input.rows input.cols l.kernel l.stride pad l.padMode
          = Except.ok (pad, oh, ow)) :
    BaseConvolutionLayerImpl.allocate env l' inputs outs = (none, l', outs) := by
  obtain ⟨input, l1, l2, l3, hin, hi, hd4, hty, hall, hc, hb, hf, ha⟩ := allocate_ok h
  obtain ⟨hl1, w, hw, hwd, hwc, hwr, hlen2⟩ := init_ok hi
  obtain ⟨g1, g2, g3, g4, g5, g6, g7, g8, g9, g10⟩ := allocate_config h
  obtain ⟨b3, hl3⟩ := allocBiasOnes_frame hb
  obtain ⟨b4, hl4⟩ := allocColRow_frame ha
  have hl' : l' = { l2 with biasOnesBlob := b3, colRowBlob := b4 } := by rw [hl4, hl3]
  have hu2 : l2.useOpenCL = l'.useOpenCL := by rw [hl']
  have hu3 : l3.useOpenCL = l'.useOpenCL := by rw [hl4]
  rw [hu2] at hb
  rw [hu3] at hf ha
  -- the five steps of `allocate` on the layer `l'`
  have s1 : BaseConvolutionLayerImpl.init env l' = (none, l') := by
    apply init_fixed env l' w
    · rw [g6]; exact hw
    · rw [g6]; exact hlen2
    · exact hwd
    · rw [g1]; exact hwc
    · rw [g1]; exact hwr
    · rw [g9, g6]
    · rw [g10, g7, g3]
  have s2 : computeInpOutShape env l' input = (none, l') := by
    apply computeInpOutShape_fixed hc ?_ b3 b4 hl'
    intro hk hpm pad oh ow hg
    have e1 : l1.layerKind = l.layerKind := by rw [hl1]
    have e2 : l1.padMode = l.padMode := by rw [hl1]
    have e3 : l1.kernel = l.kernel := by rw [hl1]
    have e4 : l1.stride = l.stride := by rw [hl1]
    have e5 : l1.pad = l.pad := by rw [hl1]
    rw [e1] at hk
    rw [e2] at hpm
    rw [e2, e3, e4, e5] at hg
    rw [e2, e3, e4]
    exact hstab hk hpm input pad oh ow hin hg
  have s3 : allocBiasOnes l' input.type
      (if l'.useOpenCL then AllocFlag.ALLOC_UMAT else AllocFlag.ALLOC_MAT) = (none, l') := by
    apply allocBiasOnes_fixed
    intro hbt
    have hb2 : l2.bias = true := by rw [hl'] at hbt; exact hbt
    obtain ⟨h0, e3⟩ := (allocBiasOnes_ok hb).2 hb2
    have eh : l'.outH = l2.outH := by rw [hl']
    have ew : l'.outW = l2.outW := by rw [hl']
    rw [eh, ew]
    have e3b := congrArg Layer.biasOnesBlob e3
    have e4b : l'.biasOnesBlob = l3.biasOnesBlob := by rw [hl4]
    exact ⟨h0, e4b.trans e3b⟩
  have hlen : outs.length = inputs.length := (createOutputs_ok hf (resize_length _ _)).1
  have s4 : forLoop inputs.length (createOutput l' inputs input.type
      (if l'.useOpenCL then AllocFlag.ALLOC_UMAT else AllocFlag.ALLOC_MAT))
      (resize outs inputs.length) = (none, outs) := by
    rw [← hlen, resize_self, hlen]
    unfold forLoop
    apply loopFrom_fixed_point _ _ inputs.length _ _ _ (by omega)
    intro j hj
    obtain ⟨out, out0, ho, _, hout, n1, n2, n3⟩ :=
      (createOutputs_ok hf (resize_length _ _)).2 j inputs[j] (List.getElem?_eq_getElem hj)
    have ec : l'.outCn = l3.outCn := by rw [hl4]
    have eh : l'.outH = l3.outH := by rw [hl4]
    have ew : l'.outW = l3.outW := by rw [hl4]
    apply createOutput_fixed l' inputs input.type _ j outs inputs[j] out
      (List.getElem?_eq_getElem hj) ho
    · rw [ec]; exact n1
    · rw [eh]; exact n2
    · rw [ew]; exact n3
    · rw [hout, ec, eh, ew]
    · rw [hout]
    · rw [hout]
  have s5 : allocColRow l' input.type
      (if l'.useOpenCL then AllocFlag.ALLOC_UMAT else AllocFlag.ALLOC_MAT) = (none, l') := by
    apply allocColRow_fixed
    intro h1
    have h13 : BaseConvolutionLayerImpl.is1x1 l3 = false := by rw [hl4] at h1; exact h1
    obtain ⟨h0, e4⟩ := (allocColRow_ok ha).2 h13
    have es : l'.colRowBlobShape = l3.colRowBlobShape := by rw [hl4]
    rw [es]
    exact ⟨h0, congrArg Layer.colRowBlob e4⟩
  -- the second call
  cases hinp : inputs with
  | nil => rw [hinp] at hin; simp at hin
  | cons input0 rest =>
    have h0 : input0 = input := by
      rw [hinp] at hin
      simpa using hin
    subst h0
    rw [hinp] at s4 hall
    unfold BaseConvolutionLayerImpl.allocate
    simp only
    rw [s1]
    simp only
    rw [if_neg (not_not.2 ⟨hd4, hty⟩), if_neg (not_not.2 hall), s2]
    simp only
    rw [s3]
    simp only
    rw [s4]
    simp only
    rw [s5]

/-- C14 witness: the scenario layer, and the scenario layer in pad mode `SAME` with the
reference shape utility. -/
theorem allocate_idempotent_witness :
    (BaseConvolutionLayerImpl.allocate refEnv scenarioLayer [scenarioInput] []).1 = none ∧
    BaseConvolutionLayerImpl.allocate refEnv
      (BaseConvolutionLayerImpl.allocate refEnv scenarioLayer [scenarioInput] []).2.1
      [scenarioInput]
      (BaseConvolutionLayerImpl.allocate refEnv scenarioLayer [scenarioInput] []).2.2
      = (none, (BaseConvolutionLayerImpl.allocate refEnv scenarioLayer [scenarioInput] []).2.1,
          (BaseConvolutionLayerImpl.allocate refEnv scenarioLayer [scenarioInput] []).2.2) ∧
    (BaseConvolutionLayerImpl.allocate refEnv sameModeLayer [scenarioInput] []).1 = none ∧
    BaseConvolutionLayerImpl.allocate refEnv
      (BaseConvolutionLayerImpl.allocate refEnv sameModeLayer [scenarioInput] []).2.1
      [scenarioInput]
      (BaseConvolutionLayerImpl.allocate refEnv sameModeLayer [scenarioInput] []).2.2
      = (none, (BaseConvolutionLayerImpl.allocate refEnv sameModeLayer [scenarioInput] []).2.1,
          (BaseConvolutionLayerImpl.allocate refEnv sameModeLayer [scenarioInput] []).2.2) :=
  ⟨by decide,
    allocate_idempotent refEnv scenarioLayer _ [scenarioInput] [] _ (Prod.ext (by decide) rfl)
      (fun _ hf => absurd hf (by decide)),
    by decide,
    allocate_idempotent refEnv sameModeLayer _ [scenarioInput] [] _ (Prod.ext (by decide) rfl)
      (fun _ _ input pad oh ow hin hg => by
        simp only [List.getElem?_cons_zero, Option.some.injEq] at hin
        subst hin
        have hp : pad = Size.mk 1 1 := by
          have := congrArg (fun r => match r with
            | Except.ok v => v.1
            | Except.error _ => Size.mk 0 0) hg
          exact this.symm
        subst hp
        exact hg)⟩

end cv.dnn
